import Mathlib

/-!
# IEBUS / AVC-LAN bit-banged driver

A shallow embedding of `IEBUS.h` and `Settings.h`.

The driver talks to the bus through three hardware resources: the output pin
(`OUT_SET` / `OUT_CLEAR`), the input pin (`INPUT_IS_SET` / `INPUT_IS_CLEAR`) and
the free-running counter `TCNT0`.  The embedding works at the level of pulses:

* every sequence "wait for the rising edge, `TCNT0 = 0`, wait for the falling
  edge" of the source consumes one entry of `State.pulses`; the entry is the
  value read from `TCNT0` once the falling edge has been seen (the counter has 8 bits;
  the entries are natural numbers and nothing below depends on a bound);
* every busy-wait `while ( TCNT0 < k );` ends with the counter at `k`, or at once
  when the counter is already past `k` (`waitUntil`): the counter is ideal and the
  instructions between two waits take no tick;
* every pulse driven on the output is appended to `State.out`;
* a wait for an edge that never comes is the result `none`;
* one acknowledge slot is one pulse: `SendAcknowledge`, which waits for the rising edge
  of the slot and overdrives it without measuring it, takes one entry of `pulses`.

Functions keep the names of the source.  Where a function of the source is long, it is
cut at its `return`s into parts that call each other (`txAddresses`, `txControl`, ... for
`SendMessage`; `rxSlave`, `rxControl`, ... for `AvcReadMessage`), each with the lines it
stands for.
-/

namespace IEBus

/-! ## Settings.h -/

def HU_ADDRESS : Nat := 0x130
def MY_ADDRESS : Nat := 0x140
def BROADCAST_ADDRESS : Nat := 0xFFF
def CONTROL_FLAGS : Nat := 0xE

/-- Build-time switches of `Settings.h` (`ONLY_MY`, `SHOW_ERROR`) together with the
Arduino clock: `millis k` is the value returned by the `k`-th call of `millis()`. -/
structure Env where
  ONLY_MY : Bool
  SHOW_ERROR : Bool
  millis : Nat → Nat

/-- The switches as `Settings.h` sets them: `ONLY_MY true`, `SHOW_ERROR false`. -/
def Env.shipped (millis : Nat → Nat) : Env :=
  { ONLY_MY := true, SHOW_ERROR := false, millis := millis }

/-! ## IEBUS.h: timing constants -/

def NORMAL_BIT_LENGTH : Nat := 10
def BIT_1_HOLD_ON_LENGTH : Nat := 5
def BIT_0_HOLD_ON_LENGTH : Nat := 9
def BIT_HOLD_HALF_PERIOD : Nat := 7
def START_BIT_LENGTH : Nat := 47
def START_BIT_HOLD_ON_LENGTH : Nat := 42

/-! ## IEBUS.h: type definitions -/

/-- Enumerators of `AvcTransmissionMode`, as the integers the source gives them. -/
def MSG_NORMAL : Nat := 1
def MSG_BCAST : Nat := 0

/-- The struct `AvcOutgoingMessageStruct`; `Data` holds the 22 bytes of the array, the
initialiser padded with zeros. -/
structure AvcOutMessage where
  Mode : Nat
  DataSize : Nat
  Data : List Nat
  Description : String
deriving DecidableEq, Repr

/-- One action of the node on the bus output.

* `pulse high period`: `TCNT0 = 0; OUT_SET;`, `OUT_CLEAR` with the counter at `high`,
  the routine goes on with the counter at `period` (`Send*BitWord`, `SendStartBit`).
* `ackSlot high fall period`: the sender side of an acknowledge slot
  (`HandleAcknowledge`, normal mode): output driven for `high` ticks and released, the
  line seen to fall with the counter at `fall`, return with the counter at `period`.
* `ackDrive start stop`: the receiver side (`SendAcknowledge`): after the rising edge
  of the slot, `OUT_SET` with the counter at `start`, `OUT_CLEAR` at `stop`. -/
inductive Event where
  | pulse (high period : Nat)
  | ackSlot (high fall period : Nat)
  | ackDrive (start stop : Nat)
deriving DecidableEq, Repr

/-- What `Serial` receives.  `dump` is one call of `DumpRawMessage`: its argument
(which the printed text does not depend on) and the registers it prints; `text` is one
of the messages printed under `SHOW_ERROR`, without its formatted numbers. -/
inductive SerialLine where
  | dump (incoming Broadcast : Bool)
      (MasterAddress SlaveAddress Control DataSize : Nat) (Data : List Nat)
  | text (msg : String)
deriving DecidableEq, Repr

/-- The global variables of `IEBUS.h` (the message frame registers and the
registration state), the hardware they are used with and what the node has put out.

`SlaveAddress2`, `isRegistredTimer` and `Description` are never read or written by
the code and are left out.  `oob` lists the indices of the stores to `Data[i]` with
`i ≥ 32`, which C leaves undefined; such a store changes nothing else here. -/
structure State where
  Broadcast : Bool
  MasterAddress : Nat
  SlaveAddress : Nat
  Control : Nat
  DataSize : Nat
  ParityBit : Bool
  Data : List Nat
  isRegistred : Bool
  emulatorHandleBite : Nat
  lastRegistred : Nat
  TCNT0 : Nat
  led : Bool
  pulses : List Nat
  polls : List (Bool × Nat)
  millisCalls : Nat
  out : List Event
  serial : List SerialLine
  oob : List Nat
deriving DecidableEq, Repr

/-- The counter when `while ( TCNT0 < k );` ends, entered with the counter at `t`. -/
def waitUntil (t k : Nat) : Nat := if t < k then k else t

/-- Conversion of a C `bool` to the integer it is compared or sent as. -/
def boolInt (b : Bool) : Nat := if b then 1 else 0

def LedOn (s : State) : State := { s with led := true }

def LedOff (s : State) : State := { s with led := false }

/-- The call `millis()`. -/
def millis (env : Env) (s : State) : Nat × State :=
  (env.millis s.millisCalls, { s with millisCalls := s.millisCalls + 1 })

/-- The assignment `Data[i] = v` into the 32-byte array `Data`.  With `i ≥ 32` the code
writes behind the array, into whatever the linker has put there; the registers of this
state then no longer tell what the memory holds, and the store is only entered in `oob`.
A pass that leaves `oob` as it was has made no such store, and only of such a pass do the
registers of this state tell what the code has in memory. -/
def storeData (i v : Nat) (s : State) : State :=
  if i < 32 then { s with Data := s.Data.set i v } else { s with oob := s.oob ++ [i] }

/-- The read `Data[i]`. -/
def loadData (i : Nat) (s : State) : Nat := s.Data.getD i 0

/-! ## Encoders -/

/-- The body of the `for` loop shared by `Send12BitWord`, `Send8BitWord` and
`Send4BitWord`, which differ in the tested bit `mask`, in the width of `data`
(`modulus` is 2^16 for `word`, 2^8 for `byte`) and in the number of rounds. -/
def sendBits (mask modulus : Nat) : Nat → Nat → State → State
  | 0, _, s => s
  | n + 1, data, s =>
    let one := (data &&& mask) != 0
    let s1 := if one then { s with ParityBit := !s.ParityBit } else s
    let hold := if one then waitUntil 0 BIT_1_HOLD_ON_LENGTH else waitUntil 0 BIT_0_HOLD_ON_LENGTH
    let data1 := (data <<< 1) % modulus
    let done := waitUntil hold NORMAL_BIT_LENGTH
    sendBits mask modulus n data1
      { s1 with TCNT0 := done, out := s1.out ++ [Event.pulse hold done] }

def Send12BitWord (data : Nat) (s : State) : State :=
  sendBits 0x0800 65536 12 (data % 65536) { s with ParityBit := false }

def Send8BitWord (data : Nat) (s : State) : State :=
  sendBits 0x80 256 8 (data % 256) { s with ParityBit := false }

def Send4BitWord (data : Nat) (s : State) : State :=
  sendBits 0x8 256 4 (data % 256) { s with ParityBit := false }

def Send1BitWord (data : Bool) (s : State) : State :=
  let hold := if data then waitUntil 0 BIT_1_HOLD_ON_LENGTH else waitUntil 0 BIT_0_HOLD_ON_LENGTH
  let done := waitUntil hold NORMAL_BIT_LENGTH
  { s with TCNT0 := done, out := s.out ++ [Event.pulse hold done] }

def SendStartBit (s : State) : State :=
  let hold := waitUntil 0 START_BIT_HOLD_ON_LENGTH
  let done := waitUntil hold START_BIT_LENGTH
  { s with TCNT0 := done, out := s.out ++ [Event.pulse hold done] }

/-! ## Decoders -/

/-- The `while ( nbBits-- > 0 )` loop of `ReadBits`; `data` is a 16-bit `word`. -/
def readLoop : Nat → Nat → State → Option (Nat × State)
  | 0, data, s => some (data, s)
  | n + 1, data, s =>
    let data1 := (data <<< 1) % 65536
    match s.pulses with
    | [] => none
    | d :: rest =>
      if d < BIT_HOLD_HALF_PERIOD then
        readLoop n (data1 ||| 0x0001)
          { s with pulses := rest, ParityBit := !s.ParityBit,
                   TCNT0 := waitUntil d BIT_0_HOLD_ON_LENGTH }
      else
        readLoop n data1 { s with pulses := rest, TCNT0 := d }

/-- The argument `nbBits` is a `byte`. -/
def ReadBits (nbBits : Nat) (s : State) : Option (Nat × State) :=
  readLoop (nbBits % 256) 0 { s with ParityBit := false }

def getStartBit (s : State) : Option (Bool × State) :=
  match s.pulses with
  | [] => none
  | d :: rest =>
    let s1 := { s with pulses := rest, TCNT0 := d }
    if d > START_BIT_HOLD_ON_LENGTH - 2 ∧ d < START_BIT_LENGTH then some (true, s1)
    else some (false, s1)

/-- The `while ( INPUT_IS_CLEAR )` loop of `IsAvcBusFree`.  An entry of `polls` is one
evaluation of the loop condition: the sample of `INPUT_IS_CLEAR` and the value of
`TCNT0` at that moment.  Returns the result, the counter and the polls left. -/
def busFreeLoop : List (Bool × Nat) → Option (Bool × Nat × List (Bool × Nat))
  | [] => none
  | (clear, t) :: rest =>
    if clear then
      if t > NORMAL_BIT_LENGTH then some (true, t, rest) else busFreeLoop rest
    else some (false, t, rest)

def IsAvcBusFree (s : State) : Option (Bool × State) :=
  match busFreeLoop s.polls with
  | none => none
  | some (r, t, rest) => some (r, { s with TCNT0 := t, polls := rest })

/-- The spin `while ( ! IsAvcBusFree() );` of `SendMessage`, at most `fuel` calls. -/
def waitBusFree : Nat → State → Option State
  | 0, _ => none
  | fuel + 1, s =>
    match IsAvcBusFree s with
    | none => none
    | some (true, s1) => some s1
    | some (false, s1) => waitBusFree fuel s1

/-! ## Acknowledge -/

def HandleAcknowledge (s : State) : Option (Bool × State) :=
  if boolInt s.Broadcast == MSG_BCAST then
    some (true, Send1BitWord false s)
  else
    let hold := waitUntil 0 BIT_1_HOLD_ON_LENGTH
    match s.pulses with
    | [] => none
    | d :: rest =>
      let done := waitUntil d NORMAL_BIT_LENGTH
      let s1 := { s with pulses := rest, TCNT0 := done,
                         out := s.out ++ [Event.ackSlot hold d done] }
      if d > BIT_HOLD_HALF_PERIOD then some (true, s1) else some (false, s1)

/-- The pulse taken from `pulses` is the sender's acknowledge slot, whose rising edge
the routine waits for; its length is not measured. -/
def SendAcknowledge (s : State) : Option State :=
  match s.pulses with
  | [] => none
  | _ :: rest =>
    let start := waitUntil 0 1
    let stop := waitUntil start BIT_0_HOLD_ON_LENGTH
    some { s with pulses := rest, TCNT0 := stop, out := s.out ++ [Event.ackDrive start stop] }

/-! ## Diagnostics -/

/-- The lines `DumpRawMessage` prints: the fields of the frame and the `DataSize` bytes
`Data[0]`, ..., `Data[DataSize - 1]`.  With `DataSize > 32` the loop of the code reads
on behind the array; those bytes are not in this state, and the line here ends with the
32 bytes of `Data`, so that it is the line of the code only when `DataSize ≤ 32`. -/
def DumpRawMessage (incoming : Bool) (s : State) : State :=
  { s with serial := s.serial ++
      [SerialLine.dump incoming s.Broadcast s.MasterAddress s.SlaveAddress s.Control
        s.DataSize (s.Data.take s.DataSize)] }

/-- The call `Serial.print` of a message. -/
def serialPrint (msg : String) (s : State) : State :=
  { s with serial := s.serial ++ [SerialLine.text msg] }

/-! ## SendMessage -/

/-- The body of `if ( ! HandleAcknowledge() )` in `SendMessage`. -/
def noAck (env : Env) (msg : String) (s : State) : Bool × State :=
  if env.SHOW_ERROR then (false, serialPrint msg (DumpRawMessage true s)) else (false, s)

/-- The loop `for ( byte i = 0; i < DataSize; i++ )` of `SendMessage`: first argument
`DataSize - i`, second `i`.  The result `(true, _)` is the loop left at its end,
`(false, _)` is the `return false` inside it. -/
def sendData (env : Env) : Nat → Nat → State → Option (Bool × State)
  | 0, _, s => some (true, s)
  | k + 1, i, s =>
    let s1 := Send8BitWord (loadData i s) s
    let s2 := Send1BitWord s1.ParityBit s1
    match HandleAcknowledge s2 with
    | none => none
    | some (false, s3) => some (noAck env "SendMessage: No Ack @ Data" s3)
    | some (true, s3) => sendData env k (i + 1) s3

/-- Lines 860-881 of `SendMessage`: the data bytes, the dump of the frame sent. -/
def txData (env : Env) (s : State) : Option (Bool × State) :=
  match sendData env s.DataSize 0 s with
  | none => none
  | some (false, s1) => some (false, s1)
  | some (true, s1) => some (true, LedOff (DumpRawMessage true s1))

/-- Lines 846-858 of `SendMessage`: the length field, then the data. -/
def txLength (env : Env) (s : State) : Option (Bool × State) :=
  let s1 := Send8BitWord s.DataSize s
  let s2 := Send1BitWord s1.ParityBit s1
  match HandleAcknowledge s2 with
  | none => none
  | some (false, s3) => some (noAck env "SendMessage: No Ack @ DataSize" s3)
  | some (true, s3) => txData env s3

/-- Lines 832-844 of `SendMessage`: the control field, then the length. -/
def txControl (env : Env) (s : State) : Option (Bool × State) :=
  let s1 := Send4BitWord s.Control s
  let s2 := Send1BitWord s1.ParityBit s1
  match HandleAcknowledge s2 with
  | none => none
  | some (false, s3) => some (noAck env "SendMessage: No Ack @ Control" s3)
  | some (true, s3) => txLength env s3

/-- Lines 806-830 of `SendMessage`: start bit, mode bit and the two addresses, then the
control field. -/
def txAddresses (env : Env) (s : State) : Option (Bool × State) :=
  let s1 := SendStartBit s
  let s2 := Send1BitWord s1.Broadcast s1
  let s3 := Send12BitWord s2.MasterAddress s2
  let s4 := Send1BitWord s3.ParityBit s3
  let s5 := Send12BitWord s4.SlaveAddress s4
  let s6 := Send1BitWord s5.ParityBit s5
  match HandleAcknowledge s6 with
  | none => none
  | some (false, s7) => some (noAck env "SendMessage: No Ack @ Slave address" s7)
  | some (true, s7) => txControl env s7

def SendMessage (env : Env) (s : State) : Option (Bool × State) :=
  match waitBusFree (s.polls.length + 1) s with
  | none => none
  | some s0 => txAddresses env (LedOn s0)

/-! ## Command templates -/

def CmdHuPing : AvcOutMessage :=
  { Mode := MSG_NORMAL, DataSize := 1, Data := [0x1F] ++ List.replicate 21 0,
    Description := "Display ping" }

def CmdDdisplayReg : AvcOutMessage :=
  { Mode := MSG_BCAST, DataSize := 1, Data := [0x12] ++ List.replicate 21 0,
    Description := "Display register" }

def CmdDdisplayRegPing : AvcOutMessage :=
  { Mode := MSG_NORMAL, DataSize := 1, Data := [0x1f] ++ List.replicate 21 0,
    Description := "Display register" }

def CmdDdisplayAnsver : AvcOutMessage :=
  { Mode := MSG_NORMAL, DataSize := 5,
    Data := [0x11, 0x00, 0x01, 0x01, 0x85] ++ List.replicate 17 0,
    Description := "Ddisplay ansver from register request" }

def CmdDdisplayAnsver2 : AvcOutMessage :=
  { Mode := MSG_NORMAL, DataSize := 6,
    Data := [0x11, 0x00, 0x01, 0x02, 0x85, 0x93] ++ List.replicate 16 0,
    Description := "Ddisplay ansver from register request" }

/-- The loop `for ( byte i = 0; i < DataSize; i++ )` of `LoadDataInGlogalRegisters`:
first argument `DataSize - i`, second `i`. -/
def loadLoop (msg : AvcOutMessage) : Nat → Nat → State → State
  | 0, _, s => s
  | k + 1, i, s => loadLoop msg k (i + 1) (storeData i (msg.Data.getD i 0 % 256) s)

def LoadDataInGlogalRegisters (msg : AvcOutMessage) (s : State) : State :=
  let s1 := { s with Broadcast := (msg.Mode % 256) != 0 }
  let s2 := { s1 with MasterAddress := MY_ADDRESS }
  let s3 :=
    if boolInt s2.Broadcast == MSG_BCAST then { s2 with SlaveAddress := BROADCAST_ADDRESS }
    else { s2 with SlaveAddress := HU_ADDRESS }
  let s4 := { s3 with Control := CONTROL_FLAGS }
  let s5 := { s4 with DataSize := msg.DataSize % 256 }
  loadLoop msg s5.DataSize 0 s5

def AvcRegisterMe (env : Env) (s : State) : Option (Bool × State) :=
  let s1 := { s with Broadcast := MSG_BCAST != 0 }
  let s2 := { s1 with MasterAddress := MY_ADDRESS }
  let s3 := { s2 with SlaveAddress := BROADCAST_ADDRESS }
  let s4 := { s3 with Control := CONTROL_FLAGS }
  let s5 := { s4 with DataSize := 1 }
  let s6 := storeData 0 0x12 s5
  SendMessage env s6

/-! ## AvcReadMessage -/

/-- The idiom `p = ParityBit; if ( p != ReadBits( 1 ) )`: whether the parity bit read
from the bus differs from the parity of the field just read. -/
def parityMismatch (s : State) : Option (Bool × State) :=
  let p := s.ParityBit
  match ReadBits 1 s with
  | none => none
  | some (b, s1) => some (boolInt p != b, s1)

/-- The idiom `if ( forMe ) SendAcknowledge(); else ReadBits( 1 );`. -/
def ackOrSkip (forMe : Bool) (s : State) : Option State :=
  if forMe then SendAcknowledge s
  else
    match ReadBits 1 s with
    | none => none
    | some (_, s1) => some s1

/-- The body of a parity failure of the control, length and data fields, up to its
`return false`. -/
def parityError (env : Env) (forMe : Bool) (msg : String) (s : State) : State :=
  let s1 := if env.SHOW_ERROR then serialPrint msg s else s
  if s1.isRegistred && forMe then { s1 with isRegistred := false } else s1

/-- The condition of line 401, `DataSize == 0x3 && Data[0] == 0x10 && Data[2] == 0x1`:
the registers hold a ping request of the head unit. -/
def isPing (s : State) : Bool :=
  s.DataSize == 0x3 && loadData 0 s == 0x10 && loadData 2 s == 0x1

/-- Lines 402-406: the answer to the ping request is loaded in the registers. -/
def loadReply (s : State) : State :=
  let s2 := { s with emulatorHandleBite := loadData 1 s }
  let s3 := LoadDataInGlogalRegisters CmdDdisplayAnsver2 s2
  storeData 1 s3.emulatorHandleBite s3

/-- Lines 410-414: what follows the call of `SendMessage` in the ping responder. -/
def afterReply (env : Env) (s : State) : Bool × State :=
  let r := millis env { s with isRegistred := true }
  (false, LedOff { r.2 with lastRegistred := r.1 })

/-- Lines 392-444: registration, the ping responder, the address filter. -/
def rxTail (env : Env) (forMe : Bool) (s : State) : Option (Bool × State) :=
  let s1 :=
    if forMe then
      let r := millis env { s with isRegistred := true }
      { r.2 with lastRegistred := r.1 }
    else s
  if isPing s1 then
    match SendMessage env (loadReply s1) with
    | none => none
    | some (_, s5) => some (afterReply env s5)
  else
    let s2 :=
      if env.ONLY_MY then
        if forMe || (!s1.Broadcast && s1.SlaveAddress == BROADCAST_ADDRESS) then
          DumpRawMessage false s1
        else s1
      else DumpRawMessage false s1
    some (false, LedOff s2)

/-- The loop `for ( i = 0; i < DataSize; i++ )` of `AvcReadMessage` (first argument
`DataSize - i`, second `i`), followed by the rest of the function. -/
def rxData (env : Env) (forMe : Bool) : Nat → Nat → State → Option (Bool × State)
  | 0, _, s => rxTail env forMe s
  | k + 1, i, s =>
    match ReadBits 8 s with
    | none => none
    | some (v, s1) =>
      let s2 := storeData i (v % 256) s1
      match parityMismatch s2 with
      | none => none
      | some (true, s3) =>
        some (false, parityError env forMe "AvcReadMessage: Parity error @ Data" s3)
      | some (false, s3) =>
        match ackOrSkip forMe s3 with
        | none => none
        | some s4 => rxData env forMe k (i + 1) s4

/-- Lines 332-354, then the data loop. -/
def rxLength (env : Env) (forMe : Bool) (s : State) : Option (Bool × State) :=
  match ReadBits 8 s with
  | none => none
  | some (v, s1) =>
    let s2 := { s1 with DataSize := v % 256 }
    match parityMismatch s2 with
    | none => none
    | some (true, s3) =>
      some (false, parityError env forMe "AvcReadMessage: Parity error @ DataSize!" s3)
    | some (false, s3) =>
      match ackOrSkip forMe s3 with
      | none => none
      | some s4 => rxData env forMe s4.DataSize 0 s4

/-- Lines 308-330, then the length field. -/
def rxControl (env : Env) (forMe : Bool) (s : State) : Option (Bool × State) :=
  match ReadBits 4 s with
  | none => none
  | some (v, s1) =>
    let s2 := { s1 with Control := v % 256 }
    match parityMismatch s2 with
    | none => none
    | some (true, s3) =>
      some (false, parityError env forMe "AvcReadMessage: Parity error @ Control!" s3)
    | some (false, s3) =>
      match ackOrSkip forMe s3 with
      | none => none
      | some s4 => rxLength env forMe s4

/-- Lines 282-306, then the control field. -/
def rxSlave (env : Env) (s : State) : Option (Bool × State) :=
  match ReadBits 12 s with
  | none => none
  | some (v, s1) =>
    let s2 := { s1 with SlaveAddress := v }
    match parityMismatch s2 with
    | none => none
    | some (true, s3) =>
      some (false,
        if env.SHOW_ERROR then serialPrint "AvcReadMessage: Parity error @ SlaveAddress!" s3
        else s3)
    | some (false, s3) =>
      let forMe := s3.SlaveAddress == MY_ADDRESS
      match ackOrSkip forMe s3 with
      | none => none
      | some s4 => rxControl env forMe s4

/-- The function `AvcReadMessage`; `inputClear` is the sample of `INPUT_IS_CLEAR` taken
on entry. -/
def AvcReadMessage (env : Env) (inputClear : Bool) (s : State) : Option (Bool × State) :=
  if inputClear then some (false, s)
  else
    match getStartBit s with
    | none => none
    | some (false, s1) => some (false, s1)
    | some (true, s1) =>
      let s2 := LedOn s1
      match ReadBits 1 s2 with
      | none => none
      | some (b, s3) =>
        let s4 := { s3 with Broadcast := b != 0 }
        match ReadBits 12 s4 with
        | none => none
        | some (v, s5) =>
          let s6 := { s5 with MasterAddress := v }
          match parityMismatch s6 with
          | none => none
          | some (true, s7) =>
            some (false,
              if env.SHOW_ERROR then
                serialPrint "AvcReadMessage: Parity error @ MasterAddress!" s7
              else s7)
          | some (false, s7) => rxSlave env s7

/-! ## Vocabulary of the statements

What the statements below are written in: bits and fields, the pulses of a frame as a
sender puts them out (`Event`) and as a receiver measures them (ticks), with the numbers
of the timing table written out. -/

/-- The `w` low bits of `v`, most significant first. -/
def bitsMSB : Nat → Nat → List Bool
  | 0, _ => []
  | w + 1, v => v.testBit w :: bitsMSB w v

/-- XOR of a list of bits. -/
def xorAll : List Bool → Bool
  | [] => false
  | b :: bs => xor b (xorAll bs)

/-- The number whose binary digits, most significant first, are `bs`, above the
digits of `a`. -/
def valueFrom (a : Nat) (bs : List Bool) : Nat := bs.foldl (fun x b => 2 * x + boolInt b) a

/-- The number whose binary digits, most significant first, are `bs`. -/
def valueOf (bs : List Bool) : Nat := valueFrom 0 bs

/-- The pulse of an ordinary bit: output high for 5 ticks for a 1 and for 9 ticks for a
0, in a period of 10 ticks. -/
def bitPulse (b : Bool) : Event := Event.pulse (if b then 5 else 9) 10

/-- The start pulse: output high for 42 ticks in a period of 47. -/
def startPulse : Event := Event.pulse 42 47

/-- The sender's side of an acknowledge slot in which the line is seen to fall at `a`
ticks: output high for 5 ticks, return at 10 ticks or, past that, at once. -/
def ackPulse (a : Nat) : Event := Event.ackSlot 5 a (if a < 10 then 10 else a)

/-- A field on the wire: the `w` low bits of `v`, most significant first, then their
parity. -/
def fieldPulses (w v : Nat) : List Event :=
  (bitsMSB w v).map bitPulse ++ [bitPulse (xorAll (bitsMSB w v))]

/-- The data part of a frame on the wire: each byte of `D` as a field of 8 bits followed
by its acknowledge slot, in which the line falls at the matching entry of `as`. -/
def dataPulses : List Nat → List Nat → List Event
  | d :: D, a :: as => fieldPulses 8 d ++ [ackPulse a] ++ dataPulses D as
  | _, _ => []

/-- A whole frame on the wire, as the sender puts it out: start bit, mode bit, master
address, slave address, control, length and data, each field with its parity and, from
the slave address on, its acknowledge slot (`a0`, `a1`, `a2`, then `as`). -/
def framePulses (mode : Bool) (M S C n : Nat) (D : List Nat) (a0 a1 a2 : Nat)
    (as : List Nat) : List Event :=
  [startPulse, bitPulse mode] ++ fieldPulses 12 M ++ fieldPulses 12 S ++ [ackPulse a0]
    ++ fieldPulses 4 C ++ [ackPulse a1] ++ fieldPulses 8 n ++ [ackPulse a2]
    ++ dataPulses D as

/-- Nominal timing: the ticks for which the line stays high in a pulse the node has put
out, when nothing else on the bus holds the line longer than the node itself records. -/
def Event.width : Event → Nat
  | Event.pulse high _ => high
  | Event.ackSlot _ fall _ => fall
  | Event.ackDrive _ stop => stop

/-- The events appended to the output between the states `s` and `s1`. -/
def emitted (s s1 : State) : List Event := s1.out.drop s.out.length

/-- The measured pulse train a receiver gets, under nominal timing, from what a routine
has put out between the states `s` and `s1`. -/
def nominalTrain (s s1 : State) : List Nat := (emitted s s1).map Event.width

/-- The encoder the source has for a field of `w` bits; the argument of `Send1BitWord`
is a `bool`, to which C converts `v`. -/
def encoder : Nat → Nat → State → State
  | 1, v, s => Send1BitWord (v != 0) s
  | 4, v, s => Send4BitWord v s
  | 8, v, s => Send8BitWord v s
  | 12, v, s => Send12BitWord v s
  | _, _, s => s

/-- The bit a receiver takes from a pulse measured at `d` ticks. -/
def bitOf (d : Nat) : Bool := decide (d < 7)

/-- The bits a receiver takes from a train of measured pulses. -/
def bitsOf (ds : List Nat) : List Bool := ds.map bitOf

/-- A field as a receiver finds it on the bus: the measured pulses of its value bits and
the measured pulse of its parity bit. -/
structure RxField where
  bits : List Nat
  par : Nat
deriving DecidableEq, Repr

/-- The pulses of a field in the order they arrive. -/
def RxField.pulses (f : RxField) : List Nat := f.bits ++ [f.par]

/-- The value a receiver decodes from the field. -/
def RxField.value (f : RxField) : Nat := valueOf (bitsOf f.bits)

/-- The parity bit of the field matches the XOR of its value bits. -/
def RxField.parityOk (f : RxField) : Bool := xorAll (bitsOf f.bits) == bitOf f.par

/-- Data bytes on the bus: each byte as a field followed by the pulse of its acknowledge
slot. -/
def dataTrain : List (RxField × Nat) → List Nat
  | [] => []
  | (f, a) :: more => f.pulses ++ [a] ++ dataTrain more

/-- The addresses of a frame as a receiver finds them: the pulse taken as start bit, the
pulse of the mode bit, the master and the slave address fields. -/
def addressTrain (start mode : Nat) (master slave : RxField) : List Nat :=
  [start, mode] ++ master.pulses ++ slave.pulses

/-- A whole frame as a receiver finds it, `a0`, `a1`, `a2` being the pulses in the
acknowledge slots of the slave address, the control and the length field. -/
def frameTrain (start mode : Nat) (master slave : RxField) (a0 : Nat) (control : RxField)
    (a1 : Nat) (length : RxField) (a2 : Nat) (data : List (RxField × Nat)) : List Nat :=
  addressTrain start mode master slave ++ [a0] ++ control.pulses ++ [a1]
    ++ length.pulses ++ [a2] ++ dataTrain data

/-- A field as it arrives under nominal timing: 5 ticks for a 1, 9 ticks for a 0, value
bits most significant first, then the parity bit. -/
def nominalField (w v : Nat) : RxField :=
  { bits := (bitsMSB w v).map (fun b => if b then 5 else 9),
    par := if xorAll (bitsMSB w v) then 5 else 9 }

/-- The lines `DumpRawMessage( false )` among what `Serial` has received. -/
def rxDumps (lines : List SerialLine) : List SerialLine :=
  lines.filter (fun l => match l with
    | SerialLine.dump false _ _ _ _ _ _ => true
    | _ => false)

/-- Between the states `s` and `s1` nothing was dumped: `Serial` has received nothing,
or one error message. -/
def noDump (s s1 : State) : Prop :=
  s1.serial = s.serial ∨ ∃ msg, s1.serial = s.serial ++ [SerialLine.text msg]

/-- The bytes `SendMessage` reads from `Data` in its data loop: `Data[0]`, ...,
`Data[DataSize - 1]`. -/
def payload (s : State) : List Nat := (List.range s.DataSize).map (fun i => loadData i s)

/-- The fields of a frame as the sender puts them out, cut at the acknowledge slots: what
comes before the first slot (start bit, mode bit, master and slave address), the control
field, the length field, then each data byte. -/
def frameFields (mode : Bool) (M S C n : Nat) (D : List Nat) : List (List Event) :=
  ([startPulse, bitPulse mode] ++ fieldPulses 12 M ++ fieldPulses 12 S)
    :: fieldPulses 4 C :: fieldPulses 8 n :: D.map (fieldPulses 8)

/-- Fields on the wire, each followed by what the sender records in its acknowledge
slot, as far as the list of slots goes: nothing of the fields after the last slot. -/
def slotted : List (List Event) → List Event → List Event
  | f :: fs, e :: es => f ++ [e] ++ slotted fs es
  | _, _ => []

/-- The ticks an event takes, from `TCNT0 = 0` to the end of the last wait of the
routine that puts it out. -/
def Event.period : Event → Nat
  | Event.pulse _ period => period
  | Event.ackSlot _ _ period => period
  | Event.ackDrive _ stop => stop

/-- The ticks a train of events takes under the ideal counter. -/
def ticks (es : List Event) : Nat := (es.map Event.period).sum

/-- Loading a template in the frame registers and sending them: what `AvcRegisterMe` is
compared with. -/
def sendTemplate (env : Env) (msg : AvcOutMessage) (s : State) : Option (Bool × State) :=
  SendMessage env (LoadDataInGlogalRegisters msg s)

/-- The pulse train a receiver measures when the fields `fs` are put out under nominal
timing (each pulse as long as the sender holds the output high), with a pulse of `x`
ticks, taken from `xs`, in the acknowledge slot after each field. -/
def wireTrain : List (List Event) → List Nat → List Nat
  | f :: fs, x :: xs => f.map Event.width ++ [x] ++ wireTrain fs xs
  | _, _ => []

/-! ## States along a pass

The states `ReadBits`, `AvcReadMessage` and `SendMessage` go through on a given input,
written in closed form, and the parts of the state a pass leaves alone; the lemmas below
relate them to the functions above. -/

/-- The bits the loop of `sendBits` tests, in the order it tests them. -/
def iterBits (mask modulus : Nat) : Nat → Nat → List Bool
  | 0, _ => []
  | n + 1, data => ((data &&& mask) != 0) :: iterBits mask modulus n ((data <<< 1) % modulus)

/-- The `word` the loop of `ReadBits` builds from the bits it takes. -/
def accWord (data : Nat) (bs : List Bool) : Nat :=
  bs.foldl (fun a b => if b then ((a <<< 1) % 65536) ||| 0x0001 else (a <<< 1) % 65536) data

/-- The counter after the loop of `ReadBits` has taken the pulses `ds`. -/
def tickAfter (t : Nat) (ds : List Nat) : Nat :=
  ds.foldl (fun _ d => if d < BIT_HOLD_HALF_PERIOD then waitUntil d BIT_0_HOLD_ON_LENGTH else d) t

/-- The counter once `ReadBits` has taken a pulse measured at `d` ticks. -/
def rxTick (d : Nat) : Nat := if d < 7 then 9 else d

/-- The optional message printed under `SHOW_ERROR`. -/
def showError (env : Env) (msg : String) (s : State) : State :=
  if env.SHOW_ERROR then serialPrint msg s else s

/-- The state once a field has been read from the bus: the pulses of the field are
taken, `ParityBit` holds the parity bit read last. -/
def afterField (f : RxField) (s : State) : State :=
  { s with pulses := s.pulses.drop (f.bits.length + 1), ParityBit := bitOf f.par,
           TCNT0 := rxTick f.par }

/-- The state once the acknowledge slot with the pulse `a` is over: the receiver has
driven the line when the frame is for it, and has read and dropped the bit otherwise. -/
def afterAck (forMe : Bool) (a : Nat) (s : State) : State :=
  if forMe then
    { s with pulses := s.pulses.drop 1, TCNT0 := 9, out := s.out ++ [Event.ackDrive 1 9] }
  else
    { s with pulses := s.pulses.drop 1, ParityBit := bitOf a, TCNT0 := rxTick a }

/-- The state once the data bytes `data` have been received as bytes `i`, `i + 1`, ... -/
def afterData (forMe : Bool) : List (RxField × Nat) → Nat → State → State
  | [], _, s => s
  | (f, a) :: more, i, s =>
    afterData forMe more (i + 1) (afterAck forMe a (afterField f (storeData i f.value s)))

/-- The state once a start bit and the mode bit have been read. -/
def afterStart (mode : Nat) (s : State) : State :=
  { s with led := true, Broadcast := bitOf mode, pulses := s.pulses.drop 2,
           ParityBit := bitOf mode, TCNT0 := rxTick mode }

/-- The state once the mode bit and the master address field have been read. -/
def afterMaster (mode : Nat) (master : RxField) (s : State) : State :=
  afterField master { afterStart mode s with MasterAddress := master.value }

/-- The state once the slave address field has been read as well. -/
def afterSlave (mode : Nat) (master slave : RxField) (s : State) : State :=
  afterField slave { afterMaster mode master s with SlaveAddress := slave.value }

/-- The state once a whole frame has been read from the bus, at line 392 of
`AvcReadMessage`. -/
def afterFrame (mode : Nat) (master slave : RxField) (a0 : Nat) (control : RxField) (a1 : Nat)
    (length : RxField) (a2 : Nat) (data : List (RxField × Nat)) (s : State) : State :=
  afterData (slave.value == MY_ADDRESS) data 0
    (afterAck (slave.value == MY_ADDRESS) a2
      (afterField length
        { afterAck (slave.value == MY_ADDRESS) a1
            (afterField control
              { afterAck (slave.value == MY_ADDRESS) a0 (afterSlave mode master slave s) with
                Control := control.value }) with
          DataSize := length.value }))

/-- What reading a frame from the bus leaves alone, whoever the frame is for. -/
def rxView (s : State) : Bool × Nat × Nat × List (Bool × Nat) × List SerialLine × Nat × Nat :=
  (s.isRegistred, s.lastRegistred, s.millisCalls, s.polls, s.serial, s.emulatorHandleBite,
    s.Data.length)

/-- What a transmission leaves alone: the frame registers, the registration state, the
clock, and the received frames that have been dumped. -/
def txView (s : State) :
    Bool × Nat × Nat × Nat × Nat × List Nat × List Nat × Bool × Nat × Nat × Nat
      × List SerialLine :=
  (s.Broadcast, s.MasterAddress, s.SlaveAddress, s.Control, s.DataSize, s.Data, s.oob,
    s.isRegistred, s.emulatorHandleBite, s.lastRegistred, s.millisCalls, rxDumps s.serial)

/-- The header registers of a received frame, which the data loop leaves alone. -/
def regView (s : State) : Bool × Nat × Nat × Nat × Nat × Bool :=
  (s.Broadcast, s.MasterAddress, s.SlaveAddress, s.Control, s.DataSize, s.led)

/-- The acknowledge slots a sender in normal mode gets to: all of them up to and
including the first in which the line falls at 7 ticks or before. -/
def checked : List Nat → List Nat
  | [] => []
  | a :: as => if 7 < a then a :: checked as else [a]

/-- The result `r` of a part of `SendMessage` entered in the state `s` in normal mode
with the fields `fs` still to send, the line falling at `acks` in their slots. -/
def TxPass (s : State) (fs : List (List Event)) (acks rest : List Nat)
    (r : Option (Bool × State)) : Prop :=
  ∃ s1, r = some (decide (∀ a ∈ acks, 7 < a), s1)
    ∧ s1.out = s.out ++ slotted fs ((checked acks).map ackPulse)
    ∧ s1.pulses = acks.drop (checked acks).length ++ rest

/-- The result `r` of a part of `SendMessage` entered in the state `s` in broadcast mode
with the fields `fs` still to send. -/
def TxBroadcast (s : State) (fs : List (List Event)) (r : Option (Bool × State)) : Prop :=
  ∃ s1, r = some (true, s1)
    ∧ s1.out = s.out ++ slotted fs (List.replicate fs.length (bitPulse false))
    ∧ s1.pulses = s.pulses

/-! ## Scenes

Concrete states the statements are tried on. -/

/-- The state of the globals at start-up (static storage is zero-initialised, `isRegistred`
is initialised to `false`), the bus silent, nothing put out. -/
def State.reset : State :=
  { Broadcast := false, MasterAddress := 0, SlaveAddress := 0, Control := 0, DataSize := 0,
    ParityBit := false, Data := List.replicate 32 0, isRegistred := false,
    emulatorHandleBite := 0, lastRegistred := 0, TCNT0 := 0, led := false, pulses := [],
    polls := [], millisCalls := 0, out := [], serial := [], oob := [] }

/-- The frame of the witness of C1: mode Normal, master 0x140, slave 0x130, control 0xE,
data 0x1F; the bus is free at the first poll and four acknowledge slots are held for 9
ticks. -/
def sendScene : State :=
  { State.reset with
    Broadcast := true, MasterAddress := 0x140, SlaveAddress := 0x130, Control := 0xE,
    DataSize := 1, Data := [0x1F] ++ List.replicate 31 0,
    polls := [(true, 11)], pulses := [9, 9, 9, 9] }

/-- The ping request of the head unit (master 0x130, control 0xF, payload 0x10, `t`,
0x01) addressed to `slave`, as it arrives under nominal timing after a start pulse of 42
ticks, with pulses of 9 ticks in the acknowledge slots. -/
def pingTrain (slave t : Nat) : List Nat :=
  frameTrain 42 5 (nominalField 12 0x130) (nominalField 12 slave) 9 (nominalField 4 0xF) 9
    (nominalField 8 3) 9
    [(nominalField 8 0x10, 9), (nominalField 8 t, 9), (nominalField 8 0x01, 9)]

/-- A node that is not registered and finds on the bus the ping request with token 0xAB
addressed to `slave`, then a free bus and nine acknowledged slots for its answer. -/
def pingScene (slave : Nat) : State :=
  { State.reset with pulses := pingTrain slave 0xAB ++ List.replicate 9 9,
                     polls := [(true, 11)] }

/-- A node that is not registered and finds on the bus a frame with the one data byte
0x1F addressed to it, 0x140, under nominal timing. -/
def forMeScene : State :=
  { State.reset with
    pulses := frameTrain 42 5 (nominalField 12 0x130) (nominalField 12 0x140) 5
      (nominalField 4 0xF) 5 (nominalField 8 1) 5 [(nominalField 8 0x1F, 5)] ++ [] }

/-- A node that is not registered and finds on the bus a frame with the one data byte
0x1F addressed to the node 0x120, under nominal timing. -/
def otherScene : State :=
  { State.reset with
    pulses := frameTrain 42 5 (nominalField 12 0x130) (nominalField 12 0x120) 5
      (nominalField 4 0xF) 5 (nominalField 8 1) 5 [(nominalField 8 0x1F, 5)] }

/-- A registered node that finds on the bus a frame addressed to it, 0x140, under
nominal timing but for the parity bit of the control field, which is flipped; the length
field and one data byte follow. -/
def badControlScene : State :=
  { State.reset with
    isRegistred := true,
    pulses := addressTrain 42 5 (nominalField 12 0x130) (nominalField 12 0x140) ++ [5]
      ++ ({ nominalField 4 0xF with par := 5 } : RxField).pulses
      ++ ([5] ++ (nominalField 8 1).pulses ++ [5] ++ (nominalField 8 0x1F).pulses ++ [5]) }

/-- A node that finds on the bus a frame in Broadcast mode (mode bit 0, a pulse of 9
ticks) for the broadcast address 0xFFF, with the one data byte 0x1F, under nominal
timing. -/
def broadcastScene : State :=
  { State.reset with
    pulses := frameTrain 42 9 (nominalField 12 0x130) (nominalField 12 0xFFF) 9
      (nominalField 4 0xF) 9 (nominalField 8 1) 9 [(nominalField 8 0x1F, 9)] ++ [] }

/-- A node that finds on the bus a frame in Broadcast mode (mode bit 0, a pulse of 9
ticks) whose slave address is the own address 0x140, with the one data byte 0x1F, under
nominal timing. -/
def broadcastForMeScene : State :=
  { State.reset with
    pulses := frameTrain 42 9 (nominalField 12 0x130) (nominalField 12 0x140) 9
      (nominalField 4 0xF) 9 (nominalField 8 1) 9 [(nominalField 8 0x1F, 9)] }

/-- A node that finds on the bus a frame for the node 0x120 whose length field is 33,
followed by 33 data bytes 0x55, under nominal timing. -/
def longFrameScene : State :=
  { State.reset with
    pulses := frameTrain 42 5 (nominalField 12 0x130) (nominalField 12 0x120) 5
      (nominalField 4 0xF) 5 (nominalField 8 33) 5
      (List.replicate 33 (nominalField 8 0x55, 5)) }

/-- The frame of `sendScene`, with the line let go at 5 ticks in the second acknowledge
slot, the one of the control field. -/
def noAckScene : State := { sendScene with pulses := [9, 5, 9, 9] }

/-- The registers loaded for the broadcast frame `CmdDdisplayReg`, the bus free at the
first poll and no pulse on the line afterwards. -/
def registerScene : State :=
  { LoadDataInGlogalRegisters CmdDdisplayReg State.reset with polls := [(true, 11)] }

/-- The node at start-up, the bus free at the first poll and no pulse on the line
afterwards. -/
def idleScene : State := { State.reset with polls := [(true, 11)] }

/-- A registered node that finds on the bus a frame addressed to it, 0x140, of length 2
under nominal timing but for the parity bit of the second data byte, which is flipped. -/
def badDataScene : State :=
  { State.reset with
    isRegistred := true,
    pulses := frameTrain 42 5 (nominalField 12 0x130) (nominalField 12 0x140) 5
      (nominalField 4 0xF) 5 (nominalField 8 2) 5 [(nominalField 8 0x1F, 5)]
      ++ ({ nominalField 8 0x22 with par := 5 } : RxField).pulses ++ [5] }

/-! ## Bits, words and parity -/

theorem xorAll_append (as bs : List Bool) : xorAll (as ++ bs) = xor (xorAll as) (xorAll bs) := by
  induction as with
  | nil => simp [xorAll]
  | cons a as ih => simp [xorAll, ih, Bool.xor_assoc]

theorem bitsMSB_length (w v : Nat) : (bitsMSB w v).length = w := by
  induction w with
  | zero => rfl
  | succ w ih => simp [bitsMSB, ih]

theorem valueFrom_eq (bs : List Bool) :
    ∀ a : Nat, valueFrom a bs = a * 2 ^ bs.length + valueOf bs := by
  induction bs with
  | nil => intro a; simp [valueFrom, valueOf]
  | cons b bs ih =>
    intro a
    have h1 : valueFrom a (b :: bs) = valueFrom (2 * a + boolInt b) bs := rfl
    have h2 : valueOf (b :: bs) = valueFrom (2 * 0 + boolInt b) bs := rfl
    rw [h1, h2, ih (2 * a + boolInt b), ih (2 * 0 + boolInt b)]
    simp only [List.length_cons, pow_succ]
    ring

theorem valueOf_bitsMSB (w v : Nat) : valueOf (bitsMSB w v) = v % 2 ^ w := by
  induction w with
  | zero => simp [bitsMSB, valueOf, valueFrom, Nat.mod_one]
  | succ w ih =>
    have h : valueOf (bitsMSB (w + 1) v) = valueFrom (2 * 0 + boolInt (v.testBit w)) (bitsMSB w v) :=
      rfl
    rw [h, valueFrom_eq, ih, bitsMSB_length, Nat.mod_pow_succ, Nat.testBit_to_div_mod]
    by_cases hb : v / 2 ^ w % 2 = 1
    · simp [hb, boolInt]; ring
    · have h0 : v / 2 ^ w % 2 = 0 := by omega
      simp [h0, boolInt]

theorem valueOf_lt (bs : List Bool) : valueOf bs < 2 ^ bs.length := by
  induction bs using List.reverseRecOn with
  | nil => simp [valueOf, valueFrom]
  | append_singleton bs b ih =>
    have h : valueOf (bs ++ [b]) = 2 * valueOf bs + boolInt b := by
      simp [valueOf, valueFrom, List.foldl_append]
    rw [h, List.length_append, List.length_singleton, pow_succ]
    have hb : boolInt b ≤ 1 := by cases b <;> simp [boolInt]
    omega

theorem word_step_one (x : Nat) : ((x <<< 1) % 65536) ||| 0x0001 = (2 * x + 1) % 65536 := by
  have h1 : (x <<< 1) % 65536 = 2 ^ 1 * (x % 32768) := by
    rw [Nat.shiftLeft_eq]; omega
  rw [h1, ← Nat.mul_add_lt_is_or (by decide : 1 < 2 ^ 1)]
  omega

theorem word_step_zero (x : Nat) : (x <<< 1) % 65536 = (2 * x + 0) % 65536 := by
  rw [Nat.shiftLeft_eq]; omega

theorem accWord_eq (bs : List Bool) :
    ∀ a : Nat, accWord (a % 65536) bs = valueFrom a bs % 65536 := by
  induction bs with
  | nil => intro a; rfl
  | cons b bs ih =>
    intro a
    have h1 : valueFrom a (b :: bs) = valueFrom (2 * a + boolInt b) bs := rfl
    have h2 : accWord (a % 65536) (b :: bs)
        = accWord (if b then (((a % 65536) <<< 1) % 65536) ||| 0x0001
                   else ((a % 65536) <<< 1) % 65536) bs := rfl
    rw [h1, h2, ← ih]
    congr 1
    cases b
    · simp only [Bool.false_eq_true, if_false, word_step_zero, boolInt]; omega
    · simp only [if_true, word_step_one, boolInt]; omega

theorem accWord_zero (bs : List Bool) : accWord 0 bs = valueOf bs % 65536 :=
  accWord_eq bs 0

/-! ## The encoders -/

theorem land_two_pow_ne_zero (x m : Nat) : ((x &&& 2 ^ m) != 0) = x.testBit m := by
  rw [Nat.and_two_pow]
  cases x.testBit m <;> simp

theorem iterBits_shift (m W : Nat) (hm : m < W) :
    ∀ (n j data : Nat), j + n = m + 1 →
      iterBits (2 ^ m) (2 ^ W) n ((data <<< j) % 2 ^ W) = bitsMSB n data := by
  intro n
  induction n with
  | zero => intro j data _; rfl
  | succ n ih =>
    intro j data hj
    have hstep : (((data <<< j) % 2 ^ W) <<< 1) % 2 ^ W = (data <<< (j + 1)) % 2 ^ W := by
      simp only [Nat.shiftLeft_eq, pow_succ, pow_one, pow_zero]
      rw [Nat.mod_mul_mod, Nat.mul_assoc, Nat.one_mul]
    have hhead : (((data <<< j) % 2 ^ W) &&& 2 ^ m != 0) = data.testBit n := by
      rw [land_two_pow_ne_zero, Nat.testBit_mod_two_pow, Nat.testBit_shiftLeft]
      have h1 : m - j = n := by omega
      have h2 : m ≥ j := by omega
      simp [hm, h1, h2]
    show (((data <<< j) % 2 ^ W) &&& 2 ^ m != 0)
        :: iterBits (2 ^ m) (2 ^ W) n ((((data <<< j) % 2 ^ W) <<< 1) % 2 ^ W)
      = data.testBit n :: bitsMSB n data
    rw [hhead, hstep, ih (j + 1) data (by omega)]

theorem iterBits_12 (v : Nat) : iterBits 0x0800 65536 12 (v % 65536) = bitsMSB 12 v := by
  have h := iterBits_shift 11 16 (by decide) 12 0 v (by decide)
  simpa using h

theorem iterBits_8 (v : Nat) : iterBits 0x80 256 8 (v % 256) = bitsMSB 8 v := by
  have h := iterBits_shift 7 8 (by decide) 8 0 v (by decide)
  simpa using h

theorem iterBits_4 (v : Nat) : iterBits 0x8 256 4 (v % 256) = bitsMSB 4 v := by
  have h := iterBits_shift 3 8 (by decide) 4 0 v (by decide)
  simpa using h

theorem sendBits_eq (mask modulus : Nat) :
    ∀ (n data : Nat) (s : State),
      sendBits mask modulus n data s =
        { s with
          ParityBit := xor s.ParityBit (xorAll (iterBits mask modulus n data)),
          TCNT0 := if n = 0 then s.TCNT0 else 10,
          out := s.out ++ (iterBits mask modulus n data).map bitPulse } := by
  intro n
  induction n with
  | zero => intro data s; simp [sendBits, iterBits, xorAll]
  | succ n ih =>
    intro data s
    rw [sendBits, ih]
    cases hb : (data &&& mask != 0) <;>
      simp [iterBits, xorAll, hb, bitPulse, waitUntil, BIT_1_HOLD_ON_LENGTH,
        BIT_0_HOLD_ON_LENGTH, NORMAL_BIT_LENGTH]

theorem Send12BitWord_eq (v : Nat) (s : State) :
    Send12BitWord v s =
      { s with ParityBit := xorAll (bitsMSB 12 v), TCNT0 := 10,
               out := s.out ++ (bitsMSB 12 v).map bitPulse } := by
  simp [Send12BitWord, sendBits_eq, iterBits_12]

theorem Send8BitWord_eq (v : Nat) (s : State) :
    Send8BitWord v s =
      { s with ParityBit := xorAll (bitsMSB 8 v), TCNT0 := 10,
               out := s.out ++ (bitsMSB 8 v).map bitPulse } := by
  simp [Send8BitWord, sendBits_eq, iterBits_8]

theorem Send4BitWord_eq (v : Nat) (s : State) :
    Send4BitWord v s =
      { s with ParityBit := xorAll (bitsMSB 4 v), TCNT0 := 10,
               out := s.out ++ (bitsMSB 4 v).map bitPulse } := by
  simp [Send4BitWord, sendBits_eq, iterBits_4]

theorem Send1BitWord_eq (b : Bool) (s : State) :
    Send1BitWord b s = { s with TCNT0 := 10, out := s.out ++ [bitPulse b] } := by
  cases b <;>
    simp [Send1BitWord, bitPulse, waitUntil, BIT_1_HOLD_ON_LENGTH, BIT_0_HOLD_ON_LENGTH,
      NORMAL_BIT_LENGTH]

theorem SendStartBit_eq (s : State) :
    SendStartBit s = { s with TCNT0 := 47, out := s.out ++ [startPulse] } := by
  simp [SendStartBit, startPulse, waitUntil, START_BIT_HOLD_ON_LENGTH, START_BIT_LENGTH]

/-! ## The decoder -/

theorem readLoop_append (ds : List Nat) :
    ∀ (data : Nat) (s : State) (rest : List Nat), s.pulses = ds ++ rest →
      readLoop ds.length data s =
        some (accWord data (bitsOf ds),
          { s with pulses := rest,
                   ParityBit := xor s.ParityBit (xorAll (bitsOf ds)),
                   TCNT0 := tickAfter s.TCNT0 ds }) := by
  induction ds with
  | nil =>
    intro data s rest h
    cases s
    simp only [List.nil_append] at h
    subst h
    simp [readLoop, accWord, bitsOf, xorAll, tickAfter]
  | cons d ds ih =>
    intro data s rest h
    simp only [List.length_cons, readLoop, h, List.cons_append]
    by_cases hd : d < BIT_HOLD_HALF_PERIOD
    · have hb : bitOf d = true := by simpa [bitOf, BIT_HOLD_HALF_PERIOD] using hd
      rw [if_pos hd, ih _ _ rest rfl]
      simp [accWord, bitsOf, xorAll, tickAfter, hb, hd, Bool.xor_assoc]
    · have hb : bitOf d = false := by simpa [bitOf, BIT_HOLD_HALF_PERIOD] using hd
      rw [if_neg hd, ih _ _ rest rfl]
      simp [accWord, bitsOf, xorAll, tickAfter, hb, hd]

theorem ReadBits_append (n : Nat) (ds rest : List Nat) (s : State)
    (hn : n < 256) (hlen : ds.length = n) (hs : s.pulses = ds ++ rest) :
    ReadBits n s =
      some (valueOf (bitsOf ds) % 65536,
        { s with pulses := rest, ParityBit := xorAll (bitsOf ds),
                 TCNT0 := tickAfter s.TCNT0 ds }) := by
  unfold ReadBits
  rw [Nat.mod_eq_of_lt hn, ← hlen, readLoop_append ds 0 _ rest (by simpa using hs)]
  simp [accWord_zero]

theorem ReadBits_none (n : Nat) (s : State) (hn : n < 256) (hlen : s.pulses.length < n) :
    ReadBits n s = none := by
  unfold ReadBits
  rw [Nat.mod_eq_of_lt hn]
  have key : ∀ (ps : List Nat) (k data : Nat) (r : State), r.pulses = ps → ps.length < k →
      readLoop k data r = none := by
    intro ps
    induction ps with
    | nil =>
      intro k data r hr hk
      cases k with
      | zero => simp at hk
      | succ k => simp [readLoop, hr]
    | cons d ps ih =>
      intro k data r hr hk
      cases k with
      | zero => simp at hk
      | succ k =>
        simp only [readLoop, hr]
        have hk2 : ps.length < k := by simpa using hk
        split <;> exact ih _ _ _ rfl hk2
  exact key s.pulses n 0 _ rfl hlen

/-! ## Round trip of a field -/

theorem emitted_append (s s1 : State) (es : List Event) (h : s1.out = s.out ++ es) :
    emitted s s1 = es := by
  simp [emitted, h]

theorem bitsOf_nominal (bs : List Bool) :
    bitsOf ((bs.map bitPulse).map Event.width) = bs := by
  induction bs with
  | nil => rfl
  | cons b bs ih =>
    simp only [bitsOf, List.map_cons, List.map_map] at ih ⊢
    rw [ih]
    cases b <;> simp [bitPulse, Event.width, bitOf]

theorem encoder_out (w v : Nat) (s : State) (hw : w = 1 ∨ w = 4 ∨ w = 8 ∨ w = 12)
    (hv : v < 2 ^ w) :
    (encoder w v s).out = s.out ++ (bitsMSB w v).map bitPulse := by
  rcases hw with h | h | h | h <;> subst h
  · have hb : (v != 0) = v.testBit 0 := by
      have : v = 0 ∨ v = 1 := by omega
      rcases this with h | h <;> subst h <;> decide
    simp [encoder, Send1BitWord_eq, bitsMSB, hb]
  · simp [encoder, Send4BitWord_eq]
  · simp [encoder, Send8BitWord_eq]
  · simp [encoder, Send12BitWord_eq]

theorem encoder_parity (w v : Nat) (s : State) (hw : w = 4 ∨ w = 8 ∨ w = 12) :
    (encoder w v s).ParityBit = xorAll (bitsMSB w v) := by
  rcases hw with h | h | h <;> subst h
  · simp [encoder, Send4BitWord_eq]
  · simp [encoder, Send8BitWord_eq]
  · simp [encoder, Send12BitWord_eq]

theorem nominalTrain_encoder (w v : Nat) (s : State) (hw : w = 1 ∨ w = 4 ∨ w = 8 ∨ w = 12)
    (hv : v < 2 ^ w) :
    (nominalTrain s (encoder w v s)).length = w ∧
      bitsOf (nominalTrain s (encoder w v s)) = bitsMSB w v := by
  unfold nominalTrain
  rw [emitted_append s _ _ (encoder_out w v s hw hv), bitsOf_nominal]
  simp [bitsMSB_length]

/-- C2: for a width `w` in 1, 4, 8, 12 and a value `v < 2^w`, `ReadBits w`, fed the
pulse train that the encoder of width `w` has put out for `v` as it is measured under
nominal timing (5 ticks high for a 1, 9 ticks for a 0), returns `v` and has taken
exactly the pulses of the field. -/
theorem C2_field_roundtrip (w v : Nat) (s r : State) (rest : List Nat)
    (hw : w = 1 ∨ w = 4 ∨ w = 8 ∨ w = 12) (hv : v < 2 ^ w) :
    ∃ r1, ReadBits w { r with pulses := nominalTrain s (encoder w v s) ++ rest } = some (v, r1)
      ∧ r1.pulses = rest := by
  obtain ⟨hlen, hbits⟩ := nominalTrain_encoder w v s hw hv
  have hw256 : w < 256 := by rcases hw with h | h | h | h <;> subst h <;> decide
  have hw16 : 2 ^ w ≤ 65536 := by rcases hw with h | h | h | h <;> subst h <;> decide
  rw [ReadBits_append w _ rest _ hw256 hlen rfl, hbits, valueOf_bitsMSB,
    Nat.mod_eq_of_lt hv, Nat.mod_eq_of_lt (by omega)]
  exact ⟨_, rfl, rfl⟩

/-- Witness of C2: the byte 0xA5 sent by `Send8BitWord` and read back by `ReadBits 8`. -/
theorem C2_field_roundtrip_witness :
    (8 = 1 ∨ 8 = 4 ∨ 8 = 8 ∨ 8 = 12) ∧ 0xA5 < 2 ^ 8
    ∧ ∃ r1, ReadBits 8 { State.reset with
              pulses := nominalTrain State.reset (encoder 8 0xA5 State.reset) ++ [] }
            = some (0xA5, r1)
      ∧ r1.pulses = [] :=
  ⟨by decide, by decide,
    C2_field_roundtrip 8 0xA5 State.reset State.reset [] (by decide) (by decide)⟩

theorem bitsMSB_low (k a x : Nat) (hx : x < 2 ^ k) :
    ∀ m : Nat, m ≤ k → bitsMSB m (2 ^ k * a + x) = bitsMSB m x := by
  intro m
  induction m with
  | zero => intro _; rfl
  | succ m ih =>
    intro hm
    simp only [bitsMSB]
    rw [ih (by omega), Nat.testBit_mul_pow_two_add a hx m, if_pos (by omega)]

theorem bitsMSB_valueOf (bs : List Bool) : bitsMSB bs.length (valueOf bs) = bs := by
  induction bs with
  | nil => rfl
  | cons b bs ih =>
    have h : valueOf (b :: bs) = 2 ^ bs.length * boolInt b + valueOf bs := by
      have h2 : valueOf (b :: bs) = valueFrom (2 * 0 + boolInt b) bs := rfl
      rw [h2, valueFrom_eq]; ring
    simp only [List.length_cons, bitsMSB, h]
    rw [bitsMSB_low _ _ _ (valueOf_lt bs) _ (Nat.le_refl _), ih,
      Nat.testBit_mul_pow_two_add _ (valueOf_lt bs), if_neg (by omega)]
    cases b <;> simp [boolInt]

/-- C3: parity is the XOR of the value bits of the field, whatever its width.  For a
width `w` in 4, 8, 12 and any argument `v`, the encoder of width `w` leaves in
`ParityBit` the XOR of the `w` low bits of `v`, whatever `ParityBit` held before; for any
count `n` (a `byte`), `ReadBits n` leaves in `ParityBit` the XOR of the `n` bits it takes
from the pulses, which for `n ≤ 16` are the `n` low bits of the word it returns; and
reading back the train an encoder has put out leaves the `ParityBit` the encoder left. -/
theorem C3_parity_is_xor (w v n : Nat) (s r : State) (ds rest : List Nat)
    (hw : w = 4 ∨ w = 8 ∨ w = 12) (hn : n < 256) (hds : ds.length = n) :
    (encoder w v s).ParityBit = xorAll (bitsMSB w v)
    ∧ (∃ x r1, ReadBits n { r with pulses := ds ++ rest } = some (x, r1)
        ∧ r1.ParityBit = xorAll (bitsOf ds)
        ∧ (n ≤ 16 → r1.ParityBit = xorAll (bitsMSB n x)))
    ∧ (∃ x r1, ReadBits w { r with pulses := nominalTrain s (encoder w v s) ++ rest }
          = some (x, r1)
        ∧ r1.ParityBit = (encoder w v s).ParityBit) := by
  refine ⟨encoder_parity w v s hw, ?_, ?_⟩
  · rw [ReadBits_append n ds rest _ hn hds rfl]
    refine ⟨_, _, rfl, rfl, ?_⟩
    intro h16
    have hlt : valueOf (bitsOf ds) < 65536 := by
      have h1 := valueOf_lt (bitsOf ds)
      have h2 : (bitsOf ds).length = n := by simp [bitsOf, hds]
      rw [h2] at h1
      have h3 : 2 ^ n ≤ 2 ^ 16 := Nat.pow_le_pow_right (by decide) h16
      omega
    have hlen : (bitsOf ds).length = n := by simp [bitsOf, hds]
    rw [Nat.mod_eq_of_lt hlt, ← hlen, bitsMSB_valueOf]
  · have hw1 : w = 1 ∨ w = 4 ∨ w = 8 ∨ w = 12 := Or.inr hw
    have hw256 : w < 256 := by rcases hw with h | h | h <;> subst h <;> decide
    have hout : (encoder w v s).out = s.out ++ (bitsMSB w v).map bitPulse := by
      rcases hw with h | h | h <;> subst h
      · simp [encoder, Send4BitWord_eq]
      · simp [encoder, Send8BitWord_eq]
      · simp [encoder, Send12BitWord_eq]
    have htrain : nominalTrain s (encoder w v s) = ((bitsMSB w v).map bitPulse).map Event.width := by
      unfold nominalTrain
      rw [emitted_append s _ _ hout]
    have hlen : (nominalTrain s (encoder w v s)).length = w := by
      rw [htrain]; simp [bitsMSB_length]
    rw [ReadBits_append w _ rest _ hw256 hlen rfl, htrain, bitsOf_nominal]
    exact ⟨_, _, rfl, (encoder_parity w v s hw).symm⟩

/-- Witness of C3: the control value 0xE sent by `Send4BitWord` from a state whose
`ParityBit` is set, and a read of 4 pulses. -/
theorem C3_parity_is_xor_witness :
    (4 = 4 ∨ 4 = 8 ∨ 4 = 12) ∧ 4 < 256 ∧ [5, 5, 5, 9].length = 4
    ∧ (encoder 4 0xE { State.reset with ParityBit := true }).ParityBit = xorAll (bitsMSB 4 0xE)
    ∧ (∃ x r1, ReadBits 4 { State.reset with pulses := [5, 5, 5, 9] ++ [9] } = some (x, r1)
        ∧ r1.ParityBit = xorAll (bitsOf [5, 5, 5, 9])
        ∧ (4 ≤ 16 → r1.ParityBit = xorAll (bitsMSB 4 x)))
    ∧ (∃ x r1, ReadBits 4 { State.reset with
            pulses := nominalTrain { State.reset with ParityBit := true }
                        (encoder 4 0xE { State.reset with ParityBit := true }) ++ [9] }
          = some (x, r1)
        ∧ r1.ParityBit = (encoder 4 0xE { State.reset with ParityBit := true }).ParityBit) :=
  ⟨by decide, by decide, by decide,
    C3_parity_is_xor 4 0xE 4 { State.reset with ParityBit := true } State.reset [5, 5, 5, 9] [9]
      (by decide) (by decide) (by decide)⟩

/-- C4 as stated fails: a pulse measured at exactly the threshold of 7 ticks is read as
0, not as 1. -/
theorem C4_threshold_counterexample :
    (ReadBits 1 { State.reset with pulses := [7] }).map Prod.fst = some 0
    ∧ (ReadBits 1 { State.reset with pulses := [7] }).map Prod.fst ≠ some 1 := by
  decide

/-- C4, amended: `ReadBits` reads a pulse as 1 exactly when its measured high duration
is below the threshold of 7 ticks (the comparison is strict): a pulse of 5 ticks is
read as 1, a pulse of 9 ticks as 0 and a pulse of exactly 7 ticks as 0. -/
theorem C4_classify (s : State) (d : Nat) (rest : List Nat) :
    (ReadBits 1 { s with pulses := d :: rest }).map Prod.fst = some (if d < 7 then 1 else 0)
    ∧ (ReadBits 1 { s with pulses := 5 :: rest }).map Prod.fst = some 1
    ∧ (ReadBits 1 { s with pulses := 9 :: rest }).map Prod.fst = some 0
    ∧ (ReadBits 1 { s with pulses := 7 :: rest }).map Prod.fst = some 0 := by
  have key : ∀ d : Nat,
      (ReadBits 1 { s with pulses := d :: rest }).map Prod.fst = some (if d < 7 then 1 else 0) := by
    intro d
    rw [ReadBits_append 1 [d] rest _ (by decide) rfl rfl]
    by_cases h : d < 7 <;> simp [bitsOf, bitOf, valueOf, valueFrom, boolInt, h]
  exact ⟨key d, key 5, key 9, key 7⟩

/-- C5 as stated fails: a pulse measured at exactly 40 ticks is not taken as a start
bit. -/
theorem C5_start_window_counterexample :
    (getStartBit { State.reset with pulses := [40] }).map Prod.fst = some false := by
  decide

/-- C5, amended: `getStartBit` takes a pulse as a start bit exactly when its measured
high duration `d` satisfies `40 < d < 47`, that is for `d` in 41, ..., 46, and for no
other `d`. -/
theorem C5_start_window (s : State) (d : Nat) (rest : List Nat) :
    (getStartBit { s with pulses := d :: rest }).map Prod.fst = some (decide (40 < d ∧ d < 47)) := by
  by_cases h : 40 < d ∧ d < 47
  · simp [getStartBit, START_BIT_HOLD_ON_LENGTH, START_BIT_LENGTH, h]
  · have h2 : ¬ (d > 42 - 2 ∧ d < 47) := h
    simp [getStartBit, START_BIT_HOLD_ON_LENGTH, START_BIT_LENGTH, h, h2]

/-! ## SendMessage -/

theorem IsAvcBusFree_polls (s s1 : State) (b : Bool) (h : IsAvcBusFree s = some (b, s1)) :
    s1.polls.length < s.polls.length ∧ ∃ t, s1 = { s with TCNT0 := t, polls := s1.polls } := by
  unfold IsAvcBusFree at h
  have key : ∀ (ps : List (Bool × Nat)) (r : Bool) (t : Nat) (rest : List (Bool × Nat)),
      busFreeLoop ps = some (r, t, rest) → rest.length < ps.length := by
    intro ps
    induction ps with
    | nil => intro r t rest h; simp [busFreeLoop] at h
    | cons p ps ih =>
      intro r t rest h
      obtain ⟨c, u⟩ := p
      simp only [busFreeLoop] at h
      split at h
      · split at h
        · simp only [Option.some.injEq, Prod.mk.injEq] at h
          obtain ⟨_, _, h3⟩ := h
          subst h3; simp
        · have := ih r t rest h
          simp only [List.length_cons]; omega
      · simp only [Option.some.injEq, Prod.mk.injEq] at h
        obtain ⟨_, _, h3⟩ := h
        subst h3; simp
  cases hb : busFreeLoop s.polls with
  | none => simp [hb] at h
  | some x =>
    obtain ⟨r, t, rest⟩ := x
    simp only [hb, Option.some.injEq, Prod.mk.injEq] at h
    obtain ⟨_, h2⟩ := h
    subst h2
    exact ⟨key _ _ _ _ hb, t, rfl⟩

theorem waitBusFree_mono :
    ∀ (fuel : Nat) (s s0 : State), waitBusFree fuel s = some s0 →
      ∀ more : Nat, fuel ≤ more → waitBusFree more s = some s0 := by
  intro fuel
  induction fuel with
  | zero => intro s s0 h; simp [waitBusFree] at h
  | succ fuel ih =>
    intro s s0 h more hmore
    obtain ⟨m, rfl⟩ : ∃ m, more = m + 1 := ⟨more - 1, by omega⟩
    simp only [waitBusFree] at h ⊢
    cases hf : IsAvcBusFree s with
    | none => simp [hf] at h
    | some x =>
      obtain ⟨b, s1⟩ := x
      cases b with
      | true => simpa [hf] using h
      | false =>
        simp only [hf] at h ⊢
        exact ih s1 s0 h m (by omega)

theorem waitBusFree_enough :
    ∀ (fuel : Nat) (s s0 : State), waitBusFree fuel s = some s0 →
      waitBusFree (s.polls.length + 1) s = some s0 := by
  intro fuel
  induction fuel with
  | zero => intro s s0 h; simp [waitBusFree] at h
  | succ fuel ih =>
    intro s s0 h
    simp only [waitBusFree] at h ⊢
    cases hf : IsAvcBusFree s with
    | none => simp [hf] at h
    | some x =>
      obtain ⟨b, s1⟩ := x
      cases b with
      | true => simpa [hf] using h
      | false =>
        simp only [hf] at h ⊢
        have hlt := (IsAvcBusFree_polls s s1 false hf).1
        exact waitBusFree_mono _ s1 s0 (ih s1 s0 h) _ (by omega)

/-- The spin on `IsAvcBusFree` changes the counter and the polls only. -/
theorem waitBusFree_frame :
    ∀ (fuel : Nat) (s s0 : State), waitBusFree fuel s = some s0 →
      ∃ t ps, s0 = { s with TCNT0 := t, polls := ps } := by
  intro fuel
  induction fuel with
  | zero => intro s s0 h; simp [waitBusFree] at h
  | succ fuel ih =>
    intro s s0 h
    simp only [waitBusFree] at h
    cases hf : IsAvcBusFree s with
    | none => simp [hf] at h
    | some x =>
      obtain ⟨b, s1⟩ := x
      obtain ⟨_, t1, h1⟩ := IsAvcBusFree_polls s s1 b hf
      cases b with
      | true =>
        simp only [hf, Option.some.injEq] at h
        subst h
        exact ⟨t1, s1.polls, h1⟩
      | false =>
        simp only [hf] at h
        obtain ⟨t, ps, h2⟩ := ih s1 s0 h
        refine ⟨t, ps, ?_⟩
        rw [h2, h1]

theorem HandleAcknowledge_normal (s : State) (a : Nat) (rest : List Nat)
    (hmode : s.Broadcast = true) (hp : s.pulses = a :: rest) :
    HandleAcknowledge s =
      some (decide (7 < a),
        { s with pulses := rest, TCNT0 := if a < 10 then 10 else a,
                 out := s.out ++ [ackPulse a] }) := by
  by_cases h : 7 < a <;>
    simp [HandleAcknowledge, hmode, hp, boolInt, MSG_BCAST, ackPulse, waitUntil,
      BIT_1_HOLD_ON_LENGTH, NORMAL_BIT_LENGTH, BIT_HOLD_HALF_PERIOD, h]

theorem getD_of_drop (l : List Nat) (i d : Nat) (tl : List Nat) (h : l.drop i = d :: tl) :
    l.getD i 0 = d ∧ l.drop (i + 1) = tl := by
  constructor
  · have h1 : (l.drop i)[0]? = some d := by rw [h]; simp
    rw [List.getElem?_drop] at h1
    simp only [Nat.add_zero] at h1
    simp [List.getD_eq_getElem?_getD, h1]
  · have h2 : l.drop (i + 1) = (l.drop i).drop 1 := by
      rw [List.drop_drop]
    rw [h2, h]; rfl

theorem sendData_acked (env : Env) (rest : List Nat) (D : List Nat) :
    ∀ (as : List Nat) (i : Nat) (s : State) (tl : List Nat),
      s.Broadcast = true → as.length = D.length → (∀ a ∈ as, 7 < a) →
      s.pulses = as ++ rest → s.Data.drop i = D ++ tl →
      ∃ p t, sendData env D.length i s =
        some (true, { s with pulses := rest, ParityBit := p, TCNT0 := t,
                             out := s.out ++ dataPulses D as }) := by
  induction D with
  | nil =>
    intro as i s tl _ hlen _ hp _
    have has : as = [] := List.length_eq_zero.mp hlen
    subst has
    refine ⟨s.ParityBit, s.TCNT0, ?_⟩
    cases s
    simp only [List.nil_append] at hp
    subst hp
    simp [sendData, dataPulses]
  | cons d D ih =>
    intro as i s tl hmode hlen hack hp hD
    cases as with
    | nil => simp at hlen
    | cons a as =>
      have ha : 7 < a := hack a (by simp)
      obtain ⟨hd, hdrop⟩ := getD_of_drop s.Data i d (D ++ tl) hD
      have hA := HandleAcknowledge_normal
        (Send1BitWord (Send8BitWord d s).ParityBit (Send8BitWord d s)) a (as ++ rest)
        (by simp [Send1BitWord_eq, Send8BitWord_eq, hmode])
        (by simp [Send1BitWord_eq, Send8BitWord_eq, hp])
      simp only [List.length_cons, sendData, loadData, hd, hA, ha, decide_True]
      obtain ⟨p, t, h⟩ := ih as (i + 1)
        { Send1BitWord (Send8BitWord d s).ParityBit (Send8BitWord d s) with
          pulses := as ++ rest, TCNT0 := if a < 10 then 10 else a,
          out := (Send1BitWord (Send8BitWord d s).ParityBit (Send8BitWord d s)).out
                  ++ [ackPulse a] } tl
        (by simp [Send1BitWord_eq, Send8BitWord_eq, hmode]) (by simpa using hlen)
        (fun x hx => hack x (by simp [hx])) rfl
        (by simpa [Send1BitWord_eq, Send8BitWord_eq] using hdrop)
      rw [h]
      refine ⟨p, t, ?_⟩
      simp [dataPulses, fieldPulses, Send1BitWord_eq, Send8BitWord_eq]

/-- The state once a field and its acknowledge slot have been sent in normal mode, the
line falling at `a` ticks in the slot. -/
theorem txLength_normal (env : Env) (s : State) (a : Nat) (more : List Nat)
    (hmode : s.Broadcast = true) (hp : s.pulses = a :: more) :
    txLength env s =
      if 7 < a then
        txData env
          { s with ParityBit := xorAll (bitsMSB 8 s.DataSize), pulses := more,
                   TCNT0 := if a < 10 then 10 else a,
                   out := s.out ++ (fieldPulses 8 s.DataSize ++ [ackPulse a]) }
      else
        some (noAck env "SendMessage: No Ack @ DataSize"
          { s with ParityBit := xorAll (bitsMSB 8 s.DataSize), pulses := more,
                   TCNT0 := if a < 10 then 10 else a,
                   out := s.out ++ (fieldPulses 8 s.DataSize ++ [ackPulse a]) }) := by
  have hA := HandleAcknowledge_normal
    (Send1BitWord (Send8BitWord s.DataSize s).ParityBit (Send8BitWord s.DataSize s)) a more
    (by simp [Send1BitWord_eq, Send8BitWord_eq, hmode])
    (by simp [Send1BitWord_eq, Send8BitWord_eq, hp])
  unfold txLength
  simp only []
  by_cases h : 7 < a
  · rw [decide_eq_true h] at hA
    rw [hA, if_pos h]
    simp [Send1BitWord_eq, Send8BitWord_eq, fieldPulses]
  · rw [decide_eq_false h] at hA
    rw [hA, if_neg h]
    simp [Send1BitWord_eq, Send8BitWord_eq, fieldPulses]

theorem txControl_normal (env : Env) (s : State) (a : Nat) (more : List Nat)
    (hmode : s.Broadcast = true) (hp : s.pulses = a :: more) :
    txControl env s =
      if 7 < a then
        txLength env
          { s with ParityBit := xorAll (bitsMSB 4 s.Control), pulses := more,
                   TCNT0 := if a < 10 then 10 else a,
                   out := s.out ++ (fieldPulses 4 s.Control ++ [ackPulse a]) }
      else
        some (noAck env "SendMessage: No Ack @ Control"
          { s with ParityBit := xorAll (bitsMSB 4 s.Control), pulses := more,
                   TCNT0 := if a < 10 then 10 else a,
                   out := s.out ++ (fieldPulses 4 s.Control ++ [ackPulse a]) }) := by
  have hA := HandleAcknowledge_normal
    (Send1BitWord (Send4BitWord s.Control s).ParityBit (Send4BitWord s.Control s)) a more
    (by simp [Send1BitWord_eq, Send4BitWord_eq, hmode])
    (by simp [Send1BitWord_eq, Send4BitWord_eq, hp])
  unfold txControl
  simp only []
  by_cases h : 7 < a
  · rw [decide_eq_true h] at hA
    rw [hA, if_pos h]
    simp [Send1BitWord_eq, Send4BitWord_eq, fieldPulses]
  · rw [decide_eq_false h] at hA
    rw [hA, if_neg h]
    simp [Send1BitWord_eq, Send4BitWord_eq, fieldPulses]

theorem txAddresses_state (s : State) :
    Send1BitWord (Send12BitWord (Send1BitWord (Send12BitWord
        (Send1BitWord (SendStartBit s).Broadcast (SendStartBit s)).MasterAddress
        (Send1BitWord (SendStartBit s).Broadcast (SendStartBit s))).ParityBit
      (Send12BitWord (Send1BitWord (SendStartBit s).Broadcast (SendStartBit s)).MasterAddress
        (Send1BitWord (SendStartBit s).Broadcast (SendStartBit s)))).SlaveAddress
      (Send1BitWord (Send12BitWord
        (Send1BitWord (SendStartBit s).Broadcast (SendStartBit s)).MasterAddress
        (Send1BitWord (SendStartBit s).Broadcast (SendStartBit s))).ParityBit
      (Send12BitWord (Send1BitWord (SendStartBit s).Broadcast (SendStartBit s)).MasterAddress
        (Send1BitWord (SendStartBit s).Broadcast (SendStartBit s))))).ParityBit
      (Send12BitWord (Send1BitWord (Send12BitWord
        (Send1BitWord (SendStartBit s).Broadcast (SendStartBit s)).MasterAddress
        (Send1BitWord (SendStartBit s).Broadcast (SendStartBit s))).ParityBit
      (Send12BitWord (Send1BitWord (SendStartBit s).Broadcast (SendStartBit s)).MasterAddress
        (Send1BitWord (SendStartBit s).Broadcast (SendStartBit s)))).SlaveAddress
      (Send1BitWord (Send12BitWord
        (Send1BitWord (SendStartBit s).Broadcast (SendStartBit s)).MasterAddress
        (Send1BitWord (SendStartBit s).Broadcast (SendStartBit s))).ParityBit
      (Send12BitWord (Send1BitWord (SendStartBit s).Broadcast (SendStartBit s)).MasterAddress
        (Send1BitWord (SendStartBit s).Broadcast (SendStartBit s)))))
    = { s with ParityBit := xorAll (bitsMSB 12 s.SlaveAddress), TCNT0 := 10,
               out := s.out ++ ([startPulse, bitPulse s.Broadcast]
                 ++ fieldPulses 12 s.MasterAddress ++ fieldPulses 12 s.SlaveAddress) } := by
  simp only [SendStartBit_eq, Send1BitWord_eq, Send12BitWord_eq, fieldPulses]
  simp

theorem txAddresses_normal (env : Env) (s : State) (a : Nat) (more : List Nat)
    (hmode : s.Broadcast = true) (hp : s.pulses = a :: more) :
    txAddresses env s =
      if 7 < a then
        txControl env
          { s with ParityBit := xorAll (bitsMSB 12 s.SlaveAddress), pulses := more,
                   TCNT0 := if a < 10 then 10 else a,
                   out := s.out ++ ([startPulse, bitPulse true]
                     ++ fieldPulses 12 s.MasterAddress ++ fieldPulses 12 s.SlaveAddress
                     ++ [ackPulse a]) }
      else
        some (noAck env "SendMessage: No Ack @ Slave address"
          { s with ParityBit := xorAll (bitsMSB 12 s.SlaveAddress), pulses := more,
                   TCNT0 := if a < 10 then 10 else a,
                   out := s.out ++ ([startPulse, bitPulse true]
                     ++ fieldPulses 12 s.MasterAddress ++ fieldPulses 12 s.SlaveAddress
                     ++ [ackPulse a]) }) := by
  have hA := HandleAcknowledge_normal
    { s with ParityBit := xorAll (bitsMSB 12 s.SlaveAddress), TCNT0 := 10,
             out := s.out ++ ([startPulse, bitPulse s.Broadcast]
               ++ fieldPulses 12 s.MasterAddress ++ fieldPulses 12 s.SlaveAddress) }
    a more hmode hp
  unfold txAddresses
  simp only []
  rw [txAddresses_state]
  by_cases h : 7 < a
  · rw [decide_eq_true h] at hA
    rw [hA, if_pos h]
    simp [hmode]
  · rw [decide_eq_false h] at hA
    rw [hA, if_neg h]
    simp [hmode]

theorem SendMessage_header (env : Env) (fuel : Nat) (s s0 : State) (a0 a1 a2 : Nat)
    (more : List Nat) (hmode : s.Broadcast = true) (hfree : waitBusFree fuel s = some s0)
    (hp : s.pulses = a0 :: a1 :: a2 :: more) (h0 : 7 < a0) (h1 : 7 < a1) (h2 : 7 < a2) :
    SendMessage env s =
      match sendData env s.DataSize 0
          { s with TCNT0 := if a2 < 10 then 10 else a2, polls := s0.polls, led := true,
                   ParityBit := xorAll (bitsMSB 8 s.DataSize), pulses := more,
                   out := s.out ++ ([startPulse, bitPulse true] ++ fieldPulses 12 s.MasterAddress
                     ++ fieldPulses 12 s.SlaveAddress ++ [ackPulse a0]
                     ++ fieldPulses 4 s.Control ++ [ackPulse a1]
                     ++ fieldPulses 8 s.DataSize ++ [ackPulse a2]) } with
      | none => none
      | some (false, s15) => some (false, s15)
      | some (true, s15) => some (true, LedOff (DumpRawMessage true s15)) := by
  obtain ⟨t, ps, hs0⟩ := waitBusFree_frame fuel s s0 hfree
  have hw := waitBusFree_enough fuel s s0 hfree
  unfold SendMessage
  rw [hw]
  subst hs0
  simp only []
  refine (txAddresses_normal env _ a0 (a1 :: a2 :: more) ?_ ?_).trans ?_
  · exact hmode
  · exact hp
  rw [if_pos h0]
  refine (txControl_normal env _ a1 (a2 :: more) ?_ ?_).trans ?_
  · exact hmode
  · rfl
  rw [if_pos h1]
  refine (txLength_normal env _ a2 more ?_ ?_).trans ?_
  · exact hmode
  · rfl
  rw [if_pos h2]
  simp [txData, LedOn]

theorem dataPulses_length (D : List Nat) :
    ∀ as : List Nat, as.length = D.length → (dataPulses D as).length = 10 * D.length := by
  induction D with
  | nil => intro as _; cases as <;> simp [dataPulses]
  | cons d D ih =>
    intro as h
    cases as with
    | nil => simp at h
    | cons a as =>
      have h2 : as.length = D.length := by simpa using h
      simp [dataPulses, fieldPulses, bitsMSB_length, ih as h2]
      omega

/-- C1: a frame in normal mode on the wire.  With the mode register at Normal, a length
`n ≤ 32`, the bus found free and the line held past the threshold in each of the `3 + n`
acknowledge slots, `SendMessage` returns `true` and the pulses it puts out are, in this
order: the start bit, the mode bit (a 1), the 12 bits of the master address most
significant first and their parity, the 12 bits of the slave address and their parity,
an acknowledge slot, the 4 bits of control, parity, slot, the 8 bits of `n`, parity,
slot, then for each byte of the payload its 8 bits, parity and slot: `44 + 10 * n` bit
slots after the start bit.  The frame is also what `DumpRawMessage` prints. -/
theorem C1_normal_frame_on_wire (env : Env) (fuel : Nat) (s s0 : State) (a0 a1 a2 : Nat)
    (as rest : List Nat)
    (hmode : s.Broadcast = true) (hn : s.DataSize ≤ 32) (hbuf : s.Data.length = 32)
    (hfree : waitBusFree fuel s = some s0)
    (hp : s.pulses = a0 :: a1 :: a2 :: as ++ rest) (hlen : as.length = s.DataSize)
    (hack : ∀ a ∈ a0 :: a1 :: a2 :: as, 7 < a) :
    ∃ s1, SendMessage env s = some (true, s1)
      ∧ emitted s s1 =
          framePulses true s.MasterAddress s.SlaveAddress s.Control s.DataSize
            (s.Data.take s.DataSize) a0 a1 a2 as
      ∧ (emitted s s1).length = 1 + (44 + 10 * s.DataSize)
      ∧ s1.pulses = rest
      ∧ s1.serial = s.serial ++
          [SerialLine.dump true true s.MasterAddress s.SlaveAddress s.Control s.DataSize
            (s.Data.take s.DataSize)] := by
  have hDlen : (s.Data.take s.DataSize).length = s.DataSize := by
    rw [List.length_take, hbuf]; omega
  have hrun := SendMessage_header env fuel s s0 a0 a1 a2 (as ++ rest) hmode hfree hp
    (hack a0 (by simp)) (hack a1 (by simp)) (hack a2 (by simp))
  obtain ⟨p, t, hdata⟩ := sendData_acked env rest (s.Data.take s.DataSize) as 0
    { s with TCNT0 := if a2 < 10 then 10 else a2, polls := s0.polls, led := true,
             ParityBit := xorAll (bitsMSB 8 s.DataSize), pulses := as ++ rest,
             out := s.out ++ ([startPulse, bitPulse true] ++ fieldPulses 12 s.MasterAddress
               ++ fieldPulses 12 s.SlaveAddress ++ [ackPulse a0]
               ++ fieldPulses 4 s.Control ++ [ackPulse a1]
               ++ fieldPulses 8 s.DataSize ++ [ackPulse a2]) }
    (s.Data.drop s.DataSize) hmode (by rw [hlen, hDlen])
    (fun a ha => hack a (by simp [ha])) rfl (by simp)
  rw [hDlen] at hdata
  rw [hrun, hdata]
  refine ⟨_, rfl, ?_, ?_, rfl, ?_⟩
  · apply emitted_append
    simp [LedOff, DumpRawMessage, framePulses]
  · rw [emitted_append s _ (framePulses true s.MasterAddress s.SlaveAddress s.Control s.DataSize
      (s.Data.take s.DataSize) a0 a1 a2 as) (by simp [LedOff, DumpRawMessage, framePulses])]
    have hdl := dataPulses_length (s.Data.take s.DataSize) as (by rw [hlen, hDlen])
    rw [hDlen] at hdl
    simp [framePulses, fieldPulses, bitsMSB_length, hdl]
    omega
  · simp [LedOff, DumpRawMessage, hmode]

/-- Witness of C1: the frame of Scenario A, every slot acknowledged. -/
theorem C1_normal_frame_on_wire_witness :
    sendScene.Broadcast = true ∧ sendScene.DataSize ≤ 32 ∧ sendScene.Data.length = 32
    ∧ waitBusFree 1 sendScene = some { sendScene with TCNT0 := 11, polls := [] }
    ∧ sendScene.pulses = 9 :: 9 :: 9 :: [9] ++ [] ∧ [9].length = sendScene.DataSize
    ∧ (∀ a ∈ 9 :: 9 :: 9 :: [9], 7 < a)
    ∧ ∃ s1, SendMessage (Env.shipped (fun k => k)) sendScene = some (true, s1)
      ∧ emitted sendScene s1 =
          framePulses true sendScene.MasterAddress sendScene.SlaveAddress sendScene.Control
            sendScene.DataSize (sendScene.Data.take sendScene.DataSize) 9 9 9 [9]
      ∧ (emitted sendScene s1).length = 1 + (44 + 10 * sendScene.DataSize)
      ∧ s1.pulses = []
      ∧ s1.serial = sendScene.serial ++
          [SerialLine.dump true true sendScene.MasterAddress sendScene.SlaveAddress
            sendScene.Control sendScene.DataSize (sendScene.Data.take sendScene.DataSize)] :=
  ⟨by decide, by decide, by decide, by decide, by decide, by decide, by decide,
    C1_normal_frame_on_wire (Env.shipped (fun k => k)) 1 sendScene
      { sendScene with TCNT0 := 11, polls := [] } 9 9 9 [9] []
      (by decide) (by decide) (by decide) (by decide) (by decide) (by decide) (by decide)⟩

/-! ## AvcReadMessage: reading fields -/

theorem tickAfter_single (t d : Nat) : tickAfter t [d] = rxTick d := by
  simp only [tickAfter, rxTick, List.foldl, BIT_HOLD_HALF_PERIOD, BIT_0_HOLD_ON_LENGTH, waitUntil]
  by_cases h : d < 7
  · have h9 : d < 9 := by omega
    simp [h, h9]
  · simp [h]

theorem valueOf_single (b : Bool) : valueOf [b] % 65536 = boolInt b := by
  cases b <;> rfl

theorem boolInt_bne (p q : Bool) : (boolInt p != boolInt q) = (p != q) := by
  cases p <;> cases q <;> rfl

theorem parityMismatch_cons (s : State) (par : Nat) (tail : List Nat)
    (hp : s.pulses = par :: tail) :
    parityMismatch s =
      some (s.ParityBit != bitOf par,
        { s with pulses := tail, ParityBit := bitOf par, TCNT0 := rxTick par }) := by
  unfold parityMismatch
  rw [ReadBits_append 1 [par] tail s (by decide) rfl (by simpa using hp)]
  simp [bitsOf, valueOf_single, boolInt_bne, xorAll, tickAfter_single]

theorem ackOrSkip_cons (forMe : Bool) (s : State) (a : Nat) (tail : List Nat)
    (hp : s.pulses = a :: tail) :
    ackOrSkip forMe s = some (afterAck forMe a s) := by
  cases forMe
  · simp only [ackOrSkip, afterAck, Bool.false_eq_true, if_false]
    rw [ReadBits_append 1 [a] tail s (by decide) rfl (by simpa using hp)]
    simp [bitsOf, xorAll, tickAfter_single, hp]
  · simp [ackOrSkip, afterAck, SendAcknowledge, hp, waitUntil, BIT_0_HOLD_ON_LENGTH]

theorem ackOrSkip_nil (forMe : Bool) (s : State) (hp : s.pulses = []) :
    ackOrSkip forMe s = none := by
  cases forMe
  · simp only [ackOrSkip, Bool.false_eq_true, if_false]
    rw [ReadBits_none 1 s (by decide) (by simp [hp])]
  · simp [ackOrSkip, SendAcknowledge, hp]

theorem RxField.value_lt (f : RxField) (w : Nat) (h : f.bits.length = w) : f.value < 2 ^ w := by
  have h1 := valueOf_lt (bitsOf f.bits)
  have h2 : (bitsOf f.bits).length = w := by simp [bitsOf, h]
  rw [h2] at h1
  exact h1

/-- A field read from the bus: `ReadBits`, then the parity bit.  `put` is the
assignment of the value to its register, which leaves the bus and `ParityBit` alone. -/
theorem read_field (w : Nat) (f : RxField) (tail : List Nat) (s : State)
    (put : Nat → State → State)
    (hput : ∀ v r, (put v r).pulses = r.pulses ∧ (put v r).ParityBit = r.ParityBit)
    (hw : w ≤ 16) (hlen : f.bits.length = w) (hp : s.pulses = f.pulses ++ tail) :
    ∃ s1, ReadBits w s = some (f.value, s1) ∧
      parityMismatch (put f.value s1) =
        some (!f.parityOk,
          { put f.value s1 with pulses := tail, ParityBit := bitOf f.par,
                                TCNT0 := rxTick f.par })
      ∧ s1 = { s with pulses := f.par :: tail, ParityBit := xorAll (bitsOf f.bits),
                      TCNT0 := tickAfter s.TCNT0 f.bits } := by
  have hlt : f.value < 65536 := by
    have h1 := f.value_lt w hlen
    have h3 : 2 ^ w ≤ 2 ^ 16 := Nat.pow_le_pow_right (by decide) hw
    omega
  have hread := ReadBits_append w f.bits (f.par :: tail) s (by omega) hlen
    (by simpa [RxField.pulses] using hp)
  refine ⟨_, ?_, ?_, rfl⟩
  · rw [hread]
    simp only [RxField.value] at hlt ⊢
    rw [Nat.mod_eq_of_lt hlt]
  · rw [parityMismatch_cons _ f.par tail (by rw [(hput _ _).1])]
    rw [(hput _ _).2]
    simp only [RxField.parityOk]
    cases xorAll (bitsOf f.bits) <;> cases bitOf f.par <;> simp

theorem drop_bits (bits : List Nat) (par : Nat) (tail : List Nat) :
    (bits ++ par :: tail).drop (bits.length + 1) = tail := by
  rw [List.drop_append]
  rfl

theorem getStartBit_cons (s : State) (d : Nat) (tail : List Nat) (hp : s.pulses = d :: tail) :
    getStartBit s = some (decide (40 < d ∧ d < 47), { s with pulses := tail, TCNT0 := d }) := by
  by_cases h : 40 < d ∧ d < 47
  · simp [getStartBit, hp, START_BIT_HOLD_ON_LENGTH, START_BIT_LENGTH, h]
  · have h2 : ¬ (d > 42 - 2 ∧ d < 47) := h
    simp [getStartBit, hp, START_BIT_HOLD_ON_LENGTH, START_BIT_LENGTH, h, h2]

theorem read_mode (s : State) (mode : Nat) (tail : List Nat) (hp : s.pulses = mode :: tail) :
    ReadBits 1 s =
      some (boolInt (bitOf mode),
        { s with pulses := tail, ParityBit := bitOf mode, TCNT0 := rxTick mode }) := by
  rw [ReadBits_append 1 [mode] tail s (by decide) rfl (by simpa using hp)]
  simp [bitsOf, valueOf_single, xorAll, tickAfter_single]

theorem boolInt_ne_zero (b : Bool) : (boolInt b != 0) = b := by
  cases b <;> rfl

/-- Up to the master address field. -/
theorem AvcReadMessage_master (env : Env) (s : State) (start mode : Nat) (master : RxField)
    (tail : List Nat) (hstart : 40 < start ∧ start < 47) (hm : master.bits.length = 12)
    (hp : s.pulses = [start, mode] ++ master.pulses ++ tail) :
    AvcReadMessage env false s =
      if master.parityOk then rxSlave env (afterMaster mode master s)
      else some (false,
        showError env "AvcReadMessage: Parity error @ MasterAddress!"
          (afterMaster mode master s)) := by
  have hp2 : s.pulses = start :: mode :: (master.pulses ++ tail) := by simpa using hp
  unfold AvcReadMessage
  simp only [Bool.false_eq_true, if_false]
  rw [getStartBit_cons s start _ hp2]
  simp only [hstart, and_self, decide_True]
  rw [read_mode _ mode (master.pulses ++ tail) rfl]
  simp only [boolInt_ne_zero]
  obtain ⟨s1, h1, h2, h3⟩ := read_field 12 master tail
    { LedOn { s with pulses := mode :: (master.pulses ++ tail), TCNT0 := start } with
      pulses := master.pulses ++ tail, ParityBit := bitOf mode, TCNT0 := rxTick mode,
      Broadcast := bitOf mode }
    (fun v r => { r with MasterAddress := v }) (fun _ _ => ⟨rfl, rfl⟩) (by decide) hm rfl
  rw [h1]
  simp only [h2]
  have hst : ({ s1 with MasterAddress := master.value, pulses := tail,
                        ParityBit := bitOf master.par, TCNT0 := rxTick master.par } : State)
      = afterMaster mode master s := by
    rw [h3]
    simp [afterMaster, afterField, afterStart, LedOn, hp2, RxField.pulses, drop_bits]
  cases hok : master.parityOk
  · simp only [Bool.not_false, Bool.false_eq_true, if_false, showError]
    rw [← hst]
  · simp only [Bool.not_true, if_true]
    rw [← hst]

/-- The slave address field and what follows it. -/
theorem rxSlave_eq (env : Env) (s : State) (slave : RxField) (tail : List Nat)
    (hlen : slave.bits.length = 12) (hp : s.pulses = slave.pulses ++ tail) :
    rxSlave env s =
      if slave.parityOk then
        match ackOrSkip (slave.value == MY_ADDRESS)
            (afterField slave { s with SlaveAddress := slave.value }) with
        | none => none
        | some s4 => rxControl env (slave.value == MY_ADDRESS) s4
      else some (false,
        showError env "AvcReadMessage: Parity error @ SlaveAddress!"
          (afterField slave { s with SlaveAddress := slave.value })) := by
  obtain ⟨s1, h1, h2, h3⟩ := read_field 12 slave tail s
    (fun v r => { r with SlaveAddress := v }) (fun _ _ => ⟨rfl, rfl⟩) (by decide) hlen hp
  unfold rxSlave
  rw [h1]
  simp only [h2]
  have hst : ({ s1 with SlaveAddress := slave.value, pulses := tail,
                        ParityBit := bitOf slave.par, TCNT0 := rxTick slave.par } : State)
      = afterField slave { s with SlaveAddress := slave.value } := by
    rw [h3]
    simp [afterField, hp, RxField.pulses, drop_bits]
  cases hok : slave.parityOk
  · simp only [Bool.not_false, Bool.false_eq_true, if_false, showError]
    rw [← hst]
  · simp only [Bool.not_true, if_true]
    rw [← hst]

/-- The control field and what follows it. -/
theorem rxControl_eq (env : Env) (forMe : Bool) (s : State) (control : RxField)
    (tail : List Nat) (hlen : control.bits.length = 4) (hp : s.pulses = control.pulses ++ tail) :
    rxControl env forMe s =
      if control.parityOk then
        match ackOrSkip forMe (afterField control { s with Control := control.value }) with
        | none => none
        | some s4 => rxLength env forMe s4
      else some (false,
        parityError env forMe "AvcReadMessage: Parity error @ Control!"
          (afterField control { s with Control := control.value })) := by
  have hv : control.value % 256 = control.value := by
    have := control.value_lt 4 hlen
    omega
  obtain ⟨s1, h1, h2, h3⟩ := read_field 4 control tail s
    (fun v r => { r with Control := v % 256 }) (fun _ _ => ⟨rfl, rfl⟩) (by decide) hlen hp
  unfold rxControl
  rw [h1]
  simp only [h2]
  have hst : ({ s1 with Control := control.value % 256, pulses := tail,
                        ParityBit := bitOf control.par, TCNT0 := rxTick control.par } : State)
      = afterField control { s with Control := control.value } := by
    rw [h3, hv]
    simp [afterField, hp, RxField.pulses, drop_bits]
  cases hok : control.parityOk
  · simp only [Bool.not_false, Bool.false_eq_true, if_false]
    rw [← hst]
  · simp only [Bool.not_true, if_true]
    rw [← hst]

/-- The length field and what follows it. -/
theorem rxLength_eq (env : Env) (forMe : Bool) (s : State) (length : RxField)
    (tail : List Nat) (hlen : length.bits.length = 8) (hp : s.pulses = length.pulses ++ tail) :
    rxLength env forMe s =
      if length.parityOk then
        match ackOrSkip forMe (afterField length { s with DataSize := length.value }) with
        | none => none
        | some s4 => rxData env forMe s4.DataSize 0 s4
      else some (false,
        parityError env forMe "AvcReadMessage: Parity error @ DataSize!"
          (afterField length { s with DataSize := length.value })) := by
  have hv : length.value % 256 = length.value := by
    have := length.value_lt 8 hlen
    omega
  obtain ⟨s1, h1, h2, h3⟩ := read_field 8 length tail s
    (fun v r => { r with DataSize := v % 256 }) (fun _ _ => ⟨rfl, rfl⟩) (by decide) hlen hp
  unfold rxLength
  rw [h1]
  simp only [h2]
  have hst : ({ s1 with DataSize := length.value % 256, pulses := tail,
                        ParityBit := bitOf length.par, TCNT0 := rxTick length.par } : State)
      = afterField length { s with DataSize := length.value } := by
    rw [h3, hv]
    simp [afterField, hp, RxField.pulses, drop_bits]
  cases hok : length.parityOk
  · simp only [Bool.not_false, Bool.false_eq_true, if_false]
    rw [← hst]
  · simp only [Bool.not_true, if_true]
    rw [← hst]

theorem storeData_bus (i v : Nat) (r : State) :
    (storeData i v r).pulses = r.pulses ∧ (storeData i v r).ParityBit = r.ParityBit := by
  unfold storeData
  split <;> exact ⟨rfl, rfl⟩

/-- One round of the data loop and what follows it. -/
theorem rxData_succ (env : Env) (forMe : Bool) (k i : Nat) (s : State) (byte : RxField)
    (tail : List Nat) (hlen : byte.bits.length = 8) (hp : s.pulses = byte.pulses ++ tail) :
    rxData env forMe (k + 1) i s =
      if byte.parityOk then
        match ackOrSkip forMe (afterField byte (storeData i byte.value s)) with
        | none => none
        | some s4 => rxData env forMe k (i + 1) s4
      else some (false,
        parityError env forMe "AvcReadMessage: Parity error @ Data"
          (afterField byte (storeData i byte.value s))) := by
  have hv : byte.value % 256 = byte.value := by
    have := byte.value_lt 8 hlen
    omega
  obtain ⟨s1, h1, h2, h3⟩ := read_field 8 byte tail s
    (fun v r => storeData i (v % 256) r) (fun _ _ => storeData_bus _ _ _) (by decide) hlen hp
  rw [rxData, h1]
  simp only [h2]
  have hst :
      ({ storeData i (byte.value % 256) s1 with
          pulses := tail, ParityBit := bitOf byte.par, TCNT0 := rxTick byte.par } : State)
      = afterField byte (storeData i byte.value s) := by
    rw [h3, hv]
    unfold storeData
    split <;> simp [afterField, hp, RxField.pulses, drop_bits]
  cases hok : byte.parityOk
  · simp only [Bool.not_false, Bool.false_eq_true, if_false]
    rw [← hst]
  · simp only [Bool.not_true, if_true]
    rw [← hst]

/-! ## AvcReadMessage: the data bytes -/

theorem afterField_pulses (f : RxField) (s : State) (tail : List Nat)
    (hp : s.pulses = f.pulses ++ tail) : (afterField f s).pulses = tail := by
  simp [afterField, hp, RxField.pulses, drop_bits]

theorem afterAck_pulses (forMe : Bool) (a : Nat) (s : State) :
    (afterAck forMe a s).pulses = s.pulses.drop 1 := by
  cases forMe <;> rfl

theorem storeData_length (i v : Nat) (s : State) :
    (storeData i v s).Data.length = s.Data.length := by
  unfold storeData
  split <;> simp

theorem rxView_afterField (f : RxField) (s : State) : rxView (afterField f s) = rxView s := rfl

theorem rxView_afterAck (forMe : Bool) (a : Nat) (s : State) :
    rxView (afterAck forMe a s) = rxView s := by
  cases forMe <;> rfl

theorem rxView_storeData (i v : Nat) (s : State) : rxView (storeData i v s) = rxView s := by
  have h := storeData_length i v s
  unfold storeData at h ⊢
  split <;> simp_all [rxView]

theorem rxView_afterData (forMe : Bool) (data : List (RxField × Nat)) :
    ∀ (i : Nat) (s : State), rxView (afterData forMe data i s) = rxView s := by
  induction data with
  | nil => intro i s; rfl
  | cons p more ih =>
    intro i s
    obtain ⟨f, a⟩ := p
    simp only [afterData]
    rw [ih, rxView_afterAck, rxView_afterField, rxView_storeData]

/-- The data loop over bytes that all arrive with a matching parity bit. -/
theorem rxData_good (env : Env) (forMe : Bool) (tail : List Nat) (data : List (RxField × Nat)) :
    ∀ (k i : Nat) (s : State),
      (∀ p ∈ data, p.1.bits.length = 8 ∧ p.1.parityOk = true) →
      s.pulses = dataTrain data ++ tail →
      rxData env forMe (data.length + k) i s
          = rxData env forMe k (i + data.length) (afterData forMe data i s)
        ∧ (afterData forMe data i s).pulses = tail := by
  induction data with
  | nil =>
    intro k i s _ hp
    simp only [dataTrain, List.nil_append] at hp
    simp [afterData, hp]
  | cons p more ih =>
    intro k i s hall hp
    obtain ⟨f, a⟩ := p
    have hf := hall (f, a) (by simp)
    have hp1 : s.pulses = f.pulses ++ (a :: (dataTrain more ++ tail)) := by
      simp [dataTrain, hp]
    have hp2 : (afterField f (storeData i f.value s)).pulses = a :: (dataTrain more ++ tail) :=
      afterField_pulses f _ _ (by rw [(storeData_bus _ _ _).1, hp1])
    have hp3 : (afterAck forMe a (afterField f (storeData i f.value s))).pulses
        = dataTrain more ++ tail := by
      rw [afterAck_pulses, hp2]; rfl
    obtain ⟨h1, h2⟩ := ih k (i + 1) _ (fun q hq => hall q (by simp [hq])) hp3
    have hk : (f, a) :: more = (f, a) :: more := rfl
    have hlen : ((f, a) :: more).length + k = (more.length + k) + 1 := by
      simp only [List.length_cons]; omega
    rw [hlen, rxData_succ env forMe _ i s f _ hf.1 hp1, hf.2, if_pos rfl,
      ackOrSkip_cons forMe _ a _ hp2]
    simp only [afterData]
    refine ⟨?_, h2⟩
    rw [h1]
    congr 1
    simp only [List.length_cons]; omega

/-! ## SendMessage: what it leaves alone, when it returns -/

theorem rxDumps_append_tx (lines : List SerialLine) (b : Bool) (M S C n : Nat) (D : List Nat) :
    rxDumps (lines ++ [SerialLine.dump true b M S C n D]) = rxDumps lines := by
  simp [rxDumps, List.filter_append]

theorem rxDumps_append_text (lines : List SerialLine) (msg : String) :
    rxDumps (lines ++ [SerialLine.text msg]) = rxDumps lines := by
  simp [rxDumps, List.filter_append]

theorem txView_Send1BitWord (b : Bool) (s : State) :
    txView (Send1BitWord b s) = txView s ∧ (Send1BitWord b s).pulses = s.pulses := by
  rw [Send1BitWord_eq]; exact ⟨rfl, rfl⟩

theorem txView_Send4BitWord (v : Nat) (s : State) :
    txView (Send4BitWord v s) = txView s ∧ (Send4BitWord v s).pulses = s.pulses := by
  rw [Send4BitWord_eq]; exact ⟨rfl, rfl⟩

theorem txView_Send8BitWord (v : Nat) (s : State) :
    txView (Send8BitWord v s) = txView s ∧ (Send8BitWord v s).pulses = s.pulses := by
  rw [Send8BitWord_eq]; exact ⟨rfl, rfl⟩

theorem txView_Send12BitWord (v : Nat) (s : State) :
    txView (Send12BitWord v s) = txView s ∧ (Send12BitWord v s).pulses = s.pulses := by
  rw [Send12BitWord_eq]; exact ⟨rfl, rfl⟩

theorem txView_SendStartBit (s : State) :
    txView (SendStartBit s) = txView s ∧ (SendStartBit s).pulses = s.pulses := by
  rw [SendStartBit_eq]; exact ⟨rfl, rfl⟩

theorem txView_DumpRawMessage_tx (s : State) : txView (DumpRawMessage true s) = txView s := by
  simp [txView, DumpRawMessage, rxDumps_append_tx]

theorem txView_noAck (env : Env) (msg : String) (s : State) :
    (noAck env msg s).1 = false ∧ txView (noAck env msg s).2 = txView s := by
  unfold noAck
  split
  · refine ⟨rfl, ?_⟩
    have h := txView_DumpRawMessage_tx s
    simp only [txView, serialPrint, rxDumps_append_text] at h ⊢
    exact h
  · exact ⟨rfl, rfl⟩

theorem HandleAcknowledge_view (s s1 : State) (b : Bool)
    (h : HandleAcknowledge s = some (b, s1)) :
    txView s1 = txView s ∧ s.pulses.length ≤ s1.pulses.length + 1 := by
  unfold HandleAcknowledge at h
  split at h
  · simp only [Option.some.injEq, Prod.mk.injEq] at h
    obtain ⟨_, h2⟩ := h
    subst h2
    exact ⟨(txView_Send1BitWord _ _).1, by rw [(txView_Send1BitWord _ _).2]; omega⟩
  · cases hp : s.pulses with
    | nil => simp [hp] at h
    | cons d rest =>
      simp only [hp] at h
      split at h <;>
      · simp only [Option.some.injEq, Prod.mk.injEq] at h
        obtain ⟨_, h2⟩ := h
        subst h2
        exact ⟨rfl, by simp⟩

theorem HandleAcknowledge_ne_none (s : State) (hp : 1 ≤ s.pulses.length) :
    HandleAcknowledge s ≠ none := by
  unfold HandleAcknowledge
  split
  · simp
  · cases h : s.pulses with
    | nil => simp [h] at hp
    | cons d rest =>
      simp only
      split <;> simp

theorem sendData_returns (env : Env) :
    ∀ (k i : Nat) (s : State), k ≤ s.pulses.length →
      ∃ b s1, sendData env k i s = some (b, s1) ∧ txView s1 = txView s := by
  intro k
  induction k with
  | zero => intro i s _; exact ⟨true, s, rfl, rfl⟩
  | succ k ih =>
    intro i s hk
    have hv : txView (Send1BitWord (Send8BitWord (loadData i s) s).ParityBit
        (Send8BitWord (loadData i s) s)) = txView s := by
      rw [(txView_Send1BitWord _ _).1, (txView_Send8BitWord _ _).1]
    have hp : (Send1BitWord (Send8BitWord (loadData i s) s).ParityBit
        (Send8BitWord (loadData i s) s)).pulses = s.pulses := by
      rw [(txView_Send1BitWord _ _).2, (txView_Send8BitWord _ _).2]
    simp only [sendData]
    split
    · rename_i heq
      exact absurd heq (HandleAcknowledge_ne_none _ (by rw [hp]; omega))
    · rename_i s3 heq
      obtain ⟨h1, _⟩ := HandleAcknowledge_view _ _ _ heq
      exact ⟨_, _, rfl, ((txView_noAck _ _ _).2.trans h1).trans hv⟩
    · rename_i s3 heq
      obtain ⟨h1, h2⟩ := HandleAcknowledge_view _ _ _ heq
      rw [hp] at h2
      obtain ⟨b, s4, h3, h4⟩ := ih (i + 1) s3 (by omega)
      exact ⟨b, s4, h3, by rw [h4, h1, hv]⟩

theorem txView_DataSize (s s1 : State) (h : txView s1 = txView s) : s1.DataSize = s.DataSize := by
  simp only [txView, Prod.mk.injEq] at h
  exact h.2.2.2.2.1

theorem txView_LedOff (s : State) : txView (LedOff s) = txView s := rfl

theorem txData_returns (env : Env) (s : State) (hp : s.DataSize ≤ s.pulses.length) :
    ∃ b s1, txData env s = some (b, s1) ∧ txView s1 = txView s := by
  obtain ⟨b, s1, h1, h2⟩ := sendData_returns env s.DataSize 0 s hp
  unfold txData
  rw [h1]
  cases b
  · exact ⟨_, _, rfl, h2⟩
  · exact ⟨_, _, rfl, ((txView_LedOff _).trans (txView_DumpRawMessage_tx _)).trans h2⟩

theorem txLength_returns (env : Env) (s : State) (hp : 1 + s.DataSize ≤ s.pulses.length) :
    ∃ b s1, txLength env s = some (b, s1) ∧ txView s1 = txView s := by
  have hv : txView (Send1BitWord (Send8BitWord s.DataSize s).ParityBit
      (Send8BitWord s.DataSize s)) = txView s := by
    rw [(txView_Send1BitWord _ _).1, (txView_Send8BitWord _ _).1]
  have hq : (Send1BitWord (Send8BitWord s.DataSize s).ParityBit
      (Send8BitWord s.DataSize s)).pulses = s.pulses := by
    rw [(txView_Send1BitWord _ _).2, (txView_Send8BitWord _ _).2]
  unfold txLength
  simp only []
  split
  · rename_i heq
    exact absurd heq (HandleAcknowledge_ne_none _ (by rw [hq]; omega))
  · rename_i s3 heq
    obtain ⟨h1, _⟩ := HandleAcknowledge_view _ _ _ heq
    exact ⟨_, _, rfl, ((txView_noAck _ _ _).2.trans h1).trans hv⟩
  · rename_i s3 heq
    obtain ⟨h1, h2⟩ := HandleAcknowledge_view _ _ _ heq
    rw [hq] at h2
    have hd : s3.DataSize = s.DataSize := txView_DataSize _ _ (h1.trans hv)
    obtain ⟨b, s4, h3, h4⟩ := txData_returns env s3 (by omega)
    exact ⟨b, s4, h3, (h4.trans h1).trans hv⟩

theorem txControl_returns (env : Env) (s : State) (hp : 2 + s.DataSize ≤ s.pulses.length) :
    ∃ b s1, txControl env s = some (b, s1) ∧ txView s1 = txView s := by
  have hv : txView (Send1BitWord (Send4BitWord s.Control s).ParityBit
      (Send4BitWord s.Control s)) = txView s := by
    rw [(txView_Send1BitWord _ _).1, (txView_Send4BitWord _ _).1]
  have hq : (Send1BitWord (Send4BitWord s.Control s).ParityBit
      (Send4BitWord s.Control s)).pulses = s.pulses := by
    rw [(txView_Send1BitWord _ _).2, (txView_Send4BitWord _ _).2]
  unfold txControl
  simp only []
  split
  · rename_i heq
    exact absurd heq (HandleAcknowledge_ne_none _ (by rw [hq]; omega))
  · rename_i s3 heq
    obtain ⟨h1, _⟩ := HandleAcknowledge_view _ _ _ heq
    exact ⟨_, _, rfl, ((txView_noAck _ _ _).2.trans h1).trans hv⟩
  · rename_i s3 heq
    obtain ⟨h1, h2⟩ := HandleAcknowledge_view _ _ _ heq
    rw [hq] at h2
    have hd : s3.DataSize = s.DataSize := txView_DataSize _ _ (h1.trans hv)
    obtain ⟨b, s4, h3, h4⟩ := txLength_returns env s3 (by omega)
    exact ⟨b, s4, h3, (h4.trans h1).trans hv⟩

theorem txAddresses_returns (env : Env) (s : State) (hp : 3 + s.DataSize ≤ s.pulses.length) :
    ∃ b s1, txAddresses env s = some (b, s1) ∧ txView s1 = txView s := by
  unfold txAddresses
  simp only []
  rw [txAddresses_state]
  split
  · rename_i heq
    exact absurd heq (HandleAcknowledge_ne_none _ (by simp only []; omega))
  · rename_i s3 heq
    obtain ⟨h1, _⟩ := HandleAcknowledge_view _ _ _ heq
    exact ⟨_, _, rfl, (txView_noAck _ _ _).2.trans h1⟩
  · rename_i s3 heq
    obtain ⟨h1, h2⟩ := HandleAcknowledge_view _ _ _ heq
    simp only [] at h2
    have hd : s3.DataSize = s.DataSize := txView_DataSize _ _ h1
    obtain ⟨b, s4, h3, h4⟩ := txControl_returns env s3 (by omega)
    exact ⟨b, s4, h3, h4.trans h1⟩

/-- Once the bus has been found free and with a pulse on the bus for each acknowledge
slot, `SendMessage` returns, acknowledged or not, and leaves the registers alone. -/
theorem SendMessage_returns (env : Env) (fuel : Nat) (s s0 : State)
    (hfree : waitBusFree fuel s = some s0) (hp : 3 + s.DataSize ≤ s.pulses.length) :
    ∃ b s1, SendMessage env s = some (b, s1) ∧ txView s1 = txView s := by
  obtain ⟨t, ps, hs0⟩ := waitBusFree_frame fuel s s0 hfree
  have hw := waitBusFree_enough fuel s s0 hfree
  unfold SendMessage
  rw [hw]
  simp only []
  subst hs0
  obtain ⟨b, s1, h1, h2⟩ := txAddresses_returns env (LedOn { s with TCNT0 := t, polls := ps }) hp
  exact ⟨b, s1, h1, h2⟩

/-! ## AvcReadMessage: a whole frame -/

theorem regView_storeData (i v : Nat) (s : State) : regView (storeData i v s) = regView s := by
  unfold storeData
  split <;> rfl

theorem regView_afterAck (forMe : Bool) (a : Nat) (s : State) :
    regView (afterAck forMe a s) = regView s := by
  cases forMe <;> rfl

theorem regView_afterData (forMe : Bool) (data : List (RxField × Nat)) :
    ∀ (i : Nat) (s : State), regView (afterData forMe data i s) = regView s := by
  induction data with
  | nil => intro i s; rfl
  | cons p more ih =>
    intro i s
    obtain ⟨f, a⟩ := p
    simp only [afterData]
    rw [ih, regView_afterAck]
    exact regView_storeData i f.value s

theorem out_afterData_other (data : List (RxField × Nat)) :
    ∀ (i : Nat) (s : State), (afterData false data i s).out = s.out := by
  induction data with
  | nil => intro i s; rfl
  | cons p more ih =>
    intro i s
    obtain ⟨f, a⟩ := p
    simp only [afterData]
    rw [ih]
    simp only [afterAck, afterField, Bool.false_eq_true, if_false]
    unfold storeData
    split <;> rfl

/-- A whole frame whose parity bits all match: `AvcReadMessage` reads it and goes on
with line 392. -/
theorem AvcReadMessage_frame (env : Env) (s : State) (start mode : Nat)
    (master slave : RxField) (a0 : Nat) (control : RxField) (a1 : Nat) (length : RxField)
    (a2 : Nat) (data : List (RxField × Nat)) (rest : List Nat)
    (hstart : 40 < start ∧ start < 47)
    (hm : master.bits.length = 12) (hs : slave.bits.length = 12)
    (hc : control.bits.length = 4) (hl : length.bits.length = 8)
    (hdata : ∀ p ∈ data, p.1.bits.length = 8 ∧ p.1.parityOk = true)
    (hmo : master.parityOk = true) (hso : slave.parityOk = true)
    (hco : control.parityOk = true) (hlo : length.parityOk = true)
    (hn : data.length = length.value)
    (hp : s.pulses = frameTrain start mode master slave a0 control a1 length a2 data ++ rest) :
    AvcReadMessage env false s =
        rxTail env (slave.value == MY_ADDRESS)
          (afterFrame mode master slave a0 control a1 length a2 data s)
      ∧ (afterFrame mode master slave a0 control a1 length a2 data s).pulses = rest := by
  have hp1 : s.pulses = [start, mode] ++ master.pulses ++ (slave.pulses ++ a0 ::
      (control.pulses ++ a1 :: (length.pulses ++ a2 :: (dataTrain data ++ rest)))) := by
    simp [hp, frameTrain, addressTrain]
  have hq1 : (afterMaster mode master s).pulses = slave.pulses ++ a0 ::
      (control.pulses ++ a1 :: (length.pulses ++ a2 :: (dataTrain data ++ rest))) := by
    simp [afterMaster, afterField, afterStart, hp1, RxField.pulses, drop_bits]
  have hq2 : (afterField slave { afterMaster mode master s with SlaveAddress := slave.value }).pulses
      = a0 :: (control.pulses ++ a1 :: (length.pulses ++ a2 :: (dataTrain data ++ rest))) :=
    afterField_pulses slave _ _ hq1
  rw [AvcReadMessage_master env s start mode master _ hstart hm hp1, hmo, if_pos rfl,
    rxSlave_eq env _ slave _ hs hq1, hso, if_pos rfl, ackOrSkip_cons _ _ a0 _ hq2]
  simp only []
  have hq3 : (afterAck (slave.value == MY_ADDRESS) a0 (afterSlave mode master slave s)).pulses
      = control.pulses ++ a1 :: (length.pulses ++ a2 :: (dataTrain data ++ rest)) := by
    rw [afterAck_pulses]
    simp only [afterSlave, hq2, List.drop_succ_cons, List.drop_zero]
  have hq4 := afterField_pulses control
    { afterAck (slave.value == MY_ADDRESS) a0 (afterSlave mode master slave s) with
      Control := control.value } _ hq3
  rw [show afterField slave { afterMaster mode master s with SlaveAddress := slave.value }
      = afterSlave mode master slave s from rfl,
    rxControl_eq env _ _ control _ hc hq3, hco, if_pos rfl, ackOrSkip_cons _ _ a1 _ hq4]
  simp only []
  have hq5 : (afterAck (slave.value == MY_ADDRESS) a1 (afterField control
      { afterAck (slave.value == MY_ADDRESS) a0 (afterSlave mode master slave s) with
        Control := control.value })).pulses = length.pulses ++ a2 :: (dataTrain data ++ rest) := by
    rw [afterAck_pulses, hq4]; rfl
  have hq6 := afterField_pulses length
    { afterAck (slave.value == MY_ADDRESS) a1 (afterField control
      { afterAck (slave.value == MY_ADDRESS) a0 (afterSlave mode master slave s) with
        Control := control.value }) with DataSize := length.value } _ hq5
  rw [rxLength_eq env _ _ length _ hl hq5, hlo, if_pos rfl, ackOrSkip_cons _ _ a2 _ hq6]
  simp only []
  have hq7 : (afterAck (slave.value == MY_ADDRESS) a2 (afterField length
      { afterAck (slave.value == MY_ADDRESS) a1 (afterField control
        { afterAck (slave.value == MY_ADDRESS) a0 (afterSlave mode master slave s) with
          Control := control.value }) with DataSize := length.value })).pulses
      = dataTrain data ++ rest := by
    rw [afterAck_pulses, hq6]; rfl
  have hsize : (afterAck (slave.value == MY_ADDRESS) a2 (afterField length
      { afterAck (slave.value == MY_ADDRESS) a1 (afterField control
        { afterAck (slave.value == MY_ADDRESS) a0 (afterSlave mode master slave s) with
          Control := control.value }) with DataSize := length.value })).DataSize
      = data.length + 0 := by
    have h := regView_afterAck (slave.value == MY_ADDRESS) a2 (afterField length
      { afterAck (slave.value == MY_ADDRESS) a1 (afterField control
        { afterAck (slave.value == MY_ADDRESS) a0 (afterSlave mode master slave s) with
          Control := control.value }) with DataSize := length.value })
    simp only [regView, Prod.mk.injEq] at h
    rw [h.2.2.2.2.1, hn]; rfl
  obtain ⟨h1, h2⟩ := rxData_good env (slave.value == MY_ADDRESS) rest data 0 0 _ hdata hq7
  rw [hsize, h1]
  exact ⟨rfl, h2⟩

/-! ## AvcReadMessage: registration and the ping responder -/

theorem waitBusFree_polls :
    ∀ (fuel : Nat) (s s0 s2 : State), waitBusFree fuel s = some s0 → s2.polls = s.polls →
      ∃ s3, waitBusFree fuel s2 = some s3 := by
  intro fuel
  induction fuel with
  | zero => intro s s0 s2 h; simp [waitBusFree] at h
  | succ fuel ih =>
    intro s s0 s2 h hpolls
    simp only [waitBusFree, IsAvcBusFree] at h ⊢
    rw [hpolls]
    cases hb : busFreeLoop s.polls with
    | none => simp [hb] at h
    | some x =>
      obtain ⟨r, t, rest⟩ := x
      simp only [hb] at h ⊢
      cases r with
      | true => exact ⟨_, rfl⟩
      | false =>
        simp only [] at h ⊢
        exact ih _ s0 _ h rfl

theorem loadReply_facts (s : State) :
    (loadReply s).DataSize = 6 ∧ (loadReply s).Broadcast = true
    ∧ (loadReply s).MasterAddress = 0x140 ∧ (loadReply s).SlaveAddress = 0x130
    ∧ (loadReply s).Control = 0xE
    ∧ (loadReply s).pulses = s.pulses ∧ (loadReply s).polls = s.polls
    ∧ (loadReply s).millisCalls = s.millisCalls ∧ (loadReply s).serial = s.serial
    ∧ (loadReply s).isRegistred = s.isRegistred
    ∧ (loadReply s).lastRegistred = s.lastRegistred := by
  simp [loadReply, LoadDataInGlogalRegisters, loadLoop, storeData, CmdDdisplayAnsver2,
    MSG_NORMAL, MSG_BCAST, boolInt, HU_ADDRESS, MY_ADDRESS, CONTROL_FLAGS]

theorem txView_fields (s s1 : State) (h : txView s1 = txView s) :
    s1.millisCalls = s.millisCalls ∧ rxDumps s1.serial = rxDumps s.serial
    ∧ s1.Data = s.Data ∧ s1.SlaveAddress = s.SlaveAddress ∧ s1.Broadcast = s.Broadcast := by
  simp only [txView, Prod.mk.injEq] at h
  obtain ⟨h1, _, h3, _, _, h6, _, _, _, _, h11, h12⟩ := h
  exact ⟨h11, h12, h6, h3, h1⟩

/-- The ping responder: with the bus then found free and a pulse for each of the nine
acknowledge slots of the answer, it returns, with the node registered at the time of
the last call of `millis()`, and without a dump of the received frame. -/
theorem responder_returns (env : Env) (fuel : Nat) (s s0 : State)
    (hfree : waitBusFree fuel s = some s0) (hp : 9 ≤ s.pulses.length) :
    ∃ s1, (match SendMessage env (loadReply s) with
            | none => none
            | some (_, s5) => some (afterReply env s5)) = some (false, s1)
      ∧ s1.isRegistred = true ∧ s1.lastRegistred = env.millis (s1.millisCalls - 1)
      ∧ s1.millisCalls = s.millisCalls + 1
      ∧ rxDumps s1.serial = rxDumps s.serial := by
  obtain ⟨hd, _, _, _, _, hpu, hpo, hmc, hse, _, _⟩ := loadReply_facts s
  obtain ⟨s3, hw⟩ := waitBusFree_polls fuel s s0 (loadReply s) hfree hpo
  obtain ⟨b, s5, h5, hv⟩ := SendMessage_returns env fuel (loadReply s) s3 hw
    (by rw [hd, hpu]; omega)
  obtain ⟨hm5, hs5, _, _, _⟩ := txView_fields _ _ hv
  rw [h5]
  refine ⟨_, rfl, ?_, ?_, ?_, ?_⟩
  · simp [afterReply, millis, LedOff]
  · simp [afterReply, millis, LedOff]
  · simp [afterReply, millis, LedOff, hm5, hmc]
  · simp only [afterReply, millis, LedOff]
    rw [hs5, hse]

theorem afterFrame_facts (mode : Nat) (master slave : RxField) (a0 : Nat) (control : RxField)
    (a1 : Nat) (length : RxField) (a2 : Nat) (data : List (RxField × Nat)) (s : State) :
    rxView (afterFrame mode master slave a0 control a1 length a2 data s) = rxView s
    ∧ regView (afterFrame mode master slave a0 control a1 length a2 data s)
        = (bitOf mode, master.value, slave.value, control.value, length.value, true)
    ∧ ((slave.value == MY_ADDRESS) = false →
        (afterFrame mode master slave a0 control a1 length a2 data s).out = s.out) := by
  refine ⟨?_, ?_, ?_⟩
  · unfold afterFrame
    rw [rxView_afterData, rxView_afterAck, rxView_afterField]
    show rxView (afterAck _ a1 _) = rxView s
    rw [rxView_afterAck, rxView_afterField]
    show rxView (afterAck _ a0 _) = rxView s
    rw [rxView_afterAck]
    rfl
  · unfold afterFrame
    rw [regView_afterData, regView_afterAck]
    cases (slave.value == MY_ADDRESS) <;> rfl
  · intro h
    unfold afterFrame
    rw [h, out_afterData_other]
    rfl

theorem rxView_fields (s s1 : State) (h : rxView s1 = rxView s) :
    s1.isRegistred = s.isRegistred ∧ s1.lastRegistred = s.lastRegistred
    ∧ s1.millisCalls = s.millisCalls ∧ s1.polls = s.polls ∧ s1.serial = s.serial
    ∧ s1.Data.length = s.Data.length := by
  simp only [rxView, Prod.mk.injEq] at h
  obtain ⟨h1, h2, h3, h4, h5, _, h7⟩ := h
  exact ⟨h1, h2, h3, h4, h5, h7⟩

/-- Line 392 on, for a frame addressed to this node. -/
theorem rxTail_forMe (env : Env) (fuel : Nat) (s s0 : State)
    (hreply : s.DataSize = 3 → waitBusFree fuel s = some s0 ∧ 9 ≤ s.pulses.length) :
    ∃ s1, rxTail env true s = some (false, s1)
      ∧ s1.isRegistred = true ∧ s1.lastRegistred = env.millis (s1.millisCalls - 1)
      ∧ s.millisCalls < s1.millisCalls := by
  unfold rxTail
  simp only [if_true]
  by_cases hping : isPing { (millis env { s with isRegistred := true }).2 with
      lastRegistred := (millis env { s with isRegistred := true }).1 } = true
  · rw [if_pos hping]
    have hsize : s.DataSize = 3 := by
      simp only [isPing, millis, Bool.and_eq_true, beq_iff_eq] at hping
      exact hping.1.1
    obtain ⟨hfree, hlen⟩ := hreply hsize
    obtain ⟨s3, hw⟩ := waitBusFree_polls fuel s s0
      { (millis env { s with isRegistred := true }).2 with
        lastRegistred := (millis env { s with isRegistred := true }).1 } hfree rfl
    obtain ⟨s1, h1, h2, h3, h4, _⟩ := responder_returns env fuel _ s3 hw hlen
    refine ⟨s1, h1, h2, h3, ?_⟩
    rw [h4]
    simp only [millis]
    omega
  · rw [if_neg hping]
    refine ⟨_, rfl, ?_, ?_, ?_⟩
    · cases env.ONLY_MY <;> simp [LedOff, DumpRawMessage, millis]
    · cases env.ONLY_MY <;> simp [LedOff, DumpRawMessage, millis]
    · cases env.ONLY_MY <;> simp [LedOff, DumpRawMessage, millis]

/-- C6: after `AvcReadMessage` has read a whole frame whose parity bits all match and
whose slave address is the own address 0x140, `isRegistred` is true and `lastRegistred`
is the current time, the value of the last call of `millis()` made during the pass,
whatever both held before.  (Where the frame is a ping request the pass ends with the
transmission of the answer, for which the bus has to be found free and to carry a pulse
in each acknowledge slot.) -/
theorem C6_registered_when_for_me (env : Env) (fuel : Nat) (s s0 : State) (start mode : Nat)
    (master slave : RxField) (a0 : Nat) (control : RxField) (a1 : Nat) (length : RxField)
    (a2 : Nat) (data : List (RxField × Nat)) (rest : List Nat)
    (hstart : 40 < start ∧ start < 47)
    (hm : master.bits.length = 12) (hs : slave.bits.length = 12)
    (hc : control.bits.length = 4) (hl : length.bits.length = 8)
    (hdata : ∀ p ∈ data, p.1.bits.length = 8 ∧ p.1.parityOk = true)
    (hmo : master.parityOk = true) (hso : slave.parityOk = true)
    (hco : control.parityOk = true) (hlo : length.parityOk = true)
    (hn : data.length = length.value)
    (hme : slave.value = 0x140)
    (hp : s.pulses = frameTrain start mode master slave a0 control a1 length a2 data ++ rest)
    (hreply : length.value = 3 → waitBusFree fuel s = some s0 ∧ 9 ≤ rest.length) :
    ∃ s1, AvcReadMessage env false s = some (false, s1)
      ∧ s1.isRegistred = true
      ∧ s1.lastRegistred = env.millis (s1.millisCalls - 1)
      ∧ s.millisCalls < s1.millisCalls := by
  obtain ⟨hrun, hrest⟩ := AvcReadMessage_frame env s start mode master slave a0 control a1
    length a2 data rest hstart hm hs hc hl hdata hmo hso hco hlo hn hp
  obtain ⟨hview, hregs, _⟩ := afterFrame_facts mode master slave a0 control a1 length a2 data s
  obtain ⟨_, _, hmc, hpolls, _, _⟩ := rxView_fields _ _ hview
  have hsize : (afterFrame mode master slave a0 control a1 length a2 data s).DataSize
      = length.value := by
    simp only [regView, Prod.mk.injEq] at hregs
    exact hregs.2.2.2.2.1
  have hforMe : (slave.value == MY_ADDRESS) = true := by simp [hme, MY_ADDRESS]
  rw [hrun, hforMe]
  have hres : (afterFrame mode master slave a0 control a1 length a2 data s).DataSize = 3 →
      (∃ s3, waitBusFree fuel (afterFrame mode master slave a0 control a1 length a2 data s)
          = some s3)
      ∧ 9 ≤ (afterFrame mode master slave a0 control a1 length a2 data s).pulses.length := by
    intro h3
    obtain ⟨hfree, hlen⟩ := hreply (by rw [← hsize, h3])
    exact ⟨waitBusFree_polls fuel s s0 _ hfree hpolls, by rw [hrest]; exact hlen⟩
  by_cases h3 : (afterFrame mode master slave a0 control a1 length a2 data s).DataSize = 3
  · obtain ⟨⟨s3, hw⟩, hlen⟩ := hres h3
    obtain ⟨s1, h1, h2, h4, h5⟩ := rxTail_forMe env fuel _ s3 (fun _ => ⟨hw, hlen⟩)
    exact ⟨s1, h1, h2, h4, by rw [← hmc]; exact h5⟩
  · obtain ⟨s1, h1, h2, h4, h5⟩ := rxTail_forMe env fuel _ s0 (fun h => absurd h h3)
    exact ⟨s1, h1, h2, h4, by rw [← hmc]; exact h5⟩

/-- Witness of C6: a frame with one data byte addressed to this node. -/
theorem C6_registered_when_for_me_witness :
    ∃ s1, AvcReadMessage (Env.shipped (fun k => 1000 + k)) false forMeScene = some (false, s1)
      ∧ s1.isRegistred = true
      ∧ s1.lastRegistred = (Env.shipped (fun k => 1000 + k)).millis (s1.millisCalls - 1)
      ∧ forMeScene.millisCalls < s1.millisCalls :=
  C6_registered_when_for_me (Env.shipped (fun k => 1000 + k)) 0 forMeScene forMeScene 42 5
    (nominalField 12 0x130) (nominalField 12 0x140) 5 (nominalField 4 0xF) 5
    (nominalField 8 1) 5 [(nominalField 8 0x1F, 5)] []
    (by decide) (by decide) (by decide) (by decide) (by decide) (by decide) (by decide)
    (by decide) (by decide) (by decide) (by decide) (by decide) (by decide)
    (fun h => absurd h (by decide))

theorem six_of_length (D : List Nat) (h : 6 ≤ D.length) :
    ∃ d0 d1 d2 d3 d4 d5 tl, D = d0 :: d1 :: d2 :: d3 :: d4 :: d5 :: tl := by
  match D, h with
  | d0 :: d1 :: d2 :: d3 :: d4 :: d5 :: tl, _ => exact ⟨d0, d1, d2, d3, d4, d5, tl, rfl⟩

theorem loadReply_data (s : State) (h : 6 ≤ s.Data.length) :
    (loadReply s).Data.take 6 = [0x11, loadData 1 s, 0x01, 0x02, 0x85, 0x93] := by
  obtain ⟨d0, d1, d2, d3, d4, d5, tl, hD⟩ := six_of_length s.Data h
  simp [loadReply, LoadDataInGlogalRegisters, loadLoop, storeData, CmdDdisplayAnsver2,
    MSG_NORMAL, MSG_BCAST, boolInt, loadData, hD]

/-- The payload registers once three data bytes have been received. -/
theorem afterFrame_three (mode : Nat) (master slave : RxField) (a0 : Nat) (control : RxField)
    (a1 : Nat) (length : RxField) (a2 : Nat) (b0 b1 b2 : RxField) (x0 x1 x2 : Nat) (s : State)
    (hbuf : 6 ≤ s.Data.length) :
    loadData 0 (afterFrame mode master slave a0 control a1 length a2
        [(b0, x0), (b1, x1), (b2, x2)] s) = b0.value
    ∧ loadData 1 (afterFrame mode master slave a0 control a1 length a2
        [(b0, x0), (b1, x1), (b2, x2)] s) = b1.value
    ∧ loadData 2 (afterFrame mode master slave a0 control a1 length a2
        [(b0, x0), (b1, x1), (b2, x2)] s) = b2.value := by
  obtain ⟨d0, d1, d2, d3, d4, d5, tl, hD⟩ := six_of_length s.Data hbuf
  cases hf : (slave.value == MY_ADDRESS) <;>
    simp [afterFrame, afterData, afterAck, afterField, afterSlave, afterMaster, afterStart,
      storeData, loadData, hD, hf]

/-- The registers at line 401 when the frame received is a ping request. -/
theorem ping_at_tail (env : Env) (forMe : Bool) (s : State)
    (hsize : s.DataSize = 3) (h0 : loadData 0 s = 0x10) (h2 : loadData 2 s = 0x01) :
    rxTail env forMe s =
      match SendMessage env (loadReply
          (if forMe then
            { (millis env { s with isRegistred := true }).2 with
              lastRegistred := (millis env { s with isRegistred := true }).1 }
           else s)) with
      | none => none
      | some (_, s5) => some (afterReply env s5) := by
  unfold rxTail
  simp only []
  have hping : isPing (if forMe then
      { (millis env { s with isRegistred := true }).2 with
        lastRegistred := (millis env { s with isRegistred := true }).1 } else s) = true := by
    cases forMe <;> simp_all [isPing, millis, loadData]
  rw [if_pos hping]

set_option maxRecDepth 100000 in
/-- C7 as stated fails: on the ping request with token 0xAB the answer handed to
`SendMessage`, which is what it dumps and puts on the wire, has the payload
0x11, 0xAB, 0x01, 0x02, 0x85, 0x93 and not 0x11, 0x00, 0x01, 0x02, 0x85, 0xAB. -/
theorem C7_reply_payload_counterexample :
    (AvcReadMessage (Env.shipped (fun k => k)) false (pingScene 0x140)).map
        (fun r => (r.1, r.2.Data.take 6, r.2.serial, r.2.out.drop 6))
      = some (false, [0x11, 0xAB, 0x01, 0x02, 0x85, 0x93],
          [SerialLine.dump true true 0x140 0x130 0xE 6 [0x11, 0xAB, 0x01, 0x02, 0x85, 0x93]],
          framePulses true 0x140 0x130 0xE 6 [0x11, 0xAB, 0x01, 0x02, 0x85, 0x93] 9 9 9
            [9, 9, 9, 9, 9, 9])
    ∧ [0x11, 0xAB, 0x01, 0x02, 0x85, 0x93] ≠ [0x11, 0x00, 0x01, 0x02, 0x85, 0xAB] := by
  decide

/-- C7, amended: for every token byte, when `AvcReadMessage` has read a frame whose
parity bits all match and whose payload is the ping request 0x10, token, 0x01, the rest
of the pass is the call of `SendMessage` on the answer and what follows it, and the
answer handed to `SendMessage` has mode Normal, master 0x140, slave 0x130, control 0xE
and the payload 0x11, token, 0x01, 0x02, 0x85, 0x93: the token replaces byte 1 of the
template. -/
theorem C7_reply_frame (env : Env) (s : State) (start mode : Nat)
    (master slave : RxField) (a0 : Nat) (control : RxField) (a1 : Nat) (length : RxField)
    (a2 : Nat) (b0 b1 b2 : RxField) (x0 x1 x2 : Nat) (rest : List Nat)
    (hstart : 40 < start ∧ start < 47)
    (hm : master.bits.length = 12) (hs : slave.bits.length = 12)
    (hc : control.bits.length = 4) (hl : length.bits.length = 8)
    (hb0 : b0.bits.length = 8) (hb1 : b1.bits.length = 8) (hb2 : b2.bits.length = 8)
    (hmo : master.parityOk = true) (hso : slave.parityOk = true)
    (hco : control.parityOk = true) (hlo : length.parityOk = true)
    (hbo0 : b0.parityOk = true) (hbo1 : b1.parityOk = true) (hbo2 : b2.parityOk = true)
    (hn : length.value = 3) (hv0 : b0.value = 0x10) (hv2 : b2.value = 0x01)
    (hbuf : s.Data.length = 32)
    (hp : s.pulses = frameTrain start mode master slave a0 control a1 length a2
            [(b0, x0), (b1, x1), (b2, x2)] ++ rest) :
    ∃ reply, AvcReadMessage env false s =
        (match SendMessage env reply with
         | none => none
         | some (_, s5) => some (afterReply env s5))
      ∧ reply.Broadcast = true ∧ reply.MasterAddress = 0x140 ∧ reply.SlaveAddress = 0x130
      ∧ reply.Control = 0xE ∧ reply.DataSize = 6
      ∧ reply.Data.take 6 = [0x11, b1.value, 0x01, 0x02, 0x85, 0x93]
      ∧ reply.pulses = rest ∧ reply.polls = s.polls := by
  have hdata : ∀ p ∈ [(b0, x0), (b1, x1), (b2, x2)], p.1.bits.length = 8 ∧ p.1.parityOk = true := by
    intro p hp
    simp only [List.mem_cons, List.mem_singleton, List.not_mem_nil, or_false] at hp
    rcases hp with h | h | h <;> subst h
    · exact ⟨hb0, hbo0⟩
    · exact ⟨hb1, hbo1⟩
    · exact ⟨hb2, hbo2⟩
  obtain ⟨hrun, hrest⟩ := AvcReadMessage_frame env s start mode master slave a0 control a1
    length a2 [(b0, x0), (b1, x1), (b2, x2)] rest hstart hm hs hc hl hdata hmo hso hco hlo
    (by rw [hn]; rfl) hp
  obtain ⟨hview, hregs, _⟩ := afterFrame_facts mode master slave a0 control a1 length a2
    [(b0, x0), (b1, x1), (b2, x2)] s
  obtain ⟨_, _, _, hpolls, _, hlen⟩ := rxView_fields _ _ hview
  obtain ⟨hd0, hd1, hd2⟩ := afterFrame_three mode master slave a0 control a1 length a2
    b0 b1 b2 x0 x1 x2 s (by omega)
  have hsize : (afterFrame mode master slave a0 control a1 length a2
      [(b0, x0), (b1, x1), (b2, x2)] s).DataSize = 3 := by
    simp only [regView, Prod.mk.injEq] at hregs
    rw [hregs.2.2.2.2.1, hn]
  rw [hrun, ping_at_tail env _ _ hsize (by rw [hd0, hv0]) (by rw [hd2, hv2])]
  refine ⟨_, rfl, ?_⟩
  obtain ⟨f1, f2, f3, f4, f5, f6, f7, _⟩ := loadReply_facts
    (if (slave.value == MY_ADDRESS) = true then
      { (millis env { afterFrame mode master slave a0 control a1 length a2
            [(b0, x0), (b1, x1), (b2, x2)] s with isRegistred := true }).2 with
        lastRegistred := (millis env { afterFrame mode master slave a0 control a1 length a2
            [(b0, x0), (b1, x1), (b2, x2)] s with isRegistred := true }).1 }
     else afterFrame mode master slave a0 control a1 length a2 [(b0, x0), (b1, x1), (b2, x2)] s)
  refine ⟨f2, f3, f4, f5, f1, ?_, ?_, ?_⟩
  · rw [loadReply_data _ (by cases (slave.value == MY_ADDRESS) <;> simp [millis, hlen, hbuf])]
    cases (slave.value == MY_ADDRESS) <;> simp_all [millis, loadData]
  · rw [f6]
    cases (slave.value == MY_ADDRESS) <;> simp [millis, hrest]
  · rw [f7]
    cases (slave.value == MY_ADDRESS) <;> simp [millis, hpolls]

set_option maxRecDepth 100000 in
/-- Witness of C7: the ping request with token 0xAB addressed to this node. -/
theorem C7_reply_frame_witness :
    ∃ reply, AvcReadMessage (Env.shipped (fun k => k)) false (pingScene 0x140) =
        (match SendMessage (Env.shipped (fun k => k)) reply with
         | none => none
         | some (_, s5) => some (afterReply (Env.shipped (fun k => k)) s5))
      ∧ reply.Broadcast = true ∧ reply.MasterAddress = 0x140 ∧ reply.SlaveAddress = 0x130
      ∧ reply.Control = 0xE ∧ reply.DataSize = 6
      ∧ reply.Data.take 6 = [0x11, (nominalField 8 0xAB).value, 0x01, 0x02, 0x85, 0x93]
      ∧ reply.pulses = List.replicate 9 9 ∧ reply.polls = (pingScene 0x140).polls :=
  C7_reply_frame (Env.shipped (fun k => k)) (pingScene 0x140) 42 5
    (nominalField 12 0x130) (nominalField 12 0x140) 9 (nominalField 4 0xF) 9
    (nominalField 8 3) 9 (nominalField 8 0x10) (nominalField 8 0xAB) (nominalField 8 0x01)
    9 9 9 (List.replicate 9 9)
    (by decide) (by decide) (by decide) (by decide) (by decide) (by decide) (by decide)
    (by decide) (by decide) (by decide) (by decide) (by decide) (by decide) (by decide)
    (by decide) (by decide) (by decide) (by decide) (by decide) (by decide)

/-- C8: whenever `AvcReadMessage` takes the responder path, having read a frame of
decoded length 3 with `Data[0] = 0x10` and `Data[2] = 0x01`, then, whatever is measured
in the acknowledge slots of the answer, it returns `false` with `isRegistred` true and
`lastRegistred` the current time, the value of the last call of `millis()`, and no
`DumpRawMessage( false )` has been added to what `Serial` received.  (The answer is
transmitted once the bus is found free, with a pulse in each of its nine slots.) -/
theorem C8_responder_registers (env : Env) (fuel : Nat) (s s0 : State) (start mode : Nat)
    (master slave : RxField) (a0 : Nat) (control : RxField) (a1 : Nat) (length : RxField)
    (a2 : Nat) (b0 b1 b2 : RxField) (x0 x1 x2 : Nat) (rest : List Nat)
    (hstart : 40 < start ∧ start < 47)
    (hm : master.bits.length = 12) (hs : slave.bits.length = 12)
    (hc : control.bits.length = 4) (hl : length.bits.length = 8)
    (hb0 : b0.bits.length = 8) (hb1 : b1.bits.length = 8) (hb2 : b2.bits.length = 8)
    (hmo : master.parityOk = true) (hso : slave.parityOk = true)
    (hco : control.parityOk = true) (hlo : length.parityOk = true)
    (hbo0 : b0.parityOk = true) (hbo1 : b1.parityOk = true) (hbo2 : b2.parityOk = true)
    (hn : length.value = 3) (hv0 : b0.value = 0x10) (hv2 : b2.value = 0x01)
    (hbuf : s.Data.length = 32)
    (hp : s.pulses = frameTrain start mode master slave a0 control a1 length a2
            [(b0, x0), (b1, x1), (b2, x2)] ++ rest)
    (hfree : waitBusFree fuel s = some s0) (hslots : 9 ≤ rest.length) :
    ∃ s1, AvcReadMessage env false s = some (false, s1)
      ∧ s1.isRegistred = true
      ∧ s1.lastRegistred = env.millis (s1.millisCalls - 1)
      ∧ s.millisCalls < s1.millisCalls
      ∧ rxDumps s1.serial = rxDumps s.serial := by
  have hdata : ∀ p ∈ [(b0, x0), (b1, x1), (b2, x2)], p.1.bits.length = 8 ∧ p.1.parityOk = true := by
    intro p hp
    simp only [List.mem_cons, List.mem_singleton, List.not_mem_nil, or_false] at hp
    rcases hp with h | h | h <;> subst h
    · exact ⟨hb0, hbo0⟩
    · exact ⟨hb1, hbo1⟩
    · exact ⟨hb2, hbo2⟩
  obtain ⟨hrun, hrest⟩ := AvcReadMessage_frame env s start mode master slave a0 control a1
    length a2 [(b0, x0), (b1, x1), (b2, x2)] rest hstart hm hs hc hl hdata hmo hso hco hlo
    (by rw [hn]; rfl) hp
  obtain ⟨hview, hregs, _⟩ := afterFrame_facts mode master slave a0 control a1 length a2
    [(b0, x0), (b1, x1), (b2, x2)] s
  obtain ⟨_, _, hmc, hpolls, hser, hlen⟩ := rxView_fields _ _ hview
  obtain ⟨hd0, hd1, hd2⟩ := afterFrame_three mode master slave a0 control a1 length a2
    b0 b1 b2 x0 x1 x2 s (by omega)
  have hsize : (afterFrame mode master slave a0 control a1 length a2
      [(b0, x0), (b1, x1), (b2, x2)] s).DataSize = 3 := by
    simp only [regView, Prod.mk.injEq] at hregs
    rw [hregs.2.2.2.2.1, hn]
  rw [hrun, ping_at_tail env _ _ hsize (by rw [hd0, hv0]) (by rw [hd2, hv2])]
  cases hf : (slave.value == MY_ADDRESS)
  · simp only [Bool.false_eq_true, if_false]
    obtain ⟨s3, hw⟩ := waitBusFree_polls fuel s s0 _ hfree hpolls
    obtain ⟨s1, h1, h2, h3, h4, h5⟩ := responder_returns env fuel _ s3 hw
      (by rw [hrest]; exact hslots)
    exact ⟨s1, h1, h2, h3, by rw [h4, hmc]; omega, by rw [h5, hser]⟩
  · simp only [if_true]
    obtain ⟨s3, hw⟩ := waitBusFree_polls fuel s s0
      { (millis env { afterFrame mode master slave a0 control a1 length a2
            [(b0, x0), (b1, x1), (b2, x2)] s with isRegistred := true }).2 with
        lastRegistred := (millis env { afterFrame mode master slave a0 control a1 length a2
            [(b0, x0), (b1, x1), (b2, x2)] s with isRegistred := true }).1 } hfree
      (by simp [millis, hpolls])
    obtain ⟨s1, h1, h2, h3, h4, h5⟩ := responder_returns env fuel _ s3 hw
      (by simp only [millis]; rw [hrest]; exact hslots)
    refine ⟨s1, h1, h2, h3, ?_, ?_⟩
    · rw [h4]; simp only [millis]; omega
    · rw [h5]; simp only [millis]; rw [hser]

/-- Witness of C8: the ping request with token 0xAB addressed to this node, Scenario B. -/
theorem C8_responder_registers_witness :
    ∃ s1, AvcReadMessage (Env.shipped (fun k => 1000 + k)) false (pingScene 0x140)
        = some (false, s1)
      ∧ s1.isRegistred = true
      ∧ s1.lastRegistred = (Env.shipped (fun k => 1000 + k)).millis (s1.millisCalls - 1)
      ∧ (pingScene 0x140).millisCalls < s1.millisCalls
      ∧ rxDumps s1.serial = rxDumps (pingScene 0x140).serial :=
  C8_responder_registers (Env.shipped (fun k => 1000 + k)) 1 (pingScene 0x140)
    { pingScene 0x140 with TCNT0 := 11, polls := [] } 42 5
    (nominalField 12 0x130) (nominalField 12 0x140) 9 (nominalField 4 0xF) 9
    (nominalField 8 3) 9 (nominalField 8 0x10) (nominalField 8 0xAB) (nominalField 8 0x01)
    9 9 9 (List.replicate 9 9)
    (by decide) (by decide) (by decide) (by decide) (by decide) (by decide) (by decide)
    (by decide) (by decide) (by decide) (by decide) (by decide) (by decide) (by decide)
    (by decide) (by decide) (by decide) (by decide) (by decide) (by decide) (by decide)
    (by decide)

/-! ## AvcReadMessage: frames for other nodes -/

theorem readLoop_reg :
    ∀ (n data : Nat) (s : State) (v : Nat) (s1 : State),
      readLoop n data s = some (v, s1) → s1.isRegistred = s.isRegistred := by
  intro n
  induction n with
  | zero =>
    intro data s v s1 h
    simp only [readLoop, Option.some.injEq, Prod.mk.injEq] at h
    rw [← h.2]
  | succ n ih =>
    intro data s v s1 h
    simp only [readLoop] at h
    cases hp : s.pulses with
    | nil => simp [hp] at h
    | cons d rest =>
      simp only [hp] at h
      split at h
      · have h2 := ih _ _ _ _ h
        exact h2
      · have h2 := ih _ _ _ _ h
        exact h2

theorem ReadBits_reg (n : Nat) (s : State) (v : Nat) (s1 : State)
    (h : ReadBits n s = some (v, s1)) : s1.isRegistred = s.isRegistred := by
  have h2 := readLoop_reg _ _ _ _ _ h
  exact h2

theorem parityMismatch_reg (s : State) (b : Bool) (s1 : State)
    (h : parityMismatch s = some (b, s1)) : s1.isRegistred = s.isRegistred := by
  unfold parityMismatch at h
  cases hr : ReadBits 1 s with
  | none => simp [hr] at h
  | some x =>
    obtain ⟨v, s2⟩ := x
    simp only [hr, Option.some.injEq, Prod.mk.injEq] at h
    rw [← h.2]
    exact ReadBits_reg _ _ _ _ hr

theorem ackOrSkip_other_reg (s s1 : State) (h : ackOrSkip false s = some s1) :
    s1.isRegistred = s.isRegistred := by
  simp only [ackOrSkip, Bool.false_eq_true, if_false] at h
  cases hr : ReadBits 1 s with
  | none => simp [hr] at h
  | some x =>
    obtain ⟨v, s2⟩ := x
    simp only [hr, Option.some.injEq] at h
    rw [← h]
    exact ReadBits_reg _ _ _ _ hr

theorem storeData_reg (i v : Nat) (s : State) :
    (storeData i v s).isRegistred = s.isRegistred := by
  unfold storeData
  split <;> rfl

theorem parityError_other_reg (env : Env) (msg : String) (s : State) :
    (parityError env false msg s).isRegistred = s.isRegistred := by
  unfold parityError
  cases env.SHOW_ERROR <;> simp [serialPrint]

theorem rxTail_other (env : Env) (s : State) (r : Bool) (s1 : State)
    (h : rxTail env false s = some (r, s1)) :
    s1.isRegistred = s.isRegistred ∨ isPing s = true := by
  by_cases hping : isPing s = true
  · exact Or.inr hping
  · left
    unfold rxTail at h
    simp only [Bool.false_eq_true, if_false, hping, Bool.false_or, Option.some.injEq,
      Prod.mk.injEq] at h
    rw [← h.2]
    cases env.ONLY_MY
    · simp [LedOff, DumpRawMessage]
    · simp only [if_true, LedOff]
      split <;> simp [DumpRawMessage]

theorem rxData_other (env : Env) :
    ∀ (k i : Nat) (s : State) (r : Bool) (s1 : State),
      rxData env false k i s = some (r, s1) →
      s1.isRegistred = s.isRegistred
      ∨ ∃ s2, isPing s2 = true ∧ s2.isRegistred = s.isRegistred
          ∧ rxTail env false s2 = some (r, s1) := by
  intro k
  induction k with
  | zero =>
    intro i s r s1 h
    simp only [rxData] at h
    rcases rxTail_other env s r s1 h with h1 | h1
    · exact Or.inl h1
    · exact Or.inr ⟨s, h1, rfl, h⟩
  | succ k ih =>
    intro i s r s1 h
    rw [rxData] at h
    cases hr : ReadBits 8 s with
    | none => simp [hr] at h
    | some x =>
      obtain ⟨v, s2⟩ := x
      have e2 := ReadBits_reg _ _ _ _ hr
      simp only [hr] at h
      cases hm : parityMismatch (storeData i (v % 256) s2) with
      | none => simp [hm] at h
      | some y =>
        obtain ⟨bad, s3⟩ := y
        have e3 := parityMismatch_reg _ _ _ hm
        rw [storeData_reg] at e3
        simp only [hm] at h
        cases bad with
        | true =>
          simp only [Option.some.injEq, Prod.mk.injEq] at h
          left
          rw [← h.2, parityError_other_reg, e3, e2]
        | false =>
          simp only [] at h
          cases ha : ackOrSkip false s3 with
          | none => simp [ha] at h
          | some s4 =>
            have e4 := ackOrSkip_other_reg _ _ ha
            simp only [ha] at h
            rcases ih _ _ _ _ h with h1 | ⟨s5, h1, h2, h3⟩
            · exact Or.inl (by rw [h1, e4, e3, e2])
            · exact Or.inr ⟨s5, h1, by rw [h2, e4, e3, e2], h3⟩

theorem rxLength_other (env : Env) (s : State) (r : Bool) (s1 : State)
    (h : rxLength env false s = some (r, s1)) :
    s1.isRegistred = s.isRegistred
    ∨ ∃ s2, isPing s2 = true ∧ s2.isRegistred = s.isRegistred
        ∧ rxTail env false s2 = some (r, s1) := by
  unfold rxLength at h
  cases hr : ReadBits 8 s with
  | none => simp [hr] at h
  | some x =>
    obtain ⟨v, s2⟩ := x
    have e2 := ReadBits_reg _ _ _ _ hr
    simp only [hr] at h
    cases hm : parityMismatch { s2 with DataSize := v % 256 } with
    | none => simp [hm] at h
    | some y =>
      obtain ⟨bad, s3⟩ := y
      have e3 := parityMismatch_reg _ _ _ hm
      simp only [hm] at h
      cases bad with
      | true =>
        simp only [Option.some.injEq, Prod.mk.injEq] at h
        left
        rw [← h.2, parityError_other_reg, e3]
        exact e2
      | false =>
        simp only [] at h
        cases ha : ackOrSkip false s3 with
        | none => simp [ha] at h
        | some s4 =>
          have e4 := ackOrSkip_other_reg _ _ ha
          simp only [ha] at h
          have e : s4.isRegistred = s.isRegistred := by rw [e4, e3]; exact e2
          rcases rxData_other env _ _ _ _ _ h with h1 | ⟨s5, h1, h2, h3⟩
          · exact Or.inl (by rw [h1, e])
          · exact Or.inr ⟨s5, h1, by rw [h2, e], h3⟩

theorem rxControl_other (env : Env) (s : State) (r : Bool) (s1 : State)
    (h : rxControl env false s = some (r, s1)) :
    s1.isRegistred = s.isRegistred
    ∨ ∃ s2, isPing s2 = true ∧ s2.isRegistred = s.isRegistred
        ∧ rxTail env false s2 = some (r, s1) := by
  unfold rxControl at h
  cases hr : ReadBits 4 s with
  | none => simp [hr] at h
  | some x =>
    obtain ⟨v, s2⟩ := x
    have e2 := ReadBits_reg _ _ _ _ hr
    simp only [hr] at h
    cases hm : parityMismatch { s2 with Control := v % 256 } with
    | none => simp [hm] at h
    | some y =>
      obtain ⟨bad, s3⟩ := y
      have e3 := parityMismatch_reg _ _ _ hm
      simp only [hm] at h
      cases bad with
      | true =>
        simp only [Option.some.injEq, Prod.mk.injEq] at h
        left
        rw [← h.2, parityError_other_reg, e3]
        exact e2
      | false =>
        simp only [] at h
        cases ha : ackOrSkip false s3 with
        | none => simp [ha] at h
        | some s4 =>
          have e4 := ackOrSkip_other_reg _ _ ha
          simp only [ha] at h
          have e : s4.isRegistred = s.isRegistred := by rw [e4, e3]; exact e2
          rcases rxLength_other env _ _ _ h with h1 | ⟨s5, h1, h2, h3⟩
          · exact Or.inl (by rw [h1, e])
          · exact Or.inr ⟨s5, h1, by rw [h2, e], h3⟩

theorem showError_reg (env : Env) (msg : String) (s : State) :
    (showError env msg s).isRegistred = s.isRegistred := by
  unfold showError
  split <;> rfl

set_option maxRecDepth 100000 in
/-- C10 as stated fails: a ping request addressed to the node 0x120 changes `isRegistred`
of this node, 0x140, from false to true. -/
theorem C10_other_node_counterexample :
    (pingScene 0x120).isRegistred = false
    ∧ (nominalField 12 0x120).value ≠ 0x140
    ∧ (AvcReadMessage (Env.shipped (fun k => k)) false (pingScene 0x120)).map
        (fun r => r.2.isRegistred) = some true := by
  decide

/-- C10, amended: a receive pass that stores no byte past the 32 bytes of `Data`, on a
frame whose decoded slave address differs from the own address 0x140, leaves
`isRegistred` as it was, whatever follows the slave address on the bus, unless the pass
takes the responder path: it reaches line 401 with a ping request in the registers
(length 3, `Data[0] = 0x10`, `Data[2] = 0x01`), `isRegistred` still as it was, and ends
as the responder does.  A pass that stores a byte at `Data[32]` or beyond (a length field
above 32, C19) is outside this statement: `oob` lists those stores, and the pass is taken
here only when it has added none. -/
theorem C10_other_node_unchanged (env : Env) (inputClear : Bool) (s : State)
    (start mode : Nat) (master slave : RxField) (tail : List Nat) (r : Bool) (s1 : State)
    (hm : master.bits.length = 12) (hs : slave.bits.length = 12)
    (hother : slave.value ≠ 0x140)
    (hp : s.pulses = addressTrain start mode master slave ++ tail)
    (hrun : AvcReadMessage env inputClear s = some (r, s1)) :
    s1.oob = s.oob →
      (s1.isRegistred = s.isRegistred
        ∨ ∃ s2, isPing s2 = true ∧ s2.isRegistred = s.isRegistred
            ∧ rxTail env false s2 = some (r, s1)) := by
  intro _
  cases inputClear with
  | true =>
    simp only [AvcReadMessage, if_true, Option.some.injEq, Prod.mk.injEq] at hrun
    exact Or.inl (by rw [← hrun.2])
  | false =>
    have hp1 : s.pulses = [start, mode] ++ master.pulses ++ (slave.pulses ++ tail) := by
      simp [hp, addressTrain]
    by_cases hstart : 40 < start ∧ start < 47
    · rw [AvcReadMessage_master env s start mode master _ hstart hm hp1] at hrun
      have hq1 : (afterMaster mode master s).pulses = slave.pulses ++ tail := by
        simp [afterMaster, afterField, afterStart, hp1, RxField.pulses, drop_bits]
      cases hmo : master.parityOk with
      | false =>
        simp only [hmo, Bool.false_eq_true, if_false, Option.some.injEq, Prod.mk.injEq] at hrun
        exact Or.inl (by rw [← hrun.2, showError_reg]; rfl)
      | true =>
        simp only [hmo, if_true] at hrun
        rw [rxSlave_eq env _ slave tail hs hq1] at hrun
        cases hso : slave.parityOk with
        | false =>
          simp only [hso, Bool.false_eq_true, if_false, Option.some.injEq, Prod.mk.injEq] at hrun
          exact Or.inl (by rw [← hrun.2, showError_reg]; rfl)
        | true =>
          have hf : (slave.value == MY_ADDRESS) = false := by
            simp [MY_ADDRESS, hother]
          simp only [hso, if_true, hf] at hrun
          cases ha : ackOrSkip false
              (afterField slave { afterMaster mode master s with SlaveAddress := slave.value }) with
          | none => simp [ha] at hrun
          | some s4 =>
            have e4 := ackOrSkip_other_reg _ _ ha
            simp only [ha] at hrun
            have e : s4.isRegistred = s.isRegistred := by rw [e4]; rfl
            rcases rxControl_other env _ _ _ hrun with h1 | ⟨s5, h1, h2, h3⟩
            · exact Or.inl (by rw [h1, e])
            · exact Or.inr ⟨s5, h1, by rw [h2, e], h3⟩
    · have hp2 : s.pulses = start :: (mode :: (master.pulses ++ (slave.pulses ++ tail))) := by
        simpa using hp1
      simp only [AvcReadMessage, Bool.false_eq_true, if_false] at hrun
      rw [getStartBit_cons s start _ hp2] at hrun
      simp only [hstart, decide_False, Option.some.injEq, Prod.mk.injEq] at hrun
      exact Or.inl (by rw [← hrun.2])

set_option maxRecDepth 100000 in
/-- Witness of C10: a frame with one data byte for the node 0x120, which stores nothing
past `Data`, leaves this node unregistered. -/
theorem C10_other_node_unchanged_witness :
    (nominalField 12 0x120).value ≠ 0x140
    ∧ ((AvcReadMessage (Env.shipped (fun k => k)) false otherScene).getD
        (true, otherScene)).2.oob = otherScene.oob
    ∧ (((AvcReadMessage (Env.shipped (fun k => k)) false otherScene).getD
          (true, otherScene)).2.isRegistred = otherScene.isRegistred
      ∨ ∃ s2, isPing s2 = true ∧ s2.isRegistred = otherScene.isRegistred
          ∧ rxTail (Env.shipped (fun k => k)) false s2
            = some (false,
                ((AvcReadMessage (Env.shipped (fun k => k)) false otherScene).getD
                  (true, otherScene)).2)) :=
  ⟨by decide, by decide,
    C10_other_node_unchanged (Env.shipped (fun k => k)) false otherScene 42 5
      (nominalField 12 0x130) (nominalField 12 0x120)
      ([5] ++ (nominalField 4 0xF).pulses ++ [5] ++ (nominalField 8 1).pulses ++ [5]
        ++ dataTrain [(nominalField 8 0x1F, 5)])
      false
      ((AvcReadMessage (Env.shipped (fun k => k)) false otherScene).getD (true, otherScene)).2
      (by decide) (by decide) (by decide) (by decide) (by decide) (by decide)⟩

/-! ## AvcReadMessage: parity errors -/

theorem parityError_facts (env : Env) (forMe : Bool) (msg : String) (s : State) :
    (parityError env forMe msg s).pulses = s.pulses
    ∧ (parityError env forMe msg s).isRegistred = (if forMe then false else s.isRegistred)
    ∧ noDump s (parityError env forMe msg s) := by
  unfold parityError noDump
  cases env.SHOW_ERROR <;> cases forMe <;> cases hr : s.isRegistred <;>
    simp [serialPrint, hr]

theorem showError_facts (env : Env) (msg : String) (s : State) :
    (showError env msg s).pulses = s.pulses
    ∧ (showError env msg s).isRegistred = s.isRegistred
    ∧ noDump s (showError env msg s) := by
  unfold showError noDump
  cases env.SHOW_ERROR <;> simp [serialPrint]

/-- The addresses of a frame, read with matching parity bits, and the first slot. -/
theorem AvcReadMessage_addressed (env : Env) (s : State) (start mode : Nat)
    (master slave : RxField) (a0 : Nat) (tail : List Nat)
    (hstart : 40 < start ∧ start < 47)
    (hm : master.bits.length = 12) (hs : slave.bits.length = 12)
    (hmo : master.parityOk = true) (hso : slave.parityOk = true)
    (hp : s.pulses = addressTrain start mode master slave ++ a0 :: tail) :
    AvcReadMessage env false s =
        rxControl env (slave.value == MY_ADDRESS)
          (afterAck (slave.value == MY_ADDRESS) a0 (afterSlave mode master slave s))
      ∧ (afterAck (slave.value == MY_ADDRESS) a0 (afterSlave mode master slave s)).pulses = tail
      ∧ rxView (afterAck (slave.value == MY_ADDRESS) a0 (afterSlave mode master slave s))
          = rxView s := by
  have hp1 : s.pulses = [start, mode] ++ master.pulses ++ (slave.pulses ++ a0 :: tail) := by
    simp [hp, addressTrain]
  have hq1 : (afterMaster mode master s).pulses = slave.pulses ++ a0 :: tail := by
    simp [afterMaster, afterField, afterStart, hp1, RxField.pulses, drop_bits]
  have hq2 : (afterField slave { afterMaster mode master s with SlaveAddress := slave.value }).pulses
      = a0 :: tail :=
    afterField_pulses slave _ _ hq1
  rw [AvcReadMessage_master env s start mode master _ hstart hm hp1, hmo, if_pos rfl,
    rxSlave_eq env _ slave _ hs hq1, hso, if_pos rfl, ackOrSkip_cons _ _ a0 _ hq2]
  refine ⟨rfl, ?_, ?_⟩
  · rw [afterAck_pulses]
    simp only [afterSlave, hq2, List.drop_succ_cons, List.drop_zero]
  · rw [rxView_afterAck]; rfl

/-- The control field, read with a matching parity bit, and its slot. -/
theorem rxControl_good (env : Env) (forMe : Bool) (s : State) (control : RxField) (a1 : Nat)
    (tail : List Nat) (hc : control.bits.length = 4) (hco : control.parityOk = true)
    (hp : s.pulses = control.pulses ++ a1 :: tail) :
    rxControl env forMe s =
        rxLength env forMe (afterAck forMe a1 (afterField control { s with Control := control.value }))
      ∧ (afterAck forMe a1 (afterField control { s with Control := control.value })).pulses = tail
      ∧ rxView (afterAck forMe a1 (afterField control { s with Control := control.value }))
          = rxView s := by
  have hq := afterField_pulses control { s with Control := control.value } _ hp
  rw [rxControl_eq env forMe s control _ hc hp, hco, if_pos rfl, ackOrSkip_cons _ _ a1 _ hq]
  refine ⟨rfl, ?_, ?_⟩
  · rw [afterAck_pulses, hq]; rfl
  · rw [rxView_afterAck]; rfl

/-- The length field, read with a matching parity bit, and its slot. -/
theorem rxLength_good (env : Env) (forMe : Bool) (s : State) (length : RxField) (a2 : Nat)
    (tail : List Nat) (hl : length.bits.length = 8) (hlo : length.parityOk = true)
    (hp : s.pulses = length.pulses ++ a2 :: tail) :
    rxLength env forMe s =
        rxData env forMe length.value 0
          (afterAck forMe a2 (afterField length { s with DataSize := length.value }))
      ∧ (afterAck forMe a2 (afterField length { s with DataSize := length.value })).pulses = tail
      ∧ rxView (afterAck forMe a2 (afterField length { s with DataSize := length.value }))
          = rxView s := by
  have hq := afterField_pulses length { s with DataSize := length.value } _ hp
  rw [rxLength_eq env forMe s length _ hl hp, hlo, if_pos rfl, ackOrSkip_cons _ _ a2 _ hq]
  have hsize : (afterAck forMe a2 (afterField length { s with DataSize := length.value })).DataSize
      = length.value := by
    cases forMe <;> rfl
  simp only [hsize]
  refine ⟨trivial, ?_, ?_⟩
  · rw [afterAck_pulses, hq]; rfl
  · rw [rxView_afterAck]; rfl

theorem storeData_oob (i v : Nat) (s : State) (h : i < 32) : (storeData i v s).oob = s.oob := by
  simp only [storeData, if_pos h]

theorem afterAck_oob (forMe : Bool) (a : Nat) (s : State) : (afterAck forMe a s).oob = s.oob := by
  cases forMe <;> rfl

/-- Data bytes that all fit in the 32 bytes of `Data`: no store past the array. -/
theorem afterData_oob (forMe : Bool) (data : List (RxField × Nat)) :
    ∀ (i : Nat) (s : State), i + data.length ≤ 32 →
      (afterData forMe data i s).oob = s.oob := by
  induction data with
  | nil => intro i s _; rfl
  | cons p more ih =>
    intro i s hi
    obtain ⟨f, a⟩ := p
    simp only [List.length_cons] at hi
    simp only [afterData]
    rw [ih (i + 1) _ (by omega), afterAck_oob]
    show (storeData i f.value s).oob = s.oob
    exact storeData_oob i f.value s (by omega)

theorem parityError_oob (env : Env) (forMe : Bool) (msg : String) (s : State) :
    (parityError env forMe msg s).oob = s.oob := by
  unfold parityError
  cases env.SHOW_ERROR <;> cases forMe <;> cases hr : s.isRegistred <;>
    simp [serialPrint, hr]

/-- C9: a parity mismatch stops `AvcReadMessage` at the field it is found in.  The pass
returns with the pulses after the parity bit of that field still on the bus (no later
field is read) and without a dump of the frame.  For a mismatch in the master or the
slave address field `isRegistred` keeps its value; for a mismatch in the control field,
the length field or a data byte `isRegistred` is false afterwards when the frame is
addressed to this node (slave address 0x140) and keeps its value otherwise.  The data
byte with the mismatch is one of the first 32 of the frame: it and the bytes before it
are stored inside the 32 bytes of `Data`, and the pass makes no store past the array. -/
theorem C9_parity_error_stops (env : Env) (s : State) (start mode : Nat)
    (master slave control length : RxField) (a0 a1 a2 : Nat)
    (good : List (RxField × Nat)) (bad : RxField) (rest : List Nat)
    (hstart : 40 < start ∧ start < 47)
    (hm : master.bits.length = 12) (hs : slave.bits.length = 12)
    (hc : control.bits.length = 4) (hl : length.bits.length = 8)
    (hgood : ∀ p ∈ good, p.1.bits.length = 8 ∧ p.1.parityOk = true)
    (hbad : bad.bits.length = 8) :
    (master.parityOk = false →
      s.pulses = [start, mode] ++ master.pulses ++ rest →
      ∃ s1, AvcReadMessage env false s = some (false, s1) ∧ s1.pulses = rest
        ∧ s1.isRegistred = s.isRegistred ∧ noDump s s1)
    ∧ (master.parityOk = true → slave.parityOk = false →
      s.pulses = addressTrain start mode master slave ++ rest →
      ∃ s1, AvcReadMessage env false s = some (false, s1) ∧ s1.pulses = rest
        ∧ s1.isRegistred = s.isRegistred ∧ noDump s s1)
    ∧ (master.parityOk = true → slave.parityOk = true → control.parityOk = false →
      s.pulses = addressTrain start mode master slave ++ [a0] ++ control.pulses ++ rest →
      ∃ s1, AvcReadMessage env false s = some (false, s1) ∧ s1.pulses = rest
        ∧ s1.isRegistred = (if slave.value = 0x140 then false else s.isRegistred)
        ∧ noDump s s1)
    ∧ (master.parityOk = true → slave.parityOk = true → control.parityOk = true →
      length.parityOk = false →
      s.pulses = addressTrain start mode master slave ++ [a0] ++ control.pulses ++ [a1]
        ++ length.pulses ++ rest →
      ∃ s1, AvcReadMessage env false s = some (false, s1) ∧ s1.pulses = rest
        ∧ s1.isRegistred = (if slave.value = 0x140 then false else s.isRegistred)
        ∧ noDump s s1)
    ∧ (master.parityOk = true → slave.parityOk = true → control.parityOk = true →
      length.parityOk = true → good.length < length.value → good.length < 32 →
      bad.parityOk = false →
      s.pulses = frameTrain start mode master slave a0 control a1 length a2 good
        ++ bad.pulses ++ rest →
      ∃ s1, AvcReadMessage env false s = some (false, s1) ∧ s1.pulses = rest
        ∧ s1.isRegistred = (if slave.value = 0x140 then false else s.isRegistred)
        ∧ noDump s s1 ∧ s1.oob = s.oob) := by
  have hforMe : (if (slave.value == MY_ADDRESS) = true then false else s.isRegistred)
      = (if slave.value = 0x140 then false else s.isRegistred) := by
    by_cases h : slave.value = 0x140 <;> simp [h, MY_ADDRESS]
  refine ⟨?_, ?_, ?_, ?_, ?_⟩
  · intro hmo hp
    rw [AvcReadMessage_master env s start mode master rest hstart hm hp, hmo, if_neg (by simp)]
    obtain ⟨f1, f2, f3⟩ := showError_facts env
      "AvcReadMessage: Parity error @ MasterAddress!" (afterMaster mode master s)
    refine ⟨_, rfl, ?_, ?_, ?_⟩
    · rw [f1]
      simp [afterMaster, afterField, afterStart, hp, RxField.pulses, drop_bits]
    · rw [f2]; rfl
    · exact f3
  · intro hmo hso hp
    have hp1 : s.pulses = [start, mode] ++ master.pulses ++ (slave.pulses ++ rest) := by
      simp [hp, addressTrain]
    have hq1 : (afterMaster mode master s).pulses = slave.pulses ++ rest := by
      simp [afterMaster, afterField, afterStart, hp1, RxField.pulses, drop_bits]
    rw [AvcReadMessage_master env s start mode master _ hstart hm hp1, hmo, if_pos rfl,
      rxSlave_eq env _ slave rest hs hq1, hso, if_neg (by simp)]
    obtain ⟨f1, f2, f3⟩ := showError_facts env "AvcReadMessage: Parity error @ SlaveAddress!"
      (afterField slave { afterMaster mode master s with SlaveAddress := slave.value })
    refine ⟨_, rfl, ?_, ?_, ?_⟩
    · rw [f1]; exact afterField_pulses slave _ _ hq1
    · rw [f2]; rfl
    · exact f3
  · intro hmo hso hco hp
    obtain ⟨hA, hAp, hAv⟩ := AvcReadMessage_addressed env s start mode master slave a0
      (control.pulses ++ rest) hstart hm hs hmo hso (by simp [hp])
    obtain ⟨e1, _, _, _, e5, _⟩ := rxView_fields _ _ hAv
    rw [hA, rxControl_eq env _ _ control rest hc hAp, hco, if_neg (by simp)]
    obtain ⟨f1, f2, f3⟩ := parityError_facts env (slave.value == MY_ADDRESS)
      "AvcReadMessage: Parity error @ Control!"
      (afterField control
        { afterAck (slave.value == MY_ADDRESS) a0 (afterSlave mode master slave s) with
          Control := control.value })
    refine ⟨_, rfl, ?_, ?_, ?_⟩
    · rw [f1]; exact afterField_pulses control _ _ hAp
    · rw [f2, ← hforMe, ← e1]; rfl
    · unfold noDump at f3 ⊢
      rw [← e5]; exact f3
  · intro hmo hso hco hlo hp
    obtain ⟨hA, hAp, hAv⟩ := AvcReadMessage_addressed env s start mode master slave a0
      (control.pulses ++ a1 :: (length.pulses ++ rest)) hstart hm hs hmo hso (by simp [hp])
    obtain ⟨hC, hCp, hCv⟩ := rxControl_good env (slave.value == MY_ADDRESS) _ control a1
      (length.pulses ++ rest) hc hco hAp
    obtain ⟨e1, _, _, _, e5, _⟩ := rxView_fields _ _ (hCv.trans hAv)
    rw [hA, hC, rxLength_eq env _ _ length rest hl hCp, hlo, if_neg (by simp)]
    obtain ⟨f1, f2, f3⟩ := parityError_facts env (slave.value == MY_ADDRESS)
      "AvcReadMessage: Parity error @ DataSize!"
      (afterField length
        { afterAck (slave.value == MY_ADDRESS) a1 (afterField control
            { afterAck (slave.value == MY_ADDRESS) a0 (afterSlave mode master slave s) with
              Control := control.value }) with
          DataSize := length.value })
    refine ⟨_, rfl, ?_, ?_, ?_⟩
    · rw [f1]; exact afterField_pulses length _ _ hCp
    · rw [f2, ← hforMe, ← e1]; rfl
    · unfold noDump at f3 ⊢
      rw [← e5]; exact f3
  · intro hmo hso hco hlo hlt h32 hbo hp
    have hX : ∀ b : Bool,
        (afterAck b a2 (afterField length
          { afterAck b a1 (afterField control
              { afterAck b a0 (afterSlave mode master slave s) with
                Control := control.value }) with
            DataSize := length.value })).oob = s.oob := by
      intro b
      cases b <;> rfl
    obtain ⟨hA, hAp, hAv⟩ := AvcReadMessage_addressed env s start mode master slave a0
      (control.pulses ++ a1 :: (length.pulses ++ a2 :: (dataTrain good ++ (bad.pulses ++ rest))))
      hstart hm hs hmo hso (by simp [hp, frameTrain])
    obtain ⟨hC, hCp, hCv⟩ := rxControl_good env (slave.value == MY_ADDRESS) _ control a1
      (length.pulses ++ a2 :: (dataTrain good ++ (bad.pulses ++ rest))) hc hco hAp
    obtain ⟨hL, hLp, hLv⟩ := rxLength_good env (slave.value == MY_ADDRESS) _ length a2
      (dataTrain good ++ (bad.pulses ++ rest)) hl hlo hCp
    obtain ⟨k, hk⟩ : ∃ k, length.value = good.length + (k + 1) :=
      ⟨length.value - good.length - 1, by omega⟩
    obtain ⟨hD, hDp⟩ := rxData_good env (slave.value == MY_ADDRESS) (bad.pulses ++ rest) good
      (k + 1) 0 _ hgood hLp
    have hDv := rxView_afterData (slave.value == MY_ADDRESS) good 0
      (afterAck (slave.value == MY_ADDRESS) a2 (afterField length
        { afterAck (slave.value == MY_ADDRESS) a1 (afterField control
            { afterAck (slave.value == MY_ADDRESS) a0 (afterSlave mode master slave s) with
              Control := control.value }) with
          DataSize := length.value }))
    obtain ⟨e1, _, _, _, e5, _⟩ := rxView_fields _ _ (((hDv.trans hLv).trans hCv).trans hAv)
    rw [← hk] at hD
    rw [hA, hC, hL, hD, rxData_succ env _ k _ _ bad rest hbad hDp, hbo, if_neg (by simp)]
    obtain ⟨f1, f2, f3⟩ := parityError_facts env (slave.value == MY_ADDRESS)
      "AvcReadMessage: Parity error @ Data"
      (afterField bad (storeData (0 + good.length) bad.value
        (afterData (slave.value == MY_ADDRESS) good 0
          (afterAck (slave.value == MY_ADDRESS) a2 (afterField length
            { afterAck (slave.value == MY_ADDRESS) a1 (afterField control
                { afterAck (slave.value == MY_ADDRESS) a0 (afterSlave mode master slave s) with
                  Control := control.value }) with
              DataSize := length.value })))))
    refine ⟨_, rfl, ?_, ?_, ?_, ?_⟩
    · rw [f1]
      exact afterField_pulses bad _ _ (by rw [(storeData_bus _ _ _).1, hDp])
    · rw [f2, ← hforMe, ← e1]
      show (if (slave.value == MY_ADDRESS) = true then false
          else (storeData _ _ _).isRegistred) = _
      rw [storeData_reg]
    · have hser : ∀ (i v : Nat) (r : State), (storeData i v r).serial = r.serial := by
        intro i v r
        unfold storeData
        split <;> rfl
      unfold noDump at f3 ⊢
      rcases f3 with h | ⟨msg, h⟩
      · left
        rw [h]
        show (storeData _ _ _).serial = s.serial
        rw [hser, e5]
      · right
        refine ⟨msg, ?_⟩
        rw [h]
        show (storeData _ _ _).serial ++ _ = s.serial ++ _
        rw [hser, e5]
    · rw [parityError_oob]
      show (storeData _ _ _).oob = s.oob
      rw [storeData_oob _ _ _ (by omega), afterData_oob _ _ _ _ (by omega), hX]

set_option maxRecDepth 100000 in
/-- Witness of C9, Scenario C: the node is registered, a frame addressed to 0x140 arrives
with the parity bit of its control field flipped; the pass stops there, the length field
and the data byte stay on the bus, the node is no longer registered and nothing is
dumped.  The same with the parity bit of the second data byte flipped: the pulse after
it stays on the bus and no store is made past `Data`. -/
theorem C9_parity_error_stops_witness :
    badControlScene.isRegistred = true
    ∧ (∃ s1, AvcReadMessage (Env.shipped (fun k => k)) false badControlScene = some (false, s1)
      ∧ s1.pulses = [5] ++ (nominalField 8 1).pulses ++ [5] ++ (nominalField 8 0x1F).pulses ++ [5]
      ∧ s1.isRegistred
          = (if (nominalField 12 0x140).value = 0x140 then false else badControlScene.isRegistred)
      ∧ noDump badControlScene s1)
    ∧ badDataScene.isRegistred = true
    ∧ ∃ s1, AvcReadMessage (Env.shipped (fun k => k)) false badDataScene = some (false, s1)
      ∧ s1.pulses = [5]
      ∧ s1.isRegistred
          = (if (nominalField 12 0x140).value = 0x140 then false else badDataScene.isRegistred)
      ∧ noDump badDataScene s1 ∧ s1.oob = badDataScene.oob :=
  ⟨by decide,
    (C9_parity_error_stops (Env.shipped (fun k => k)) badControlScene 42 5
      (nominalField 12 0x130) (nominalField 12 0x140) { nominalField 4 0xF with par := 5 }
      (nominalField 8 1) 5 5 5 [] (nominalField 8 0x1F)
      ([5] ++ (nominalField 8 1).pulses ++ [5] ++ (nominalField 8 0x1F).pulses ++ [5])
      (by decide) (by decide) (by decide) (by decide) (by decide) (by decide)
      (by decide)).2.2.1 (by decide) (by decide) (by decide) (by decide),
    by decide,
    (C9_parity_error_stops (Env.shipped (fun k => k)) badDataScene 42 5
      (nominalField 12 0x130) (nominalField 12 0x140) (nominalField 4 0xF)
      (nominalField 8 2) 5 5 5 [(nominalField 8 0x1F, 5)] { nominalField 8 0x22 with par := 5 }
      [5]
      (by decide) (by decide) (by decide) (by decide) (by decide) (by decide)
      (by decide)).2.2.2.2 (by decide) (by decide) (by decide) (by decide) (by decide)
      (by decide) (by decide) (by decide)⟩

/-! ## HandleAcknowledge -/

theorem HandleAcknowledge_broadcast (s : State) (hmode : s.Broadcast = false) :
    HandleAcknowledge s = some (true, { s with TCNT0 := 10, out := s.out ++ [bitPulse false] }) := by
  simp [HandleAcknowledge, hmode, boolInt, MSG_BCAST, Send1BitWord_eq]

/-- C13: when the frame mode is Broadcast (the register `Broadcast` holds `MSG_BCAST`,
that is false), `HandleAcknowledge` returns true, in every state and whatever the input
line does: no pulse is taken from the line, also when the line never moves. -/
theorem C13_broadcast_acknowledged (s : State) (hmode : s.Broadcast = false) :
    ∃ s1, HandleAcknowledge s = some (true, s1) ∧ s1.pulses = s.pulses := by
  rw [HandleAcknowledge_broadcast s hmode]
  exact ⟨_, rfl, rfl⟩

/-- Witness of C13: the state at start-up, in which the register holds Broadcast and the
line never moves. -/
theorem C13_broadcast_acknowledged_witness :
    State.reset.Broadcast = false
    ∧ ∃ s1, HandleAcknowledge State.reset = some (true, s1) ∧ s1.pulses = State.reset.pulses :=
  ⟨rfl, C13_broadcast_acknowledged State.reset rfl⟩

/-- C14 as stated fails: in Broadcast mode `HandleAcknowledge` puts a pulse on the bus,
the output high for 9 ticks. -/
theorem C14_broadcast_silent_counterexample :
    State.reset.Broadcast = false
    ∧ (HandleAcknowledge State.reset).map (fun r => emitted State.reset r.2)
        = some [Event.pulse 9 10] := by
  decide

/-- C14, amended: when the frame mode is Broadcast, `HandleAcknowledge` does not read
the input line, and it drives the bus once: it sends the bit 0 with `Send1BitWord( 0 )`,
one pulse with the output high for 9 ticks in a period of 10 ticks, and returns true
with the counter at 10. -/
theorem C14_broadcast_sends_zero (s : State) (hmode : s.Broadcast = false) :
    ∃ s1, HandleAcknowledge s = some (true, s1)
      ∧ emitted s s1 = [Event.pulse 9 10]
      ∧ s1.pulses = s.pulses ∧ s1.TCNT0 = 10 := by
  rw [HandleAcknowledge_broadcast s hmode]
  refine ⟨_, rfl, ?_, rfl, rfl⟩
  exact emitted_append s _ [Event.pulse 9 10] (by simp [bitPulse])

/-- Witness of C14, amended: the registers loaded for the broadcast frame
`CmdDdisplayReg`, a pulse of 3 ticks waiting on the line. -/
theorem C14_broadcast_sends_zero_witness :
    ({ LoadDataInGlogalRegisters CmdDdisplayReg State.reset with pulses := [3] } : State).Broadcast
        = false
    ∧ ∃ s1, HandleAcknowledge
          { LoadDataInGlogalRegisters CmdDdisplayReg State.reset with pulses := [3] }
        = some (true, s1)
      ∧ emitted { LoadDataInGlogalRegisters CmdDdisplayReg State.reset with pulses := [3] } s1
          = [Event.pulse 9 10]
      ∧ s1.pulses
          = ({ LoadDataInGlogalRegisters CmdDdisplayReg State.reset with pulses := [3] } : State).pulses
      ∧ s1.TCNT0 = 10 :=
  ⟨by decide,
    C14_broadcast_sends_zero
      { LoadDataInGlogalRegisters CmdDdisplayReg State.reset with pulses := [3] } (by decide)⟩

/-- C15: in Normal mode `HandleAcknowledge` resets the counter, drives the output high
for 5 ticks, releases it and waits for the line to fall.  With the line falling at `d`
ticks it returns true when `d > 7` and false otherwise, and in both cases it returns
with the counter at 10, or at `d` when the line fell later than that: never before 10
ticks.  The pulse is taken from the line and nothing else is put out. -/
theorem C15_normal_acknowledge (s : State) (d : Nat) (rest : List Nat)
    (hmode : s.Broadcast = true) (hp : s.pulses = d :: rest) :
    ∃ s1, HandleAcknowledge s = some (decide (7 < d), s1)
      ∧ emitted s s1 = [Event.ackSlot 5 d (max d 10)]
      ∧ s1.TCNT0 = max d 10 ∧ 10 ≤ s1.TCNT0
      ∧ s1.pulses = rest := by
  rw [HandleAcknowledge_normal s d rest hmode hp]
  have hmax : (if d < 10 then 10 else d) = max d 10 := by
    by_cases h : d < 10
    · rw [if_pos h, Nat.max_eq_right (by omega)]
    · rw [if_neg h, Nat.max_eq_left (by omega)]
  refine ⟨_, rfl, ?_, ?_, ?_, rfl⟩
  · exact emitted_append s _ _ (by simp [ackPulse, hmax])
  · exact hmax
  · show 10 ≤ (if d < 10 then 10 else d)
    split <;> omega

/-- Witness of C15: the line falls at 9 ticks (acknowledged) in the first slot of the
frame of Scenario A. -/
theorem C15_normal_acknowledge_witness :
    sendScene.Broadcast = true ∧ sendScene.pulses = 9 :: [9, 9, 9]
    ∧ ∃ s1, HandleAcknowledge sendScene = some (decide (7 < 9), s1)
      ∧ emitted sendScene s1 = [Event.ackSlot 5 9 (max 9 10)]
      ∧ s1.TCNT0 = max 9 10 ∧ 10 ≤ s1.TCNT0
      ∧ s1.pulses = [9, 9, 9] :=
  ⟨by decide, by decide, C15_normal_acknowledge sendScene 9 [9, 9, 9] (by decide) (by decide)⟩

/-! ## IsAvcBusFree -/

theorem busFreeLoop_true :
    ∀ (ps : List (Bool × Nat)) (t : Nat) (rest : List (Bool × Nat)),
      busFreeLoop ps = some (true, t, rest) →
      ∃ seen, ps = seen ++ (true, t) :: rest ∧ (∀ p ∈ seen, p.1 = true ∧ p.2 ≤ 10) ∧ 10 < t := by
  intro ps
  induction ps with
  | nil => intro t rest h; simp [busFreeLoop] at h
  | cons p ps ih =>
    intro t rest h
    obtain ⟨c, u⟩ := p
    simp only [busFreeLoop, NORMAL_BIT_LENGTH] at h
    cases c with
    | false => simp at h
    | true =>
      simp only [if_true] at h
      by_cases hu : u > 10
      · rw [if_pos hu] at h
        simp only [Option.some.injEq, Prod.mk.injEq, true_and] at h
        obtain ⟨h1, h2⟩ := h
        subst h1; subst h2
        exact ⟨[], rfl, by simp, hu⟩
      · rw [if_neg hu] at h
        obtain ⟨seen, h1, h2, h3⟩ := ih t rest h
        refine ⟨(true, u) :: seen, by rw [h1]; rfl, ?_, h3⟩
        intro p hp
        rcases List.mem_cons.mp hp with rfl | hp
        · exact ⟨rfl, by simp only []; omega⟩
        · exact h2 p hp

theorem busFreeLoop_false (t : Nat) (rest : List (Bool × Nat)) :
    ∀ seen : List (Bool × Nat), (∀ p ∈ seen, p.1 = true ∧ p.2 ≤ 10) →
      busFreeLoop (seen ++ (false, t) :: rest) = some (false, t, rest) := by
  intro seen
  induction seen with
  | nil => intro _; simp [busFreeLoop]
  | cons p seen ih =>
    intro h
    obtain ⟨c, u⟩ := p
    have hp := h (c, u) (by simp)
    simp only [] at hp
    obtain ⟨hc, hu⟩ := hp
    subst hc
    simp only [List.cons_append, busFreeLoop, NORMAL_BIT_LENGTH, if_true]
    rw [if_neg (by omega)]
    exact ih (fun p hp => h p (by simp [hp]))

/-- C20: `IsAvcBusFree` reports the bus free only after an idle interval without a
break.  Whenever it returns true, every poll it has taken since it reset the counter
found the input idle and the counter reads more than 10 ticks (the test is
`TCNT0 > NORMAL_BIT_LENGTH`), so at least 10 ticks have gone by.  When a poll finds the input set before that (every poll before it idle, none
with the counter above 10), it returns false at that poll; the idle polls counted so far
are used up, and the spin `while ( ! IsAvcBusFree() );` of `SendMessage` goes on with a
new call, which measures the line anew from the polls that follow. -/
theorem C20_bus_free_after_idle (s : State) :
    (∀ s1, IsAvcBusFree s = some (true, s1) →
      ∃ seen t, s.polls = seen ++ (true, t) :: s1.polls
        ∧ (∀ p ∈ seen, p.1 = true) ∧ 10 < t ∧ s1.TCNT0 = t)
    ∧ (∀ seen t rest, s.polls = seen ++ (false, t) :: rest →
      (∀ p ∈ seen, p.1 = true ∧ p.2 ≤ 10) →
      IsAvcBusFree s = some (false, { s with TCNT0 := t, polls := rest })
      ∧ ∀ fuel,
          waitBusFree (fuel + 1) s = waitBusFree fuel { s with TCNT0 := t, polls := rest }) := by
  constructor
  · intro s1 h
    unfold IsAvcBusFree at h
    cases hb : busFreeLoop s.polls with
    | none => simp [hb] at h
    | some x =>
      obtain ⟨r, t, rest⟩ := x
      simp only [hb, Option.some.injEq, Prod.mk.injEq] at h
      obtain ⟨hr, hs1⟩ := h
      subst hr; subst hs1
      obtain ⟨seen, h1, h2, h3⟩ := busFreeLoop_true s.polls t rest hb
      exact ⟨seen, t, h1, fun p hp => (h2 p hp).1, h3, rfl⟩
  · intro seen t rest hp hseen
    have h : IsAvcBusFree s = some (false, { s with TCNT0 := t, polls := rest }) := by
      unfold IsAvcBusFree
      rw [hp, busFreeLoop_false t rest seen hseen]
    refine ⟨h, ?_⟩
    intro fuel
    rw [waitBusFree, h]

/-- Witness of C20: the line idle at 4, 8 and 12 ticks is reported free at the third
poll; the line idle at 4 ticks and set at 8 is reported busy at the second poll, and the
spin goes on from the poll after it. -/
theorem C20_bus_free_after_idle_witness :
    (∃ seen t, ({ State.reset with polls := [(true, 4), (true, 8), (true, 12), (false, 1)] }
          : State).polls = seen ++ (true, t) :: [(false, 1)]
        ∧ (∀ p ∈ seen, p.1 = true) ∧ 10 < t ∧ 12 = t)
    ∧ IsAvcBusFree { State.reset with polls := [(true, 4), (false, 8), (true, 3)] }
        = some (false, { State.reset with TCNT0 := 8, polls := [(true, 3)] })
    ∧ ∀ fuel, waitBusFree (fuel + 1)
          { State.reset with polls := [(true, 4), (false, 8), (true, 3)] }
        = waitBusFree fuel { State.reset with TCNT0 := 8, polls := [(true, 3)] } :=
  ⟨(C20_bus_free_after_idle
      { State.reset with polls := [(true, 4), (true, 8), (true, 12), (false, 1)] }).1
      { State.reset with TCNT0 := 12, polls := [(false, 1)] } (by decide),
    (C20_bus_free_after_idle
      { State.reset with polls := [(true, 4), (false, 8), (true, 3)] }).2
      [(true, 4)] 8 [(true, 3)] (by decide) (by decide)⟩

/-! ## AvcReadMessage: the payload in `Data` -/

theorem take_set_succ (l : List Nat) (i v : Nat) (h : i < l.length) :
    (l.set i v).take (i + 1) = l.take i ++ [v] := by
  rw [List.set_eq_take_append_cons_drop, if_pos h]
  have h1 : l.take i ++ v :: l.drop (i + 1) = (l.take i ++ [v]) ++ l.drop (i + 1) := by simp
  rw [h1]
  apply List.take_left'
  rw [List.length_append, List.length_take, Nat.min_eq_left (by omega)]
  rfl

theorem Data_afterAck (forMe : Bool) (a : Nat) (s : State) :
    (afterAck forMe a s).Data = s.Data := by
  cases forMe <;> rfl

theorem afterData_Data (forMe : Bool) (data : List (RxField × Nat)) :
    ∀ (i : Nat) (s : State), i + data.length ≤ 32 → s.Data.length = 32 →
      (afterData forMe data i s).Data =
        s.Data.take i ++ data.map (fun p => p.1.value) ++ s.Data.drop (i + data.length) := by
  induction data with
  | nil =>
    intro i s _ _
    simp [afterData]
  | cons p more ih =>
    intro i s hi hlen
    obtain ⟨f, a⟩ := p
    simp only [List.length_cons] at hi
    have hD : (afterAck forMe a (afterField f (storeData i f.value s))).Data
        = s.Data.set i f.value := by
      rw [Data_afterAck]
      show (storeData i f.value s).Data = _
      simp only [storeData, if_pos (show i < 32 by omega)]
    simp only [afterData]
    rw [ih (i + 1) _ (by omega) (by rw [hD, List.length_set, hlen]), hD,
      take_set_succ _ _ _ (by omega), List.drop_set_of_lt _ _ (by omega)]
    simp only [List.map_cons, List.length_cons, List.append_assoc, List.singleton_append]
    congr 3
    omega

theorem afterFrame_Data (mode : Nat) (master slave : RxField) (a0 : Nat) (control : RxField)
    (a1 : Nat) (length : RxField) (a2 : Nat) (data : List (RxField × Nat)) (s : State)
    (hlen : s.Data.length = 32) (hn : data.length ≤ 32) :
    (afterFrame mode master slave a0 control a1 length a2 data s).Data
      = data.map (fun p => p.1.value) ++ s.Data.drop data.length := by
  have hX : ∀ b : Bool,
      (afterAck b a2 (afterField length
        { afterAck b a1 (afterField control
            { afterAck b a0 (afterSlave mode master slave s) with
              Control := control.value }) with
          DataSize := length.value })).Data = s.Data := by
    intro b
    cases b <;> rfl
  unfold afterFrame
  rw [afterData_Data _ _ 0 _ (by omega) (by rw [hX, hlen]), hX]
  simp

theorem afterFrame_oob (mode : Nat) (master slave : RxField) (a0 : Nat) (control : RxField)
    (a1 : Nat) (length : RxField) (a2 : Nat) (data : List (RxField × Nat)) (s : State)
    (hn : data.length ≤ 32) :
    (afterFrame mode master slave a0 control a1 length a2 data s).oob = s.oob := by
  have hX : ∀ b : Bool,
      (afterAck b a2 (afterField length
        { afterAck b a1 (afterField control
            { afterAck b a0 (afterSlave mode master slave s) with
              Control := control.value }) with
          DataSize := length.value })).oob = s.oob := by
    intro b
    cases b <;> rfl
  unfold afterFrame
  rw [afterData_oob _ _ 0 _ (by omega), hX]

/-! ## AvcReadMessage: the address filter -/

/-- Line 392 on, when the registers do not hold a ping request. -/
theorem rxTail_dump (env : Env) (forMe : Bool) (s : State) (hping : isPing s = false) :
    ∃ s1, rxTail env forMe s = some (false, s1) ∧ s1.Data = s.Data ∧ s1.oob = s.oob
      ∧ s1.serial =
          if (!env.ONLY_MY || forMe || (!s.Broadcast && s.SlaveAddress == BROADCAST_ADDRESS))
              = true then
            s.serial ++ [SerialLine.dump false s.Broadcast s.MasterAddress s.SlaveAddress
              s.Control s.DataSize (s.Data.take s.DataSize)]
          else s.serial := by
  have h1 : isPing (if forMe = true then
      { (millis env { s with isRegistred := true }).2 with
        lastRegistred := (millis env { s with isRegistred := true }).1 } else s) = false := by
    cases forMe
    · simpa using hping
    · simpa [isPing, millis, loadData] using hping
  unfold rxTail
  simp only []
  rw [if_neg (by rw [h1]; simp)]
  cases hf : forMe <;> cases ho : env.ONLY_MY <;>
    cases hb : (!s.Broadcast && s.SlaveAddress == BROADCAST_ADDRESS) <;>
    simp [hb, DumpRawMessage, LedOff, millis]

/-- The registers do not hold a ping request when the payload received is not one. -/
theorem afterFrame_no_ping (mode : Nat) (master slave : RxField) (a0 : Nat) (control : RxField)
    (a1 : Nat) (length : RxField) (a2 : Nat) (data : List (RxField × Nat)) (s : State)
    (hn : data.length = length.value) (hbuf : s.Data.length = 32)
    (hnoping : ∀ b0 b1 b2 x0 x1 x2, data = [(b0, x0), (b1, x1), (b2, x2)] →
      ¬ (b0.value = 0x10 ∧ b2.value = 0x01)) :
    isPing (afterFrame mode master slave a0 control a1 length a2 data s) = false := by
  obtain ⟨_, hregs, _⟩ := afterFrame_facts mode master slave a0 control a1 length a2 data s
  have hsize : (afterFrame mode master slave a0 control a1 length a2 data s).DataSize
      = length.value := by
    simp only [regView, Prod.mk.injEq] at hregs
    exact hregs.2.2.2.2.1
  by_cases h3 : length.value = 3
  · rw [h3] at hn
    match data, hn with
    | [(b0, x0), (b1, x1), (b2, x2)], _ =>
      obtain ⟨hd0, _, hd2⟩ := afterFrame_three mode master slave a0 control a1 length a2
        b0 b1 b2 x0 x1 x2 s (by omega)
      have hno := hnoping b0 b1 b2 x0 x1 x2 rfl
      simp only [isPing, hd0, hd2, hsize, h3]
      by_cases hv0 : b0.value = 0x10
      · have hv2 : b2.value ≠ 0x01 := fun h => hno ⟨hv0, h⟩
        simp [hv2]
      · simp [hv0]
  · simp [isPing, hsize, h3]

/-- C18: the address filter.  A frame of at most 32 data bytes that `AvcReadMessage` has
read whole, every parity bit matching, and whose payload is not a ping request (so that
the responder path is not taken) is dumped with `DumpRawMessage( false )` in exactly
these cases: `ONLY_MY` is false; or the slave address is the own address 0x140; or the
mode bit is 0, Broadcast, and the slave address is the broadcast address 0xFFF.  The
dump shows the decoded fields and the payload of the frame.  In every other case
`Serial` receives nothing.  No byte is stored past the 32 bytes of `Data`. -/
theorem C18_address_filter (env : Env) (s : State) (start mode : Nat)
    (master slave : RxField) (a0 : Nat) (control : RxField) (a1 : Nat) (length : RxField)
    (a2 : Nat) (data : List (RxField × Nat)) (rest : List Nat)
    (hstart : 40 < start ∧ start < 47)
    (hm : master.bits.length = 12) (hs : slave.bits.length = 12)
    (hc : control.bits.length = 4) (hl : length.bits.length = 8)
    (hdata : ∀ p ∈ data, p.1.bits.length = 8 ∧ p.1.parityOk = true)
    (hmo : master.parityOk = true) (hso : slave.parityOk = true)
    (hco : control.parityOk = true) (hlo : length.parityOk = true)
    (hn : data.length = length.value) (hn32 : length.value ≤ 32)
    (hbuf : s.Data.length = 32)
    (hnoping : ∀ b0 b1 b2 x0 x1 x2, data = [(b0, x0), (b1, x1), (b2, x2)] →
      ¬ (b0.value = 0x10 ∧ b2.value = 0x01))
    (hp : s.pulses = frameTrain start mode master slave a0 control a1 length a2 data ++ rest) :
    ∃ s1, AvcReadMessage env false s = some (false, s1)
      ∧ s1.oob = s.oob
      ∧ ((env.ONLY_MY = false ∨ slave.value = 0x140
            ∨ (bitOf mode = false ∧ slave.value = 0xFFF)) →
          s1.serial = s.serial ++
            [SerialLine.dump false (bitOf mode) master.value slave.value control.value
              length.value (data.map (fun p => p.1.value))])
      ∧ (¬ (env.ONLY_MY = false ∨ slave.value = 0x140
            ∨ (bitOf mode = false ∧ slave.value = 0xFFF)) →
          s1.serial = s.serial) := by
  obtain ⟨hrun, _⟩ := AvcReadMessage_frame env s start mode master slave a0 control a1
    length a2 data rest hstart hm hs hc hl hdata hmo hso hco hlo hn hp
  obtain ⟨hview, hregs, _⟩ := afterFrame_facts mode master slave a0 control a1 length a2 data s
  obtain ⟨_, _, _, _, hser, _⟩ := rxView_fields _ _ hview
  have hping := afterFrame_no_ping mode master slave a0 control a1 length a2 data s hn hbuf
    hnoping
  have hData := afterFrame_Data mode master slave a0 control a1 length a2 data s hbuf
    (by omega)
  have hoob := afterFrame_oob mode master slave a0 control a1 length a2 data s (by omega)
  obtain ⟨s1, h1, _, ho, h2⟩ := rxTail_dump env (slave.value == MY_ADDRESS) _ hping
  simp only [regView, Prod.mk.injEq] at hregs
  obtain ⟨rB, rM, rS, rC, rN, _⟩ := hregs
  have htake : (data.map (fun p => p.1.value) ++ s.Data.drop data.length).take length.value
      = data.map (fun p => p.1.value) :=
    List.take_left' (by rw [List.length_map, hn])
  rw [rB, rM, rS, rC, rN, hser, hData, htake] at h2
  have hcond : ((!env.ONLY_MY || slave.value == MY_ADDRESS
        || (!bitOf mode && slave.value == BROADCAST_ADDRESS)) = true)
      ↔ (env.ONLY_MY = false ∨ slave.value = 0x140
          ∨ (bitOf mode = false ∧ slave.value = 0xFFF)) := by
    simp [MY_ADDRESS, BROADCAST_ADDRESS, or_assoc]
  rw [hrun]
  refine ⟨s1, h1, by rw [ho, hoob], ?_, ?_⟩
  · intro h
    rw [h2, if_pos (hcond.mpr h)]
  · intro h
    rw [h2, if_neg (fun hc => h (hcond.mp hc))]

set_option maxRecDepth 100000 in
/-- Witness of C18, Scenario D: with `ONLY_MY` true, a frame in Broadcast mode for the
broadcast address 0xFFF is dumped, though it is not addressed to this node. -/
theorem C18_address_filter_witness :
    (Env.shipped (fun k => k)).ONLY_MY = true
    ∧ (nominalField 12 0xFFF).value ≠ 0x140
    ∧ (nominalField 8 1).value ≤ 32
    ∧ ∃ s1, AvcReadMessage (Env.shipped (fun k => k)) false broadcastScene = some (false, s1)
      ∧ s1.oob = broadcastScene.oob
      ∧ s1.serial = broadcastScene.serial ++
          [SerialLine.dump false (bitOf 9) (nominalField 12 0x130).value
            (nominalField 12 0xFFF).value (nominalField 4 0xF).value (nominalField 8 1).value
            ([(nominalField 8 0x1F, 9)].map (fun p => p.1.value))] :=
  ⟨rfl, by decide, by decide,
    (C18_address_filter (Env.shipped (fun k => k)) broadcastScene 42 9
      (nominalField 12 0x130) (nominalField 12 0xFFF) 9 (nominalField 4 0xF) 9
      (nominalField 8 1) 9 [(nominalField 8 0x1F, 9)] []
      (by decide) (by decide) (by decide) (by decide) (by decide) (by decide) (by decide)
      (by decide) (by decide) (by decide) (by decide) (by decide) (by decide)
      (fun _ _ _ _ _ _ h => by simp at h)
      (by decide)).imp
      (fun _ h => ⟨h.1, h.2.1, h.2.2.1 (Or.inr (Or.inr ⟨by decide, by decide⟩))⟩)⟩

/-! ## AvcReadMessage: the acknowledge slots -/

theorem storeData_out (i v : Nat) (s : State) : (storeData i v s).out = s.out := by
  unfold storeData
  split <;> rfl

theorem out_afterData_forMe (data : List (RxField × Nat)) :
    ∀ (i : Nat) (s : State),
      (afterData true data i s).out = s.out ++ List.replicate data.length (Event.ackDrive 1 9) := by
  induction data with
  | nil => intro i s; simp [afterData]
  | cons p more ih =>
    intro i s
    obtain ⟨f, a⟩ := p
    simp only [afterData]
    rw [ih]
    simp only [afterAck, afterField, if_true, storeData_out, List.length_cons,
      List.replicate_succ, List.append_assoc, List.singleton_append]

/-- What the node has put out once a whole frame has been read. -/
theorem afterFrame_out (mode : Nat) (master slave : RxField) (a0 : Nat) (control : RxField)
    (a1 : Nat) (length : RxField) (a2 : Nat) (data : List (RxField × Nat)) (s : State) :
    (afterFrame mode master slave a0 control a1 length a2 data s).out =
      s.out ++ (if slave.value = 0x140 then List.replicate (3 + data.length) (Event.ackDrive 1 9)
        else []) := by
  by_cases h : slave.value = 0x140
  · have hf : (slave.value == MY_ADDRESS) = true := by simp [h, MY_ADDRESS]
    unfold afterFrame
    rw [hf, out_afterData_forMe, if_pos h]
    simp only [afterAck, afterField, afterSlave, afterMaster, afterStart, if_true]
    have h3 : 3 + data.length = data.length + 1 + 1 + 1 := by omega
    rw [h3]
    simp only [List.replicate_succ, List.append_assoc, List.singleton_append,
      List.cons_append, List.nil_append]
  · have hf : (slave.value == MY_ADDRESS) = false := by simp [h, MY_ADDRESS]
    rw [(afterFrame_facts mode master slave a0 control a1 length a2 data s).2.2 hf, if_neg h]
    simp

/-! ## AvcReadMessage: what a frame for another node puts out -/

theorem readLoop_out :
    ∀ (n data : Nat) (s : State) (v : Nat) (s1 : State),
      readLoop n data s = some (v, s1) → s1.out = s.out := by
  intro n
  induction n with
  | zero =>
    intro data s v s1 h
    simp only [readLoop, Option.some.injEq, Prod.mk.injEq] at h
    rw [← h.2]
  | succ n ih =>
    intro data s v s1 h
    simp only [readLoop] at h
    cases hp : s.pulses with
    | nil => simp [hp] at h
    | cons d rest =>
      simp only [hp] at h
      split at h
      · have h2 := ih _ _ _ _ h
        exact h2
      · have h2 := ih _ _ _ _ h
        exact h2

theorem ReadBits_out (n : Nat) (s : State) (v : Nat) (s1 : State)
    (h : ReadBits n s = some (v, s1)) : s1.out = s.out := by
  have h2 := readLoop_out _ _ _ _ _ h
  exact h2

theorem parityMismatch_out (s : State) (b : Bool) (s1 : State)
    (h : parityMismatch s = some (b, s1)) : s1.out = s.out := by
  unfold parityMismatch at h
  cases hr : ReadBits 1 s with
  | none => simp [hr] at h
  | some x =>
    obtain ⟨v, s2⟩ := x
    simp only [hr, Option.some.injEq, Prod.mk.injEq] at h
    rw [← h.2]
    exact ReadBits_out _ _ _ _ hr

theorem ackOrSkip_other_out (s s1 : State) (h : ackOrSkip false s = some s1) :
    s1.out = s.out := by
  simp only [ackOrSkip, Bool.false_eq_true, if_false] at h
  cases hr : ReadBits 1 s with
  | none => simp [hr] at h
  | some x =>
    obtain ⟨v, s2⟩ := x
    simp only [hr, Option.some.injEq] at h
    rw [← h]
    exact ReadBits_out _ _ _ _ hr

theorem parityError_other_out (env : Env) (msg : String) (s : State) :
    (parityError env false msg s).out = s.out := by
  unfold parityError
  cases env.SHOW_ERROR <;> simp [serialPrint]

theorem rxTail_other_out (env : Env) (s : State) (r : Bool) (s1 : State)
    (h : rxTail env false s = some (r, s1)) :
    s1.out = s.out ∨ isPing s = true := by
  by_cases hping : isPing s = true
  · exact Or.inr hping
  · left
    unfold rxTail at h
    simp only [Bool.false_eq_true, if_false, hping, Bool.false_or, Option.some.injEq,
      Prod.mk.injEq] at h
    rw [← h.2]
    cases env.ONLY_MY
    · simp [LedOff, DumpRawMessage]
    · simp only [if_true, LedOff]
      split <;> simp [DumpRawMessage]

theorem rxData_other_out (env : Env) :
    ∀ (k i : Nat) (s : State) (r : Bool) (s1 : State),
      rxData env false k i s = some (r, s1) →
      s1.out = s.out
      ∨ ∃ s2, isPing s2 = true ∧ s2.out = s.out
          ∧ rxTail env false s2 = some (r, s1) := by
  intro k
  induction k with
  | zero =>
    intro i s r s1 h
    simp only [rxData] at h
    rcases rxTail_other_out env s r s1 h with h1 | h1
    · exact Or.inl h1
    · exact Or.inr ⟨s, h1, rfl, h⟩
  | succ k ih =>
    intro i s r s1 h
    rw [rxData] at h
    cases hr : ReadBits 8 s with
    | none => simp [hr] at h
    | some x =>
      obtain ⟨v, s2⟩ := x
      have e2 := ReadBits_out _ _ _ _ hr
      simp only [hr] at h
      cases hm : parityMismatch (storeData i (v % 256) s2) with
      | none => simp [hm] at h
      | some y =>
        obtain ⟨bad, s3⟩ := y
        have e3 := parityMismatch_out _ _ _ hm
        rw [storeData_out] at e3
        simp only [hm] at h
        cases bad with
        | true =>
          simp only [Option.some.injEq, Prod.mk.injEq] at h
          left
          rw [← h.2, parityError_other_out, e3, e2]
        | false =>
          simp only [] at h
          cases ha : ackOrSkip false s3 with
          | none => simp [ha] at h
          | some s4 =>
            have e4 := ackOrSkip_other_out _ _ ha
            simp only [ha] at h
            rcases ih _ _ _ _ h with h1 | ⟨s5, h1, h2, h3⟩
            · exact Or.inl (by rw [h1, e4, e3, e2])
            · exact Or.inr ⟨s5, h1, by rw [h2, e4, e3, e2], h3⟩

theorem rxLength_other_out (env : Env) (s : State) (r : Bool) (s1 : State)
    (h : rxLength env false s = some (r, s1)) :
    s1.out = s.out
    ∨ ∃ s2, isPing s2 = true ∧ s2.out = s.out
        ∧ rxTail env false s2 = some (r, s1) := by
  unfold rxLength at h
  cases hr : ReadBits 8 s with
  | none => simp [hr] at h
  | some x =>
    obtain ⟨v, s2⟩ := x
    have e2 := ReadBits_out _ _ _ _ hr
    simp only [hr] at h
    cases hm : parityMismatch { s2 with DataSize := v % 256 } with
    | none => simp [hm] at h
    | some y =>
      obtain ⟨bad, s3⟩ := y
      have e3 := parityMismatch_out _ _ _ hm
      simp only [hm] at h
      cases bad with
      | true =>
        simp only [Option.some.injEq, Prod.mk.injEq] at h
        left
        rw [← h.2, parityError_other_out, e3]
        exact e2
      | false =>
        simp only [] at h
        cases ha : ackOrSkip false s3 with
        | none => simp [ha] at h
        | some s4 =>
          have e4 := ackOrSkip_other_out _ _ ha
          simp only [ha] at h
          have e : s4.out = s.out := by rw [e4, e3]; exact e2
          rcases rxData_other_out env _ _ _ _ _ h with h1 | ⟨s5, h1, h2, h3⟩
          · exact Or.inl (by rw [h1, e])
          · exact Or.inr ⟨s5, h1, by rw [h2, e], h3⟩

theorem rxControl_other_out (env : Env) (s : State) (r : Bool) (s1 : State)
    (h : rxControl env false s = some (r, s1)) :
    s1.out = s.out
    ∨ ∃ s2, isPing s2 = true ∧ s2.out = s.out
        ∧ rxTail env false s2 = some (r, s1) := by
  unfold rxControl at h
  cases hr : ReadBits 4 s with
  | none => simp [hr] at h
  | some x =>
    obtain ⟨v, s2⟩ := x
    have e2 := ReadBits_out _ _ _ _ hr
    simp only [hr] at h
    cases hm : parityMismatch { s2 with Control := v % 256 } with
    | none => simp [hm] at h
    | some y =>
      obtain ⟨bad, s3⟩ := y
      have e3 := parityMismatch_out _ _ _ hm
      simp only [hm] at h
      cases bad with
      | true =>
        simp only [Option.some.injEq, Prod.mk.injEq] at h
        left
        rw [← h.2, parityError_other_out, e3]
        exact e2
      | false =>
        simp only [] at h
        cases ha : ackOrSkip false s3 with
        | none => simp [ha] at h
        | some s4 =>
          have e4 := ackOrSkip_other_out _ _ ha
          simp only [ha] at h
          have e : s4.out = s.out := by rw [e4, e3]; exact e2
          rcases rxLength_other_out env _ _ _ h with h1 | ⟨s5, h1, h2, h3⟩
          · exact Or.inl (by rw [h1, e])
          · exact Or.inr ⟨s5, h1, by rw [h2, e], h3⟩

theorem showError_out (env : Env) (msg : String) (s : State) :
    (showError env msg s).out = s.out := by
  unfold showError
  split <;> rfl


theorem AvcReadMessage_other_out (env : Env) (inputClear : Bool) (s : State)
    (start mode : Nat) (master slave : RxField) (tail : List Nat) (r : Bool) (s1 : State)
    (hm : master.bits.length = 12) (hs : slave.bits.length = 12)
    (hother : slave.value ≠ 0x140)
    (hp : s.pulses = addressTrain start mode master slave ++ tail)
    (hrun : AvcReadMessage env inputClear s = some (r, s1)) :
    s1.out = s.out
    ∨ ∃ s2, isPing s2 = true ∧ s2.out = s.out
        ∧ rxTail env false s2 = some (r, s1) := by
  cases inputClear with
  | true =>
    simp only [AvcReadMessage, if_true, Option.some.injEq, Prod.mk.injEq] at hrun
    exact Or.inl (by rw [← hrun.2])
  | false =>
    have hp1 : s.pulses = [start, mode] ++ master.pulses ++ (slave.pulses ++ tail) := by
      simp [hp, addressTrain]
    by_cases hstart : 40 < start ∧ start < 47
    · rw [AvcReadMessage_master env s start mode master _ hstart hm hp1] at hrun
      have hq1 : (afterMaster mode master s).pulses = slave.pulses ++ tail := by
        simp [afterMaster, afterField, afterStart, hp1, RxField.pulses, drop_bits]
      cases hmo : master.parityOk with
      | false =>
        simp only [hmo, Bool.false_eq_true, if_false, Option.some.injEq, Prod.mk.injEq] at hrun
        exact Or.inl (by rw [← hrun.2, showError_out]; rfl)
      | true =>
        simp only [hmo, if_true] at hrun
        rw [rxSlave_eq env _ slave tail hs hq1] at hrun
        cases hso : slave.parityOk with
        | false =>
          simp only [hso, Bool.false_eq_true, if_false, Option.some.injEq, Prod.mk.injEq] at hrun
          exact Or.inl (by rw [← hrun.2, showError_out]; rfl)
        | true =>
          have hf : (slave.value == MY_ADDRESS) = false := by
            simp [MY_ADDRESS, hother]
          simp only [hso, if_true, hf] at hrun
          cases ha : ackOrSkip false
              (afterField slave { afterMaster mode master s with SlaveAddress := slave.value }) with
          | none => simp [ha] at hrun
          | some s4 =>
            have e4 := ackOrSkip_other_out _ _ ha
            simp only [ha] at hrun
            have e : s4.out = s.out := by rw [e4]; rfl
            rcases rxControl_other_out env _ _ _ hrun with h1 | ⟨s5, h1, h2, h3⟩
            · exact Or.inl (by rw [h1, e])
            · exact Or.inr ⟨s5, h1, by rw [h2, e], h3⟩
    · have hp2 : s.pulses = start :: (mode :: (master.pulses ++ (slave.pulses ++ tail))) := by
        simpa using hp1
      simp only [AvcReadMessage, Bool.false_eq_true, if_false] at hrun
      rw [getStartBit_cons s start _ hp2] at hrun
      simp only [hstart, decide_False, Option.some.injEq, Prod.mk.injEq] at hrun
      exact Or.inl (by rw [← hrun.2])

/-- C16: the receiver drives the bus in the acknowledge slots exactly when the slave
address it has decoded is the own address 0x140, whatever the mode bit.

On a whole frame whose parity bits all match, the pass reaches line 392 (where decoding
is over) with every pulse of the frame taken from the bus and the registers holding the
decoded fields, whatever was measured in the slots.  When the slave address is 0x140 the
node has put out `3 + n` acknowledge pulses and nothing else, each one with `OUT_SET`
when the counter, reset at the rising edge of the slot, is at 1 and `OUT_CLEAR` when it
is at 9.  When it is another address, the node has put out nothing.

On any pulse train that begins with the addresses of a frame for another node, whatever
follows them (a whole frame, a parity error, a train that stops), a pass that returns
has put out nothing, unless it has reached line 392 with a ping request in the
registers, having put out nothing up to there: the responder then transmits its answer. -/
theorem C16_acknowledge_iff_for_me (env : Env) (s : State) (start mode : Nat)
    (master slave : RxField) (hm : master.bits.length = 12) (hs : slave.bits.length = 12) :
    (∀ (a0 : Nat) (control : RxField) (a1 : Nat) (length : RxField) (a2 : Nat)
        (data : List (RxField × Nat)) (rest : List Nat),
      (40 < start ∧ start < 47) → control.bits.length = 4 → length.bits.length = 8 →
      (∀ p ∈ data, p.1.bits.length = 8 ∧ p.1.parityOk = true) →
      master.parityOk = true → slave.parityOk = true →
      control.parityOk = true → length.parityOk = true →
      data.length = length.value →
      s.pulses = frameTrain start mode master slave a0 control a1 length a2 data ++ rest →
      ∃ sF, AvcReadMessage env false s = rxTail env (slave.value == MY_ADDRESS) sF
        ∧ sF.pulses = rest
        ∧ (sF.Broadcast, sF.MasterAddress, sF.SlaveAddress, sF.Control, sF.DataSize)
            = (bitOf mode, master.value, slave.value, control.value, length.value)
        ∧ (slave.value = 0x140 →
            emitted s sF = List.replicate (3 + length.value) (Event.ackDrive 1 9))
        ∧ (slave.value ≠ 0x140 → emitted s sF = []))
    ∧ (slave.value ≠ 0x140 →
      ∀ (tail : List Nat) (r : Bool) (s1 : State),
        s.pulses = addressTrain start mode master slave ++ tail →
        AvcReadMessage env false s = some (r, s1) →
        emitted s s1 = []
        ∨ ∃ s2, isPing s2 = true ∧ emitted s s2 = []
            ∧ rxTail env false s2 = some (r, s1)) := by
  constructor
  · intro a0 control a1 length a2 data rest hstart hc hl hdata hmo hso hco hlo hn hp
    obtain ⟨hrun, hrest⟩ := AvcReadMessage_frame env s start mode master slave a0 control a1
      length a2 data rest hstart hm hs hc hl hdata hmo hso hco hlo hn hp
    obtain ⟨_, hregs, _⟩ := afterFrame_facts mode master slave a0 control a1 length a2 data s
    have hout := afterFrame_out mode master slave a0 control a1 length a2 data s
    simp only [regView, Prod.mk.injEq] at hregs
    obtain ⟨rB, rM, rS, rC, rN, _⟩ := hregs
    refine ⟨_, hrun, hrest, by rw [rB, rM, rS, rC, rN], ?_, ?_⟩
    · intro h
      rw [if_pos h, hn] at hout
      exact emitted_append s _ _ hout
    · intro h
      rw [if_neg h] at hout
      exact emitted_append s _ _ hout
  · intro hother tail r s1 hp hrun
    rcases AvcReadMessage_other_out env false s start mode master slave tail r s1 hm hs
      hother hp hrun with h | ⟨s2, h1, h2, h3⟩
    · exact Or.inl (emitted_append s _ [] (by rw [h]; simp))
    · exact Or.inr ⟨s2, h1, emitted_append s _ [] (by rw [h2]; simp), h3⟩

set_option maxRecDepth 100000 in
/-- Witness of C16: on a frame with one data byte addressed to this node, four
acknowledge pulses are put out; on the same frame addressed to the node 0x120, nothing
is. -/
theorem C16_acknowledge_iff_for_me_witness :
    (∃ sF, AvcReadMessage (Env.shipped (fun k => k)) false forMeScene
        = rxTail (Env.shipped (fun k => k)) ((nominalField 12 0x140).value == MY_ADDRESS) sF
      ∧ sF.pulses = []
      ∧ emitted forMeScene sF
          = List.replicate (3 + (nominalField 8 1).value) (Event.ackDrive 1 9))
    ∧ (emitted otherScene
          ((AvcReadMessage (Env.shipped (fun k => k)) false otherScene).getD
            (true, otherScene)).2 = []
      ∨ ∃ s2, isPing s2 = true ∧ emitted otherScene s2 = []
          ∧ rxTail (Env.shipped (fun k => k)) false s2
            = some (false,
                ((AvcReadMessage (Env.shipped (fun k => k)) false otherScene).getD
                  (true, otherScene)).2)) :=
  ⟨((C16_acknowledge_iff_for_me (Env.shipped (fun k => k)) forMeScene 42 5
      (nominalField 12 0x130) (nominalField 12 0x140) (by decide) (by decide)).1
      5 (nominalField 4 0xF) 5 (nominalField 8 1) 5 [(nominalField 8 0x1F, 5)] []
      (by decide) (by decide) (by decide) (by decide) (by decide) (by decide)
      (by decide) (by decide) (by decide) (by decide)).imp
      (fun _ h => ⟨h.1, h.2.1, h.2.2.2.1 (by decide)⟩),
    (C16_acknowledge_iff_for_me (Env.shipped (fun k => k)) otherScene 42 5
      (nominalField 12 0x130) (nominalField 12 0x120) (by decide) (by decide)).2
      (by decide)
      ([5] ++ (nominalField 4 0xF).pulses ++ [5] ++ (nominalField 8 1).pulses ++ [5]
        ++ dataTrain [(nominalField 8 0x1F, 5)])
      false
      ((AvcReadMessage (Env.shipped (fun k => k)) false otherScene).getD (true, otherScene)).2
      (by decide) (by decide)⟩

set_option maxRecDepth 100000 in
/-- C17 fails on the code: on a frame in Broadcast mode (mode bit 0) whose slave address
is 0x140, with one data byte, `AvcReadMessage` drives the bus in each of the four
acknowledge slots. -/
theorem C17_broadcast_frame_acknowledged :
    bitOf 9 = false
    ∧ (AvcReadMessage (Env.shipped (fun k => k)) false broadcastForMeScene).map
        (fun r => (r.1, r.2.Broadcast, r.2.SlaveAddress, r.2.out))
      = some (false, false, 0x140, List.replicate 4 (Event.ackDrive 1 9)) := by
  decide

/-! ## AvcReadMessage: the payload buffer -/

set_option maxRecDepth 1000000 in
/-- C19 fails on the code: on a frame whose length field is 33, followed by 33 data
bytes, `AvcReadMessage` stores the last byte at index 32 of the 32-byte array `Data`. -/
theorem C19_store_past_buffer :
    (AvcReadMessage (Env.shipped (fun k => k)) false longFrameScene).map
        (fun r => (r.1, r.2.DataSize, r.2.oob))
      = some (false, 33, [32]) := by
  decide

/-! ## SendMessage: the acknowledge checks -/

theorem checked_all (acks : List Nat) (h : ∀ a ∈ acks, 7 < a) : checked acks = acks := by
  induction acks with
  | nil => rfl
  | cons a as ih =>
    have ha : 7 < a := h a (by simp)
    simp only [checked, if_pos ha]
    rw [ih (fun x hx => h x (by simp [hx]))]

theorem checked_first :
    ∀ (acks : List Nat) (k a : Nat), acks[k]? = some a → (∀ b ∈ acks.take k, 7 < b) →
      ¬ 7 < a → checked acks = acks.take (k + 1) := by
  intro acks
  induction acks with
  | nil => intro k a h; simp at h
  | cons x as ih =>
    intro k a h hpre hfail
    cases k with
    | zero =>
      simp only [List.getElem?_cons_zero, Option.some.injEq] at h
      subst h
      simp [checked, hfail]
    | succ k =>
      have hx : 7 < x := hpre x (by simp)
      simp only [List.getElem?_cons_succ] at h
      simp only [checked, if_pos hx, List.take_succ_cons]
      rw [ih k a h (fun b hb => hpre b (by simp [hb])) hfail]

theorem slotted_nil (fs : List (List Event)) : slotted fs [] = [] := by
  cases fs <;> rfl

theorem noAck_eq (env : Env) (msg : String) (s : State) :
    noAck env msg s = (false, (noAck env msg s).2) := by
  unfold noAck
  split <;> rfl

theorem noAck_bus (env : Env) (msg : String) (s : State) :
    (noAck env msg s).2.out = s.out ∧ (noAck env msg s).2.pulses = s.pulses := by
  unfold noAck
  split <;> exact ⟨rfl, rfl⟩

theorem TxPass_step (env : Env) (msg : String) (s : State) (f : List Event)
    (fs : List (List Event)) (a : Nat) (as rest : List Nat) (p : Bool) (t : Nat)
    (next : State → Option (Bool × State))
    (hnext : 7 < a →
      TxPass { s with ParityBit := p, pulses := as ++ rest, TCNT0 := t,
                      out := s.out ++ (f ++ [ackPulse a]) } fs as rest
        (next { s with ParityBit := p, pulses := as ++ rest, TCNT0 := t,
                       out := s.out ++ (f ++ [ackPulse a]) })) :
    TxPass s (f :: fs) (a :: as) rest
      (if 7 < a then
        next { s with ParityBit := p, pulses := as ++ rest, TCNT0 := t,
                      out := s.out ++ (f ++ [ackPulse a]) }
      else
        some (noAck env msg
          { s with ParityBit := p, pulses := as ++ rest, TCNT0 := t,
                   out := s.out ++ (f ++ [ackPulse a]) })) := by
  by_cases ha : 7 < a
  · obtain ⟨s1, h1, h2, h3⟩ := hnext ha
    rw [if_pos ha, h1]
    refine ⟨s1, ?_, ?_, ?_⟩
    · simp [ha]
    · rw [h2]
      simp [checked, ha, slotted]
    · rw [h3]
      simp [checked, ha]
  · have hd : decide (∀ x ∈ a :: as, 7 < x) = false := by simp [ha]
    unfold TxPass
    rw [if_neg ha, hd, noAck_eq]
    refine ⟨_, rfl, ?_, ?_⟩
    · rw [(noAck_bus _ _ _).1]
      simp [checked, ha, slotted, slotted_nil]
    · rw [(noAck_bus _ _ _).2]
      simp [checked, ha]

theorem sendData_normal (env : Env) (k i : Nat) (s : State) (a : Nat) (more : List Nat)
    (hmode : s.Broadcast = true) (hp : s.pulses = a :: more) :
    sendData env (k + 1) i s =
      if 7 < a then
        sendData env k (i + 1)
          { s with ParityBit := xorAll (bitsMSB 8 (loadData i s)), pulses := more,
                   TCNT0 := if a < 10 then 10 else a,
                   out := s.out ++ (fieldPulses 8 (loadData i s) ++ [ackPulse a]) }
      else
        some (noAck env "SendMessage: No Ack @ Data"
          { s with ParityBit := xorAll (bitsMSB 8 (loadData i s)), pulses := more,
                   TCNT0 := if a < 10 then 10 else a,
                   out := s.out ++ (fieldPulses 8 (loadData i s) ++ [ackPulse a]) }) := by
  have hA := HandleAcknowledge_normal
    (Send1BitWord (Send8BitWord (loadData i s) s).ParityBit (Send8BitWord (loadData i s) s))
    a more
    (by simp [Send1BitWord_eq, Send8BitWord_eq, hmode])
    (by simp [Send1BitWord_eq, Send8BitWord_eq, hp])
  rw [sendData]
  by_cases h : 7 < a
  · rw [decide_eq_true h] at hA
    rw [hA, if_pos h]
    simp [Send1BitWord_eq, Send8BitWord_eq, fieldPulses]
  · rw [decide_eq_false h] at hA
    rw [hA, if_neg h]
    simp [Send1BitWord_eq, Send8BitWord_eq, fieldPulses]

theorem sendData_pass (env : Env) :
    ∀ (k i : Nat) (s : State) (acks rest : List Nat),
      s.Broadcast = true → s.pulses = acks ++ rest → acks.length = k →
      TxPass s ((List.range' i k).map (fun j => fieldPulses 8 (loadData j s))) acks rest
        (sendData env k i s) := by
  intro k
  induction k with
  | zero =>
    intro i s acks rest _ hp hlen
    have h0 : acks = [] := List.length_eq_zero.mp hlen
    subst h0
    exact ⟨s, by simp [sendData], by simp [slotted, checked], by simpa [checked] using hp⟩
  | succ k ih =>
    intro i s acks rest hmode hp hlen
    cases acks with
    | nil => simp at hlen
    | cons a as =>
      rw [sendData_normal env k i s a (as ++ rest) hmode hp]
      simp only [List.range'_succ, List.map_cons]
      apply TxPass_step
      intro _
      have h := ih (i + 1)
        { s with
          ParityBit := xorAll (bitsMSB 8 (loadData i s)), pulses := as ++ rest,
          TCNT0 := if a < 10 then 10 else a,
          out := s.out ++ (fieldPulses 8 (loadData i s) ++ [ackPulse a]) }
        as rest hmode rfl (by simpa using hlen)
      exact h

theorem txData_pass (env : Env) (s : State) (acks rest : List Nat)
    (hmode : s.Broadcast = true) (hp : s.pulses = acks ++ rest)
    (hlen : acks.length = s.DataSize) :
    TxPass s ((payload s).map (fieldPulses 8)) acks rest (txData env s) := by
  obtain ⟨s1, h1, h2, h3⟩ := sendData_pass env s.DataSize 0 s acks rest hmode hp hlen
  have hf : (payload s).map (fieldPulses 8)
      = (List.range' 0 s.DataSize).map (fun j => fieldPulses 8 (loadData j s)) := by
    simp [payload, List.range_eq_range', List.map_map, Function.comp_def]
  unfold txData TxPass
  rw [h1, hf]
  cases hd : decide (∀ a ∈ acks, 7 < a)
  · exact ⟨s1, rfl, h2, h3⟩
  · exact ⟨_, rfl, h2, h3⟩

theorem txLength_pass (env : Env) (s : State) (acks rest : List Nat)
    (hmode : s.Broadcast = true) (hp : s.pulses = acks ++ rest)
    (hlen : acks.length = 1 + s.DataSize) :
    TxPass s (fieldPulses 8 s.DataSize :: (payload s).map (fieldPulses 8)) acks rest
      (txLength env s) := by
  cases acks with
  | nil => simp at hlen; omega
  | cons a as =>
    rw [txLength_normal env s a (as ++ rest) hmode hp]
    apply TxPass_step
    intro _
    have h := txData_pass env
      { s with
        ParityBit := xorAll (bitsMSB 8 s.DataSize), pulses := as ++ rest,
        TCNT0 := if a < 10 then 10 else a,
        out := s.out ++ (fieldPulses 8 s.DataSize ++ [ackPulse a]) }
      as rest hmode rfl (by simp only [List.length_cons] at hlen ⊢; omega)
    exact h

theorem txControl_pass (env : Env) (s : State) (acks rest : List Nat)
    (hmode : s.Broadcast = true) (hp : s.pulses = acks ++ rest)
    (hlen : acks.length = 2 + s.DataSize) :
    TxPass s
      (fieldPulses 4 s.Control :: fieldPulses 8 s.DataSize :: (payload s).map (fieldPulses 8))
      acks rest (txControl env s) := by
  cases acks with
  | nil => simp at hlen; omega
  | cons a as =>
    rw [txControl_normal env s a (as ++ rest) hmode hp]
    apply TxPass_step
    intro _
    have h := txLength_pass env
      { s with
        ParityBit := xorAll (bitsMSB 4 s.Control), pulses := as ++ rest,
        TCNT0 := if a < 10 then 10 else a,
        out := s.out ++ (fieldPulses 4 s.Control ++ [ackPulse a]) }
      as rest hmode rfl (by simp only [List.length_cons] at hlen ⊢; omega)
    exact h

theorem txAddresses_pass (env : Env) (s : State) (acks rest : List Nat)
    (hmode : s.Broadcast = true) (hp : s.pulses = acks ++ rest)
    (hlen : acks.length = 3 + s.DataSize) :
    TxPass s
      (frameFields true s.MasterAddress s.SlaveAddress s.Control s.DataSize (payload s))
      acks rest (txAddresses env s) := by
  cases acks with
  | nil => simp at hlen; omega
  | cons a as =>
    rw [txAddresses_normal env s a (as ++ rest) hmode hp]
    unfold frameFields
    apply TxPass_step
    intro _
    have h := txControl_pass env
      { s with
        ParityBit := xorAll (bitsMSB 12 s.SlaveAddress), pulses := as ++ rest,
        TCNT0 := if a < 10 then 10 else a,
        out := s.out ++ ([startPulse, bitPulse true] ++ fieldPulses 12 s.MasterAddress
          ++ fieldPulses 12 s.SlaveAddress ++ [ackPulse a]) }
      as rest hmode rfl (by simp only [List.length_cons] at hlen ⊢; omega)
    exact h

/-- `SendMessage` in normal mode, the bus found free, the line falling at `acks` in the
`3 + DataSize` acknowledge slots. -/
theorem SendMessage_pass (env : Env) (fuel : Nat) (s s0 : State) (acks rest : List Nat)
    (hmode : s.Broadcast = true) (hfree : waitBusFree fuel s = some s0)
    (hp : s.pulses = acks ++ rest) (hlen : acks.length = 3 + s.DataSize) :
    TxPass s
      (frameFields true s.MasterAddress s.SlaveAddress s.Control s.DataSize (payload s))
      acks rest (SendMessage env s) := by
  obtain ⟨t, ps, hs0⟩ := waitBusFree_frame fuel s s0 hfree
  have hw := waitBusFree_enough fuel s s0 hfree
  unfold SendMessage
  rw [hw]
  subst hs0
  have h := txAddresses_pass env (LedOn { s with TCNT0 := t, polls := ps }) acks rest hmode hp
    hlen
  exact h

/-! ## SendMessage in broadcast mode -/

theorem TxBroadcast_step (s : State) (f : List Event) (fs : List (List Event)) (p : Bool)
    (next : State → Option (Bool × State))
    (hnext : TxBroadcast
      { s with ParityBit := p, TCNT0 := 10, out := s.out ++ (f ++ [bitPulse false]) } fs
      (next { s with ParityBit := p, TCNT0 := 10, out := s.out ++ (f ++ [bitPulse false]) })) :
    TxBroadcast s (f :: fs)
      (next { s with ParityBit := p, TCNT0 := 10, out := s.out ++ (f ++ [bitPulse false]) }) := by
  obtain ⟨s1, h1, h2, h3⟩ := hnext
  refine ⟨s1, h1, ?_, h3⟩
  rw [h2]
  simp [slotted, List.replicate_succ]

theorem sendData_broadcast (env : Env) (k i : Nat) (s : State) (hmode : s.Broadcast = false) :
    sendData env (k + 1) i s =
      sendData env k (i + 1)
        { s with ParityBit := xorAll (bitsMSB 8 (loadData i s)), TCNT0 := 10,
                 out := s.out ++ (fieldPulses 8 (loadData i s) ++ [bitPulse false]) } := by
  have hA := HandleAcknowledge_broadcast
    (Send1BitWord (Send8BitWord (loadData i s) s).ParityBit (Send8BitWord (loadData i s) s))
    (by simp [Send1BitWord_eq, Send8BitWord_eq, hmode])
  rw [sendData, hA]
  simp [Send1BitWord_eq, Send8BitWord_eq, fieldPulses]

theorem sendData_quiet (env : Env) :
    ∀ (k i : Nat) (s : State), s.Broadcast = false →
      TxBroadcast s ((List.range' i k).map (fun j => fieldPulses 8 (loadData j s)))
        (sendData env k i s) := by
  intro k
  induction k with
  | zero =>
    intro i s _
    exact ⟨s, by simp [sendData], by simp [slotted], rfl⟩
  | succ k ih =>
    intro i s hmode
    rw [sendData_broadcast env k i s hmode]
    simp only [List.range'_succ, List.map_cons]
    apply TxBroadcast_step
    have h := ih (i + 1)
      { s with
        ParityBit := xorAll (bitsMSB 8 (loadData i s)), TCNT0 := 10,
        out := s.out ++ (fieldPulses 8 (loadData i s) ++ [bitPulse false]) } hmode
    exact h

theorem txData_quiet (env : Env) (s : State) (hmode : s.Broadcast = false) :
    TxBroadcast s ((payload s).map (fieldPulses 8)) (txData env s) := by
  obtain ⟨s1, h1, h2, h3⟩ := sendData_quiet env s.DataSize 0 s hmode
  have hf : (payload s).map (fieldPulses 8)
      = (List.range' 0 s.DataSize).map (fun j => fieldPulses 8 (loadData j s)) := by
    simp [payload, List.range_eq_range', List.map_map, Function.comp_def]
  unfold txData TxBroadcast
  rw [h1, hf]
  exact ⟨_, rfl, h2, h3⟩

theorem txLength_quiet (env : Env) (s : State) (hmode : s.Broadcast = false) :
    TxBroadcast s (fieldPulses 8 s.DataSize :: (payload s).map (fieldPulses 8))
      (txLength env s) := by
  have hA := HandleAcknowledge_broadcast
    (Send1BitWord (Send8BitWord s.DataSize s).ParityBit (Send8BitWord s.DataSize s))
    (by simp [Send1BitWord_eq, Send8BitWord_eq, hmode])
  have he : txLength env s = txData env
      { s with ParityBit := xorAll (bitsMSB 8 s.DataSize), TCNT0 := 10,
               out := s.out ++ (fieldPulses 8 s.DataSize ++ [bitPulse false]) } := by
    unfold txLength
    simp only []
    rw [hA]
    simp [Send1BitWord_eq, Send8BitWord_eq, fieldPulses]
  rw [he]
  apply TxBroadcast_step
  have h := txData_quiet env
    { s with
      ParityBit := xorAll (bitsMSB 8 s.DataSize), TCNT0 := 10,
      out := s.out ++ (fieldPulses 8 s.DataSize ++ [bitPulse false]) } hmode
  exact h

theorem txControl_quiet (env : Env) (s : State) (hmode : s.Broadcast = false) :
    TxBroadcast s
      (fieldPulses 4 s.Control :: fieldPulses 8 s.DataSize :: (payload s).map (fieldPulses 8))
      (txControl env s) := by
  have hA := HandleAcknowledge_broadcast
    (Send1BitWord (Send4BitWord s.Control s).ParityBit (Send4BitWord s.Control s))
    (by simp [Send1BitWord_eq, Send4BitWord_eq, hmode])
  have he : txControl env s = txLength env
      { s with ParityBit := xorAll (bitsMSB 4 s.Control), TCNT0 := 10,
               out := s.out ++ (fieldPulses 4 s.Control ++ [bitPulse false]) } := by
    unfold txControl
    simp only []
    rw [hA]
    simp [Send1BitWord_eq, Send4BitWord_eq, fieldPulses]
  rw [he]
  apply TxBroadcast_step
  have h := txLength_quiet env
    { s with
      ParityBit := xorAll (bitsMSB 4 s.Control), TCNT0 := 10,
      out := s.out ++ (fieldPulses 4 s.Control ++ [bitPulse false]) } hmode
  exact h

theorem txAddresses_quiet (env : Env) (s : State) (hmode : s.Broadcast = false) :
    TxBroadcast s
      (frameFields false s.MasterAddress s.SlaveAddress s.Control s.DataSize (payload s))
      (txAddresses env s) := by
  have hA := HandleAcknowledge_broadcast
    { s with ParityBit := xorAll (bitsMSB 12 s.SlaveAddress), TCNT0 := 10,
             out := s.out ++ ([startPulse, bitPulse s.Broadcast]
               ++ fieldPulses 12 s.MasterAddress ++ fieldPulses 12 s.SlaveAddress) }
    hmode
  have he : txAddresses env s = txControl env
      { s with ParityBit := xorAll (bitsMSB 12 s.SlaveAddress), TCNT0 := 10,
               out := s.out ++ ([startPulse, bitPulse false]
                 ++ fieldPulses 12 s.MasterAddress ++ fieldPulses 12 s.SlaveAddress
                 ++ [bitPulse false]) } := by
    unfold txAddresses
    simp only []
    rw [txAddresses_state, hA]
    simp [hmode]
  rw [he]
  unfold frameFields
  apply TxBroadcast_step
  have h := txControl_quiet env
    { s with
      ParityBit := xorAll (bitsMSB 12 s.SlaveAddress), TCNT0 := 10,
      out := s.out ++ ([startPulse, bitPulse false] ++ fieldPulses 12 s.MasterAddress
        ++ fieldPulses 12 s.SlaveAddress ++ [bitPulse false]) } hmode
  exact h

/-- `SendMessage` in broadcast mode, the bus found free. -/
theorem SendMessage_quiet (env : Env) (fuel : Nat) (s s0 : State)
    (hmode : s.Broadcast = false) (hfree : waitBusFree fuel s = some s0) :
    TxBroadcast s
      (frameFields false s.MasterAddress s.SlaveAddress s.Control s.DataSize (payload s))
      (SendMessage env s) := by
  obtain ⟨t, ps, hs0⟩ := waitBusFree_frame fuel s s0 hfree
  have hw := waitBusFree_enough fuel s s0 hfree
  unfold SendMessage
  rw [hw]
  subst hs0
  have h := txAddresses_quiet env (LedOn { s with TCNT0 := t, polls := ps }) hmode
  exact h

/-! ## SendMessage: the first check that fails, broadcast frames -/

theorem slotted_getLast :
    ∀ (fs : List (List Event)) (es : List Event), es ≠ [] → es.length ≤ fs.length →
      (slotted fs es).getLast? = es.getLast? := by
  intro fs
  induction fs with
  | nil =>
    intro es hne hlen
    cases es with
    | nil => exact absurd rfl hne
    | cons e es => simp at hlen
  | cons f fs ih =>
    intro es hne hlen
    cases es with
    | nil => exact absurd rfl hne
    | cons e es =>
      cases es with
      | nil => simp [slotted, slotted_nil]
      | cons e2 es =>
        have h := ih (e2 :: es) (by simp) (by simpa using hlen)
        have hne2 : slotted fs (e2 :: es) ≠ [] := by
          intro h0
          rw [h0] at h
          have h5 : (e2 :: es).getLast? ≠ none := by
            rw [Ne, List.getLast?_eq_none_iff]
            simp
          exact h5 h.symm
        rw [slotted, List.getLast?_append_of_ne_nil _ hne2, h]
        simp [List.getLast?_cons_cons]

theorem take_getLast (l : List Nat) (k a : Nat) (h : l[k]? = some a) :
    (l.take (k + 1)).getLast? = some a := by
  have hk : k < l.length := by
    rcases Nat.lt_or_ge k l.length with h1 | h1
    · exact h1
    · rw [List.getElem?_eq_none h1] at h; simp at h
  rw [List.getLast?_eq_getElem?, List.length_take, Nat.min_eq_left (by omega)]
  simp [List.getElem?_take, h]

theorem payload_length (s : State) : (payload s).length = s.DataSize := by
  simp [payload]

theorem slotted_length (e : Event) :
    ∀ fs : List (List Event), (∀ f ∈ fs, f.length = 9) →
      (slotted fs (List.replicate fs.length e)).length = 10 * fs.length := by
  intro fs
  induction fs with
  | nil => intro _; rfl
  | cons f fs ih =>
    intro h
    have hf := h f (by simp)
    have h2 := ih (fun g hg => h g (by simp [hg]))
    simp only [List.length_cons, List.replicate_succ, slotted, List.length_append,
      List.length_singleton, List.length_nil, h2, hf]
    omega

/-- C11: `SendMessage` returns true exactly when every one of its `3 + n` acknowledge
checks reports an acknowledge, and the first check that does not ends the transmission.

Once the bus has been found free: in Broadcast mode, where every check reports an
acknowledge, it returns true.  In Normal mode, with the line falling at `acks[j]` ticks
in the slot of check `j` (a check reports an acknowledge when that is more than 7), it
returns true when every entry of `acks` is above 7 and false otherwise; when all are,
the whole frame is put out; when check `k` is the first one that fails, what is put out
is the fields up to field `k`, each followed by its slot, the slot of check `k` is the
last pulse, and the pulses of the slots after it stay on the line: the fields after
field `k` are not sent. -/
theorem C11_first_failure_aborts (env : Env) (fuel : Nat) (s s0 : State)
    (hfree : waitBusFree fuel s = some s0) :
    (s.Broadcast = false → ∃ s1, SendMessage env s = some (true, s1))
    ∧ (s.Broadcast = true →
      ∀ acks rest : List Nat, s.pulses = acks ++ rest → acks.length = 3 + s.DataSize →
      ∃ s1, SendMessage env s = some (decide (∀ a ∈ acks, 7 < a), s1)
        ∧ ((∀ a ∈ acks, 7 < a) →
            emitted s s1 =
              slotted (frameFields true s.MasterAddress s.SlaveAddress s.Control s.DataSize
                (payload s)) (acks.map ackPulse)
            ∧ s1.pulses = rest)
        ∧ (∀ k a : Nat, acks[k]? = some a → (∀ b ∈ acks.take k, 7 < b) → ¬ 7 < a →
            emitted s s1 =
              slotted (frameFields true s.MasterAddress s.SlaveAddress s.Control s.DataSize
                (payload s)) ((acks.take (k + 1)).map ackPulse)
            ∧ (emitted s s1).getLast? = some (ackPulse a)
            ∧ s1.pulses = acks.drop (k + 1) ++ rest)) := by
  constructor
  · intro hmode
    obtain ⟨s1, h1, _, _⟩ := SendMessage_quiet env fuel s s0 hmode hfree
    exact ⟨s1, h1⟩
  · intro hmode acks rest hp hlen
    obtain ⟨s1, h1, h2, h3⟩ := SendMessage_pass env fuel s s0 acks rest hmode hfree hp hlen
    refine ⟨s1, h1, ?_, ?_⟩
    · intro hall
      rw [checked_all acks hall] at h2 h3
      exact ⟨emitted_append s s1 _ h2, by simpa using h3⟩
    · intro k a hk hpre hfail
      have hk1 : k < acks.length := by
        rcases Nat.lt_or_ge k acks.length with h5 | h5
        · exact h5
        · rw [List.getElem?_eq_none h5] at hk; simp at hk
      have hc := checked_first acks k a hk hpre hfail
      have hl : (acks.take (k + 1)).length = k + 1 := by
        rw [List.length_take, Nat.min_eq_left (by omega)]
      rw [hc] at h2 h3
      rw [hl] at h3
      have he := emitted_append s s1 _ h2
      refine ⟨he, ?_, h3⟩
      rw [he, slotted_getLast _ _ (by
          intro h0
          have h6 := congrArg List.length h0
          simp only [List.length_map, hl, List.length_nil] at h6
          omega)
        (by simp only [List.length_map, hl, frameFields, List.length_cons, payload_length]
            omega),
        List.getLast?_map, take_getLast acks k a hk]
      rfl

set_option maxRecDepth 100000 in
/-- Witness of C11: the frame of Scenario A with one data byte, the line let go at 5
ticks in the slot of the control field; `SendMessage` returns false, that slot is the
last pulse and the two pulses left stay on the line. -/
theorem C11_first_failure_aborts_witness :
    noAckScene.Broadcast = true
    ∧ ∃ s1, SendMessage (Env.shipped (fun k => k)) noAckScene
        = some (decide (∀ a ∈ [9, 5, 9, 9], 7 < a), s1)
      ∧ emitted noAckScene s1 =
          slotted (frameFields true noAckScene.MasterAddress noAckScene.SlaveAddress
            noAckScene.Control noAckScene.DataSize (payload noAckScene))
            (([9, 5, 9, 9].take (1 + 1)).map ackPulse)
      ∧ (emitted noAckScene s1).getLast? = some (ackPulse 5)
      ∧ s1.pulses = [9, 5, 9, 9].drop (1 + 1) ++ [] :=
  ⟨by decide,
    ((C11_first_failure_aborts (Env.shipped (fun k => k)) 1 noAckScene
      { noAckScene with TCNT0 := 11, polls := [] } (by decide)).2 (by decide)
      [9, 5, 9, 9] [] (by decide) (by decide)).imp
      (fun _ h => ⟨h.1, h.2.2 1 5 (by decide) (by decide) (by decide)⟩)⟩

/-- C12: in Broadcast mode `SendMessage` does not stop at an acknowledge.  Once the bus
has been found free, whatever the line does afterwards (also when it never moves), it
returns true, having taken no pulse from the line and put out the whole frame: every
field, the `n` data bytes among them, each followed by the bit 0 it sends in the
acknowledge slot, `1 + 44 + 10 * n` pulses. -/
theorem C12_broadcast_never_aborts (env : Env) (fuel : Nat) (s s0 : State)
    (hmode : s.Broadcast = false) (hfree : waitBusFree fuel s = some s0) :
    ∃ s1, SendMessage env s = some (true, s1)
      ∧ emitted s s1 =
          slotted (frameFields false s.MasterAddress s.SlaveAddress s.Control s.DataSize
            (payload s)) (List.replicate (3 + s.DataSize) (bitPulse false))
      ∧ (emitted s s1).length = 1 + (44 + 10 * s.DataSize)
      ∧ s1.pulses = s.pulses := by
  obtain ⟨s1, h1, h2, h3⟩ := SendMessage_quiet env fuel s s0 hmode hfree
  have hlen : (frameFields false s.MasterAddress s.SlaveAddress s.Control s.DataSize
      (payload s)).length = 3 + s.DataSize := by
    simp only [frameFields, List.length_cons, List.length_map, payload_length]
    omega
  rw [hlen] at h2
  have he := emitted_append s s1 _ h2
  refine ⟨s1, h1, he, ?_, h3⟩
  rw [he]
  have hd := slotted_length (bitPulse false) ((payload s).map (fieldPulses 8))
    (by
      intro f hf
      obtain ⟨d, _, rfl⟩ := List.mem_map.mp hf
      simp [fieldPulses, bitsMSB_length])
  rw [List.length_map, payload_length] at hd
  have h3n : 3 + s.DataSize = s.DataSize + 1 + 1 + 1 := by omega
  rw [h3n]
  simp only [frameFields, List.replicate_succ, slotted, List.length_append, List.length_cons,
    List.length_nil, hd, fieldPulses, List.length_map, bitsMSB_length]
  omega

/-- Witness of C12: the broadcast frame `CmdDdisplayReg`, no pulse on the line after the
bus has been found free. -/
theorem C12_broadcast_never_aborts_witness :
    registerScene.Broadcast = false ∧ registerScene.pulses = []
    ∧ ∃ s1, SendMessage (Env.shipped (fun k => k)) registerScene = some (true, s1)
      ∧ emitted registerScene s1 =
          slotted (frameFields false registerScene.MasterAddress registerScene.SlaveAddress
            registerScene.Control registerScene.DataSize (payload registerScene))
            (List.replicate (3 + registerScene.DataSize) (bitPulse false))
      ∧ (emitted registerScene s1).length = 1 + (44 + 10 * registerScene.DataSize)
      ∧ s1.pulses = registerScene.pulses :=
  ⟨by decide, by decide,
    C12_broadcast_never_aborts (Env.shipped (fun k => k)) 1 registerScene
      { registerScene with TCNT0 := 11, polls := [] } (by decide) (by decide)⟩

/-! ## IsAvcBusFree: when the bus is reported free -/

theorem busFreeLoop_free (t : Nat) (rest : List (Bool × Nat)) (ht : 10 < t) :
    ∀ seen : List (Bool × Nat), (∀ p ∈ seen, p.1 = true ∧ p.2 ≤ 10) →
      busFreeLoop (seen ++ (true, t) :: rest) = some (true, t, rest) := by
  intro seen
  induction seen with
  | nil => intro _; simp [busFreeLoop, NORMAL_BIT_LENGTH, ht]
  | cons p seen ih =>
    intro h
    obtain ⟨c, u⟩ := p
    have hp := h (c, u) (by simp)
    simp only [] at hp
    obtain ⟨hc, hu⟩ := hp
    subst hc
    simp only [List.cons_append, busFreeLoop, NORMAL_BIT_LENGTH, if_true]
    rw [if_neg (by omega)]
    exact ih (fun p hp => h p (by simp [hp]))

/-- C21 as stated fails: with the input idle at the polls taken at 4 and at 10 ticks,
every poll with the counter at most 10, and set at the poll taken at 11 ticks,
`IsAvcBusFree` returns false. -/
theorem C21_idle_to_ten_counterexample :
    (∀ p ∈ [(true, 4), (true, 10), (false, 11)], p.2 ≤ 10 → p.1 = true)
    ∧ (IsAvcBusFree { State.reset with polls := [(true, 4), (true, 10), (false, 11)] }).map
        Prod.fst = some false := by
  decide

/-- C21, amended: an idle interval is enough for `IsAvcBusFree` to report the bus free
once it reaches past one normal bit period.  Whenever the input is idle at every poll up
to and including the first poll taken with the counter above 10, `IsAvcBusFree` returns
true at that poll, whatever the input does after it. -/
theorem C21_free_past_ten (s : State) (seen : List (Bool × Nat)) (t : Nat)
    (rest : List (Bool × Nat)) (hp : s.polls = seen ++ (true, t) :: rest)
    (hseen : ∀ p ∈ seen, p.1 = true ∧ p.2 ≤ 10) (ht : 10 < t) :
    IsAvcBusFree s = some (true, { s with TCNT0 := t, polls := rest }) := by
  unfold IsAvcBusFree
  rw [hp, busFreeLoop_free t rest ht seen hseen]

/-- Witness of C21, amended: the input idle at 4, 10 and 11 ticks, set afterwards. -/
theorem C21_free_past_ten_witness :
    IsAvcBusFree { State.reset with polls := [(true, 4), (true, 10), (true, 11), (false, 12)] }
      = some (true, { State.reset with TCNT0 := 11, polls := [(false, 12)] }) :=
  C21_free_past_ten { State.reset with polls := [(true, 4), (true, 10), (true, 11), (false, 12)] }
    [(true, 4), (true, 10)] 11 [(false, 12)] (by decide) (by decide) (by decide)

/-! ## The threshold of 7 ticks in `ReadBits` and in `HandleAcknowledge` -/

/-- C25 as stated fails: a pulse measured at 7 ticks is read as 0 and `ReadBits` returns
with the counter at 7, below 9. -/
theorem C25_zero_not_waited_counterexample :
    (ReadBits 1 { State.reset with pulses := [7] }).map (fun r => (r.1, r.2.TCNT0))
      = some (0, 7) := by
  decide

/-- C25, amended: the wait for 9 ticks is in the branch of `ReadBits` that has read a 1.
When the pulse is measured below 7 ticks and read as 1, `ReadBits` goes on to the next
bit, or returns, with the counter at 9; when the pulse is read as 0 it goes on at once,
with the counter where the line fell, which is at least 7 and is below 9 for a pulse of 7
or 8 ticks. -/
theorem C25_wait_after_one (s : State) (d : Nat) (rest : List Nat) (n data : Nat)
    (hp : s.pulses = d :: rest) :
    (d < 7 →
      readLoop (n + 1) data s =
        readLoop n (((data <<< 1) % 65536) ||| 0x0001)
          { s with pulses := rest, ParityBit := !s.ParityBit, TCNT0 := 9 })
    ∧ (¬ d < 7 →
      readLoop (n + 1) data s =
        readLoop n ((data <<< 1) % 65536) { s with pulses := rest, TCNT0 := d })
    ∧ ∃ r, ReadBits 1 s = some (if d < 7 then 1 else 0, r)
        ∧ r.TCNT0 = (if d < 7 then 9 else d) ∧ 7 ≤ r.TCNT0 ∧ r.pulses = rest := by
  refine ⟨?_, ?_, ?_⟩
  · intro h
    have h9 : waitUntil d BIT_0_HOLD_ON_LENGTH = 9 := by
      simp only [waitUntil, BIT_0_HOLD_ON_LENGTH]
      rw [if_pos (by omega)]
    simp only [readLoop, hp, BIT_HOLD_HALF_PERIOD, h, if_true, h9]
  · intro h
    simp only [readLoop, hp, BIT_HOLD_HALF_PERIOD, h, if_false]
  · rw [read_mode s d rest hp]
    refine ⟨{ s with pulses := rest, ParityBit := bitOf d, TCNT0 := rxTick d }, ?_, rfl, ?_, rfl⟩
    · by_cases h : d < 7 <;> simp [bitOf, boolInt, h]
    · show 7 ≤ rxTick d
      unfold rxTick
      split <;> omega

/-- Witness of C25, amended: a pulse of 5 ticks, read as 1, and the counter at 9. -/
theorem C25_wait_after_one_witness :
    ∃ r, ReadBits 1 { State.reset with pulses := [5, 8] } = some (if 5 < 7 then 1 else 0, r)
      ∧ r.TCNT0 = (if 5 < 7 then 9 else 5) ∧ 7 ≤ r.TCNT0 ∧ r.pulses = [8] :=
  (C25_wait_after_one { State.reset with pulses := [5, 8] } 5 [8] 0 0 (by decide)).2.2

/-- C28 as stated fails: on a pulse of 7 ticks `HandleAcknowledge` in Normal mode reports
no acknowledge, and `ReadBits( 1 )` reads the bit 0. -/
theorem C28_threshold_counterexample :
    sendScene.Broadcast = true
    ∧ (HandleAcknowledge { sendScene with pulses := [7] }).map Prod.fst = some false
    ∧ (ReadBits 1 { sendScene with pulses := [7] }).map Prod.fst = some 0 := by
  decide

/-- C28, amended: for every measured duration `d` other than 7 ticks,
`HandleAcknowledge` in Normal mode reports an acknowledge exactly when `ReadBits( 1 )`
reads a pulse of `d` ticks as 0.  `HandleAcknowledge` reports an acknowledge when
`d > 7`, `ReadBits` reads a 0 when `d ≥ 7`: a pulse of exactly 7 ticks is read as 0 and
is not taken as an acknowledge. -/
theorem C28_ack_versus_bit (s : State) (d : Nat) (rest : List Nat)
    (hmode : s.Broadcast = true) (hp : s.pulses = d :: rest) :
    (HandleAcknowledge s).map Prod.fst = some (decide (7 < d))
    ∧ (ReadBits 1 s).map Prod.fst = some (if d < 7 then 1 else 0)
    ∧ (d ≠ 7 →
        ((HandleAcknowledge s).map Prod.fst = some true
          ↔ (ReadBits 1 s).map Prod.fst = some 0)) := by
  have h1 : (HandleAcknowledge s).map Prod.fst = some (decide (7 < d)) := by
    rw [HandleAcknowledge_normal s d rest hmode hp]; rfl
  have h2 : (ReadBits 1 s).map Prod.fst = some (if d < 7 then 1 else 0) := by
    rw [read_mode s d rest hp]
    by_cases h : d < 7 <;> simp [bitOf, boolInt, h]
  refine ⟨h1, h2, ?_⟩
  intro hne
  rw [h1, h2]
  by_cases h : 7 < d
  · have h3 : ¬ d < 7 := by omega
    simp [h, h3]
  · have h3 : d < 7 := by omega
    simp [h, h3]

/-- Witness of C28, amended: a pulse of 9 ticks is an acknowledge and is read as 0. -/
theorem C28_ack_versus_bit_witness :
    (HandleAcknowledge sendScene).map Prod.fst = some (decide (7 < 9))
    ∧ (ReadBits 1 sendScene).map Prod.fst = some (if 9 < 7 then 1 else 0)
    ∧ (9 ≠ 7 →
        ((HandleAcknowledge sendScene).map Prod.fst = some true
          ↔ (ReadBits 1 sendScene).map Prod.fst = some 0)) :=
  C28_ack_versus_bit sendScene 9 [9, 9, 9] (by decide) (by decide)

/-! ## AvcReadMessage: the value returned -/

theorem rxTail_false (env : Env) (forMe : Bool) (s : State) (r : Bool) (s1 : State)
    (h : rxTail env forMe s = some (r, s1)) : r = false := by
  have key : ∀ s0 : State,
      (if isPing s0 = true then
          match SendMessage env (loadReply s0) with
          | none => none
          | some (_, s5) => some (afterReply env s5)
        else
          some (false, LedOff
            (if env.ONLY_MY = true then
              if (forMe || (!s0.Broadcast && s0.SlaveAddress == BROADCAST_ADDRESS)) = true then
                DumpRawMessage false s0
              else s0
            else DumpRawMessage false s0))) = some (r, s1) → r = false := by
    intro s0 h0
    split at h0
    · cases hs : SendMessage env (loadReply s0) with
      | none => simp [hs] at h0
      | some x =>
        simp only [hs, Option.some.injEq] at h0
        have h1 := congrArg Prod.fst h0
        exact h1.symm
    · rw [Option.some.injEq] at h0
      have h1 := congrArg Prod.fst h0
      exact h1.symm
  exact key _ h

theorem rxData_false (env : Env) (forMe : Bool) :
    ∀ (k i : Nat) (s : State) (r : Bool) (s1 : State),
      rxData env forMe k i s = some (r, s1) → r = false := by
  intro k
  induction k with
  | zero =>
    intro i s r s1 h
    simp only [rxData] at h
    exact rxTail_false env forMe s r s1 h
  | succ k ih =>
    intro i s r s1 h
    rw [rxData] at h
    cases hr : ReadBits 8 s with
    | none => simp [hr] at h
    | some x =>
      obtain ⟨v, s2⟩ := x
      simp only [hr] at h
      cases hm : parityMismatch (storeData i (v % 256) s2) with
      | none => simp [hm] at h
      | some y =>
        obtain ⟨bad, s3⟩ := y
        simp only [hm] at h
        cases bad with
        | true =>
          simp only [Option.some.injEq, Prod.mk.injEq] at h
          exact h.1.symm
        | false =>
          simp only [] at h
          cases ha : ackOrSkip forMe s3 with
          | none => simp [ha] at h
          | some s4 =>
            simp only [ha] at h
            have h2 := ih _ _ _ _ h
            exact h2

theorem rxLength_false (env : Env) (forMe : Bool) (s : State) (r : Bool) (s1 : State)
    (h : rxLength env forMe s = some (r, s1)) : r = false := by
  unfold rxLength at h
  cases hr : ReadBits 8 s with
  | none => simp [hr] at h
  | some x =>
    obtain ⟨v, s2⟩ := x
    simp only [hr] at h
    cases hm : parityMismatch { s2 with DataSize := v % 256 } with
    | none => simp [hm] at h
    | some y =>
      obtain ⟨bad, s3⟩ := y
      simp only [hm] at h
      cases bad with
      | true =>
        simp only [Option.some.injEq, Prod.mk.injEq] at h
        exact h.1.symm
      | false =>
        simp only [] at h
        cases ha : ackOrSkip forMe s3 with
        | none => simp [ha] at h
        | some s4 =>
          simp only [ha] at h
          exact rxData_false env forMe _ _ _ _ _ h

theorem rxControl_false (env : Env) (forMe : Bool) (s : State) (r : Bool) (s1 : State)
    (h : rxControl env forMe s = some (r, s1)) : r = false := by
  unfold rxControl at h
  cases hr : ReadBits 4 s with
  | none => simp [hr] at h
  | some x =>
    obtain ⟨v, s2⟩ := x
    simp only [hr] at h
    cases hm : parityMismatch { s2 with Control := v % 256 } with
    | none => simp [hm] at h
    | some y =>
      obtain ⟨bad, s3⟩ := y
      simp only [hm] at h
      cases bad with
      | true =>
        simp only [Option.some.injEq, Prod.mk.injEq] at h
        exact h.1.symm
      | false =>
        simp only [] at h
        cases ha : ackOrSkip forMe s3 with
        | none => simp [ha] at h
        | some s4 =>
          simp only [ha] at h
          exact rxLength_false env forMe _ _ _ h

theorem rxSlave_false (env : Env) (s : State) (r : Bool) (s1 : State)
    (h : rxSlave env s = some (r, s1)) : r = false := by
  unfold rxSlave at h
  cases hr : ReadBits 12 s with
  | none => simp [hr] at h
  | some x =>
    obtain ⟨v, s2⟩ := x
    simp only [hr] at h
    cases hm : parityMismatch { s2 with SlaveAddress := v } with
    | none => simp [hm] at h
    | some y =>
      obtain ⟨bad, s3⟩ := y
      simp only [hm] at h
      cases bad with
      | true =>
        simp only [Option.some.injEq, Prod.mk.injEq] at h
        exact h.1.symm
      | false =>
        simp only [] at h
        cases ha : ackOrSkip (s3.SlaveAddress == MY_ADDRESS) s3 with
        | none => simp [ha] at h
        | some s4 =>
          simp only [ha] at h
          exact rxControl_false env _ _ _ _ h

theorem AvcReadMessage_false (env : Env) (inputClear : Bool) (s : State) (r : Bool)
    (s1 : State) (h : AvcReadMessage env inputClear s = some (r, s1)) : r = false := by
  unfold AvcReadMessage at h
  split at h
  · simp only [Option.some.injEq, Prod.mk.injEq] at h
    exact h.1.symm
  · cases hg : getStartBit s with
    | none => simp [hg] at h
    | some x =>
      obtain ⟨ok, s2⟩ := x
      simp only [hg] at h
      cases ok with
      | false =>
        simp only [Option.some.injEq, Prod.mk.injEq] at h
        exact h.1.symm
      | true =>
        simp only [] at h
        cases hr : ReadBits 1 (LedOn s2) with
        | none => simp [hr] at h
        | some y =>
          obtain ⟨b, s3⟩ := y
          simp only [hr] at h
          cases hr2 : ReadBits 12 { s3 with Broadcast := b != 0 } with
          | none => simp [hr2] at h
          | some z =>
            obtain ⟨v, s5⟩ := z
            simp only [hr2] at h
            cases hm : parityMismatch { s5 with MasterAddress := v } with
            | none => simp [hm] at h
            | some w =>
              obtain ⟨bad, s7⟩ := w
              simp only [hm] at h
              cases bad with
              | true =>
                simp only [Option.some.injEq, Prod.mk.injEq] at h
                exact h.1.symm
              | false =>
                simp only [] at h
                exact rxSlave_false env _ _ _ h

/-- C22: `AvcReadMessage` returns false on every path.  Whatever the state and the bus,
a pass that returns returns false: with the bus idle on entry (it returns at once, the
state untouched), with a first pulse that is not a start bit (it returns once that pulse
has been measured), after a parity error, after the responder path and after a frame
has been read and dumped. -/
theorem C22_always_false (env : Env) (s : State) :
    (∀ (inputClear r : Bool) (s1 : State),
      AvcReadMessage env inputClear s = some (r, s1) → r = false)
    ∧ AvcReadMessage env true s = some (false, s)
    ∧ (∀ (d : Nat) (rest : List Nat), s.pulses = d :: rest → ¬ (40 < d ∧ d < 47) →
        AvcReadMessage env false s = some (false, { s with pulses := rest, TCNT0 := d })) := by
  refine ⟨fun inputClear r s1 h => AvcReadMessage_false env inputClear s r s1 h, ?_, ?_⟩
  · simp [AvcReadMessage]
  · intro d rest hp hbad
    simp only [AvcReadMessage, Bool.false_eq_true, if_false]
    rw [getStartBit_cons s d rest hp]
    simp [hbad]

set_option maxRecDepth 100000 in
/-- Witness of C22: the pass returns, and returns false, on a frame with a parity error
in the control field, on a ping request, which takes the responder path, and on a frame
for this node, which is dumped. -/
theorem C22_always_false_witness :
    ((AvcReadMessage (Env.shipped (fun k => k)) false badControlScene).isSome = true
      ∧ ((AvcReadMessage (Env.shipped (fun k => k)) false badControlScene).getD
          (true, badControlScene)).1 = false)
    ∧ ((AvcReadMessage (Env.shipped (fun k => k)) false (pingScene 0x140)).isSome = true
      ∧ ((AvcReadMessage (Env.shipped (fun k => k)) false (pingScene 0x140)).getD
          (true, pingScene 0x140)).1 = false)
    ∧ ((AvcReadMessage (Env.shipped (fun k => k)) false forMeScene).isSome = true
      ∧ ((AvcReadMessage (Env.shipped (fun k => k)) false forMeScene).getD
          (true, forMeScene)).1 = false) :=
  ⟨⟨by decide,
      (C22_always_false (Env.shipped (fun k => k)) badControlScene).1 false
        ((AvcReadMessage (Env.shipped (fun k => k)) false badControlScene).getD
          (true, badControlScene)).1
        ((AvcReadMessage (Env.shipped (fun k => k)) false badControlScene).getD
          (true, badControlScene)).2 (by decide)⟩,
    ⟨by decide,
      (C22_always_false (Env.shipped (fun k => k)) (pingScene 0x140)).1 false
        ((AvcReadMessage (Env.shipped (fun k => k)) false (pingScene 0x140)).getD
          (true, pingScene 0x140)).1
        ((AvcReadMessage (Env.shipped (fun k => k)) false (pingScene 0x140)).getD
          (true, pingScene 0x140)).2 (by decide)⟩,
    ⟨by decide,
      (C22_always_false (Env.shipped (fun k => k)) forMeScene).1 false
        ((AvcReadMessage (Env.shipped (fun k => k)) false forMeScene).getD
          (true, forMeScene)).1
        ((AvcReadMessage (Env.shipped (fun k => k)) false forMeScene).getD
          (true, forMeScene)).2 (by decide)⟩⟩

/-! ## The encoders: timing -/

theorem ticks_bits (bs : List Bool) :
    ticks (bs.map (fun b => Event.pulse (if b then 5 else 9) 10)) = 10 * bs.length := by
  induction bs with
  | nil => rfl
  | cons b bs ih =>
    simp only [ticks, List.map_cons, List.sum_cons, Event.period, List.length_cons] at ih ⊢
    rw [ih]
    omega

/-- C23: timing of the encoders under the ideal counter.  Every bit put out by
`Send1BitWord`, `Send4BitWord`, `Send8BitWord` and `Send12BitWord` is one pulse with the
output high for 5 ticks when the bit is 1 and for 9 ticks when it is 0, in a period of 10
ticks; the bits go out most significant first, so that a field of `w` bits takes
`10 * w` ticks whatever its value.  The start bit is one pulse with the output high for
42 ticks in a period of 47 ticks. -/
theorem C23_encoder_timing (s : State) (v : Nat) (b : Bool) :
    (emitted s (Send1BitWord b s) = [Event.pulse (if b then 5 else 9) 10]
      ∧ ticks (emitted s (Send1BitWord b s)) = 10)
    ∧ (emitted s (Send4BitWord v s)
          = (bitsMSB 4 v).map (fun b => Event.pulse (if b then 5 else 9) 10)
      ∧ ticks (emitted s (Send4BitWord v s)) = 10 * 4)
    ∧ (emitted s (Send8BitWord v s)
          = (bitsMSB 8 v).map (fun b => Event.pulse (if b then 5 else 9) 10)
      ∧ ticks (emitted s (Send8BitWord v s)) = 10 * 8)
    ∧ (emitted s (Send12BitWord v s)
          = (bitsMSB 12 v).map (fun b => Event.pulse (if b then 5 else 9) 10)
      ∧ ticks (emitted s (Send12BitWord v s)) = 10 * 12)
    ∧ (emitted s (SendStartBit s) = [Event.pulse 42 47]
      ∧ ticks (emitted s (SendStartBit s)) = 47) := by
  have h1 : emitted s (Send1BitWord b s) = [Event.pulse (if b then 5 else 9) 10] :=
    emitted_append s _ _ (by rw [Send1BitWord_eq]; rfl)
  have h4 : emitted s (Send4BitWord v s)
      = (bitsMSB 4 v).map (fun b => Event.pulse (if b then 5 else 9) 10) :=
    emitted_append s _ _ (by rw [Send4BitWord_eq]; rfl)
  have h8 : emitted s (Send8BitWord v s)
      = (bitsMSB 8 v).map (fun b => Event.pulse (if b then 5 else 9) 10) :=
    emitted_append s _ _ (by rw [Send8BitWord_eq]; rfl)
  have h12 : emitted s (Send12BitWord v s)
      = (bitsMSB 12 v).map (fun b => Event.pulse (if b then 5 else 9) 10) :=
    emitted_append s _ _ (by rw [Send12BitWord_eq]; rfl)
  have h0 : emitted s (SendStartBit s) = [Event.pulse 42 47] :=
    emitted_append s _ _ (by rw [SendStartBit_eq]; rfl)
  refine ⟨⟨h1, ?_⟩, ⟨h4, ?_⟩, ⟨h8, ?_⟩, ⟨h12, ?_⟩, ⟨h0, ?_⟩⟩
  · rw [h1]; rfl
  · rw [h4, ticks_bits, bitsMSB_length]
  · rw [h8, ticks_bits, bitsMSB_length]
  · rw [h12, ticks_bits, bitsMSB_length]
  · rw [h0]; rfl

/-! ## LoadDataInGlogalRegisters -/

theorem loadData_storeData (i v j : Nat) (s : State) (hi : i < 32) (hlen : i < s.Data.length) :
    loadData j (storeData i v s) = if j = i then v else loadData j s := by
  simp only [storeData, if_pos hi, loadData, List.getD_eq_getElem?_getD, List.getElem?_set]
  by_cases hji : j = i
  · subst hji; simp [hlen]
  · have : ¬ i = j := fun h => hji h.symm
    simp [hji, this]

theorem loadLoop_spec (msg : AvcOutMessage) :
    ∀ (k i : Nat) (s : State), i + k ≤ 32 → s.Data.length = 32 →
      regView (loadLoop msg k i s) = regView s
      ∧ ∀ j, loadData j (loadLoop msg k i s) =
          if i ≤ j ∧ j < i + k then msg.Data.getD j 0 % 256 else loadData j s := by
  intro k
  induction k with
  | zero =>
    intro i s _ _
    refine ⟨rfl, fun j => ?_⟩
    rw [if_neg (by omega)]
    rfl
  | succ k ih =>
    intro i s hik hlen
    obtain ⟨h1, h2⟩ := ih (i + 1) (storeData i (msg.Data.getD i 0 % 256) s) (by omega)
      (by rw [storeData_length, hlen])
    refine ⟨?_, fun j => ?_⟩
    · rw [loadLoop, h1, regView_storeData]
    · rw [loadLoop, h2, loadData_storeData i _ j s (by omega) (by omega)]
      by_cases hj : j = i
      · subst hj
        rw [if_neg (by omega), if_pos rfl, if_pos (by omega)]
      · rw [if_neg hj]
        by_cases hr : i + 1 ≤ j ∧ j < i + 1 + k
        · rw [if_pos hr, if_pos (by omega)]
        · rw [if_neg hr, if_neg (by omega)]

theorem LoadDataInGlogalRegisters_eq (msg : AvcOutMessage) (s : State) :
    LoadDataInGlogalRegisters msg s =
      loadLoop msg (msg.DataSize % 256) 0
        { s with
          Broadcast := (msg.Mode % 256) != 0, MasterAddress := MY_ADDRESS,
          SlaveAddress :=
            if boolInt ((msg.Mode % 256) != 0) == MSG_BCAST then BROADCAST_ADDRESS
            else HU_ADDRESS,
          Control := CONTROL_FLAGS, DataSize := msg.DataSize % 256 } := by
  unfold LoadDataInGlogalRegisters
  simp only []
  split <;> rfl

/-- C24: `LoadDataInGlogalRegisters` on a template `msg` (a mode out of `MSG_NORMAL`,
`MSG_BCAST`, a length within the 22 bytes of its array `Data`) leaves in the frame
registers: the mode of the template, the master address 0x140, the slave address 0xFFF
when the mode is Broadcast and 0x130 otherwise, the control field 0xE, the length of the
template, and in `Data[i]` the byte `msg.Data[i]`, for every `i` below the length.  The
template is an argument that is only read: the function returns the new state of the
registers and nothing else. -/
theorem C24_load_template (msg : AvcOutMessage) (s : State)
    (hmode : msg.Mode = MSG_NORMAL ∨ msg.Mode = MSG_BCAST)
    (hlen : msg.Data.length = 22) (hsize : msg.DataSize ≤ 22)
    (hbytes : ∀ d ∈ msg.Data, d < 256) (hbuf : s.Data.length = 32) :
    boolInt (LoadDataInGlogalRegisters msg s).Broadcast = msg.Mode
    ∧ (LoadDataInGlogalRegisters msg s).MasterAddress = 0x140
    ∧ (LoadDataInGlogalRegisters msg s).SlaveAddress
        = (if msg.Mode = MSG_BCAST then 0xFFF else 0x130)
    ∧ (LoadDataInGlogalRegisters msg s).Control = 0xE
    ∧ (LoadDataInGlogalRegisters msg s).DataSize = msg.DataSize
    ∧ ∀ i, i < msg.DataSize →
        msg.Data[i]? = some (loadData i (LoadDataInGlogalRegisters msg s)) := by
  have hsz : msg.DataSize % 256 = msg.DataSize := Nat.mod_eq_of_lt (by omega)
  rw [LoadDataInGlogalRegisters_eq, hsz]
  obtain ⟨h1, h2⟩ := loadLoop_spec msg msg.DataSize 0
    { s with
      Broadcast := (msg.Mode % 256) != 0, MasterAddress := MY_ADDRESS,
      SlaveAddress :=
        if boolInt ((msg.Mode % 256) != 0) == MSG_BCAST then BROADCAST_ADDRESS
        else HU_ADDRESS,
      Control := CONTROL_FLAGS, DataSize := msg.DataSize }
    (by omega) hbuf
  simp only [regView, Prod.mk.injEq] at h1
  obtain ⟨rB, rM, rS, rC, rN, _⟩ := h1
  refine ⟨?_, ?_, ?_, ?_, rN, ?_⟩
  · rw [rB]
    rcases hmode with h | h <;> rw [h] <;> decide
  · rw [rM]; rfl
  · rw [rS]
    rcases hmode with h | h <;> rw [h] <;> decide
  · rw [rC]; rfl
  · intro i hi
    rw [h2 i, if_pos ⟨Nat.zero_le i, by omega⟩]
    have hil : i < msg.Data.length := by omega
    have hget : msg.Data[i]? = some msg.Data[i] := List.getElem?_eq_getElem hil
    have hd : msg.Data.getD i 0 = msg.Data[i] := by
      rw [List.getD_eq_getElem?_getD, hget]; rfl
    rw [hget, hd, Nat.mod_eq_of_lt (hbytes _ (List.getElem_mem hil))]

/-- Witness of C24: the template `CmdDdisplayAnsver2` loaded at start-up. -/
theorem C24_load_template_witness :
    boolInt (LoadDataInGlogalRegisters CmdDdisplayAnsver2 State.reset).Broadcast
        = CmdDdisplayAnsver2.Mode
    ∧ (LoadDataInGlogalRegisters CmdDdisplayAnsver2 State.reset).MasterAddress = 0x140
    ∧ (LoadDataInGlogalRegisters CmdDdisplayAnsver2 State.reset).SlaveAddress
        = (if CmdDdisplayAnsver2.Mode = MSG_BCAST then 0xFFF else 0x130)
    ∧ (LoadDataInGlogalRegisters CmdDdisplayAnsver2 State.reset).Control = 0xE
    ∧ (LoadDataInGlogalRegisters CmdDdisplayAnsver2 State.reset).DataSize
        = CmdDdisplayAnsver2.DataSize
    ∧ ∀ i, i < CmdDdisplayAnsver2.DataSize →
        CmdDdisplayAnsver2.Data[i]?
          = some (loadData i (LoadDataInGlogalRegisters CmdDdisplayAnsver2 State.reset)) :=
  C24_load_template CmdDdisplayAnsver2 State.reset (by decide) (by decide) (by decide)
    (by decide) (by decide)

/-! ## SendMessage: the registers after any transmission -/

theorem snd_of_eq {p : Bool × State} {b : Bool} {s1 : State} (h : p = (b, s1)) : p.2 = s1 :=
  congrArg Prod.snd h

theorem sendData_view (env : Env) :
    ∀ (k i : Nat) (s : State) (b : Bool) (s1 : State),
      sendData env k i s = some (b, s1) → txView s1 = txView s := by
  intro k
  induction k with
  | zero =>
    intro i s b s1 h
    simp only [sendData, Option.some.injEq, Prod.mk.injEq] at h
    rw [← h.2]
  | succ k ih =>
    intro i s b s1 h
    have hv : txView (Send1BitWord (Send8BitWord (loadData i s) s).ParityBit
        (Send8BitWord (loadData i s) s)) = txView s := by
      rw [(txView_Send1BitWord _ _).1, (txView_Send8BitWord _ _).1]
    rw [sendData] at h
    split at h
    · exact absurd h (by simp)
    · rename_i s3 heq
      obtain ⟨h1, _⟩ := HandleAcknowledge_view _ _ _ heq
      rw [Option.some.injEq] at h
      rw [← snd_of_eq h]
      exact ((txView_noAck _ _ _).2.trans h1).trans hv
    · rename_i s3 heq
      obtain ⟨h1, _⟩ := HandleAcknowledge_view _ _ _ heq
      have h2 := ih _ _ _ _ h
      exact (h2.trans h1).trans hv

theorem txData_view (env : Env) (s : State) (b : Bool) (s1 : State)
    (h : txData env s = some (b, s1)) : txView s1 = txView s := by
  unfold txData at h
  split at h
  · exact absurd h (by simp)
  · rename_i s2 heq
    rw [Option.some.injEq] at h
    rw [← snd_of_eq h]
    exact sendData_view env _ _ _ _ _ heq
  · rename_i s2 heq
    rw [Option.some.injEq] at h
    rw [← snd_of_eq h]
    exact ((txView_LedOff _).trans (txView_DumpRawMessage_tx _)).trans
      (sendData_view env _ _ _ _ _ heq)

theorem txLength_view (env : Env) (s : State) (b : Bool) (s1 : State)
    (h : txLength env s = some (b, s1)) : txView s1 = txView s := by
  have hv : txView (Send1BitWord (Send8BitWord s.DataSize s).ParityBit
      (Send8BitWord s.DataSize s)) = txView s := by
    rw [(txView_Send1BitWord _ _).1, (txView_Send8BitWord _ _).1]
  unfold txLength at h
  simp only [] at h
  split at h
  · exact absurd h (by simp)
  · rename_i s3 heq
    obtain ⟨h1, _⟩ := HandleAcknowledge_view _ _ _ heq
    rw [Option.some.injEq] at h
    rw [← snd_of_eq h]
    exact ((txView_noAck _ _ _).2.trans h1).trans hv
  · rename_i s3 heq
    obtain ⟨h1, _⟩ := HandleAcknowledge_view _ _ _ heq
    exact ((txData_view env _ _ _ h).trans h1).trans hv

theorem txControl_view (env : Env) (s : State) (b : Bool) (s1 : State)
    (h : txControl env s = some (b, s1)) : txView s1 = txView s := by
  have hv : txView (Send1BitWord (Send4BitWord s.Control s).ParityBit
      (Send4BitWord s.Control s)) = txView s := by
    rw [(txView_Send1BitWord _ _).1, (txView_Send4BitWord _ _).1]
  unfold txControl at h
  simp only [] at h
  split at h
  · exact absurd h (by simp)
  · rename_i s3 heq
    obtain ⟨h1, _⟩ := HandleAcknowledge_view _ _ _ heq
    rw [Option.some.injEq] at h
    rw [← snd_of_eq h]
    exact ((txView_noAck _ _ _).2.trans h1).trans hv
  · rename_i s3 heq
    obtain ⟨h1, _⟩ := HandleAcknowledge_view _ _ _ heq
    exact ((txLength_view env _ _ _ h).trans h1).trans hv

theorem txAddresses_view (env : Env) (s : State) (b : Bool) (s1 : State)
    (h : txAddresses env s = some (b, s1)) : txView s1 = txView s := by
  unfold txAddresses at h
  simp only [] at h
  rw [txAddresses_state] at h
  split at h
  · exact absurd h (by simp)
  · rename_i s3 heq
    obtain ⟨h1, _⟩ := HandleAcknowledge_view _ _ _ heq
    rw [Option.some.injEq] at h
    rw [← snd_of_eq h]
    exact (txView_noAck _ _ _).2.trans h1
  · rename_i s3 heq
    obtain ⟨h1, _⟩ := HandleAcknowledge_view _ _ _ heq
    exact (txControl_view env _ _ _ h).trans h1

/-- Whenever `SendMessage` returns, the frame registers are as they were. -/
theorem SendMessage_view (env : Env) (s : State) (b : Bool) (s1 : State)
    (h : SendMessage env s = some (b, s1)) : txView s1 = txView s := by
  unfold SendMessage at h
  cases hw : waitBusFree (s.polls.length + 1) s with
  | none => simp [hw] at h
  | some s0 =>
    obtain ⟨t, ps, hs0⟩ := waitBusFree_frame _ s s0 hw
    simp only [hw] at h
    subst hs0
    have h2 := txAddresses_view env _ _ _ h
    exact h2

/-! ## AvcRegisterMe -/

theorem AvcRegisterMe_eq (env : Env) (s : State) :
    AvcRegisterMe env s = SendMessage env (LoadDataInGlogalRegisters CmdDdisplayReg s) := by
  simp [AvcRegisterMe, LoadDataInGlogalRegisters, loadLoop, CmdDdisplayReg, MSG_BCAST, boolInt]

theorem LoadDataInGlogalRegisters_reg (s : State) (hbuf : s.Data.length = 32) :
    (LoadDataInGlogalRegisters CmdDdisplayReg s).Broadcast = false
    ∧ (LoadDataInGlogalRegisters CmdDdisplayReg s).MasterAddress = 0x140
    ∧ (LoadDataInGlogalRegisters CmdDdisplayReg s).SlaveAddress = 0xFFF
    ∧ (LoadDataInGlogalRegisters CmdDdisplayReg s).Control = 0xE
    ∧ (LoadDataInGlogalRegisters CmdDdisplayReg s).DataSize = 1
    ∧ payload (LoadDataInGlogalRegisters CmdDdisplayReg s) = [0x12]
    ∧ (LoadDataInGlogalRegisters CmdDdisplayReg s).out = s.out
    ∧ (LoadDataInGlogalRegisters CmdDdisplayReg s).pulses = s.pulses
    ∧ (LoadDataInGlogalRegisters CmdDdisplayReg s).polls = s.polls := by
  have hne : s.Data ≠ [] := by
    intro h
    rw [h] at hbuf
    simp at hbuf
  obtain ⟨d, tl, hD⟩ := List.exists_cons_of_ne_nil hne
  simp [LoadDataInGlogalRegisters, loadLoop, CmdDdisplayReg, MSG_BCAST, boolInt, storeData,
    payload, loadData, hD, MY_ADDRESS, BROADCAST_ADDRESS, CONTROL_FLAGS, List.range_succ]

/-- C27: `AvcRegisterMe` is the template `CmdDdisplayReg` loaded in the registers and
sent with `SendMessage`: the two calls give the same result from every state.  Once the
bus has been found free it returns true, whatever the line does afterwards, having put
out the frame with mode Broadcast, master 0x140, slave 0xFFF, control 0xE, length 1 and
the payload 0x12, each field followed by a bit 0 in its acknowledge slot. -/
theorem C27_register_is_template (env : Env) (s : State) :
    AvcRegisterMe env s = sendTemplate env CmdDdisplayReg s
    ∧ (∀ (fuel : Nat) (s0 : State), waitBusFree fuel s = some s0 → s.Data.length = 32 →
      ∃ s1, AvcRegisterMe env s = some (true, s1)
        ∧ emitted s s1 =
            slotted (frameFields false 0x140 0xFFF 0xE 1 [0x12])
              (List.replicate 4 (bitPulse false))
        ∧ (s1.Broadcast, s1.MasterAddress, s1.SlaveAddress, s1.Control, s1.DataSize,
            s1.Data.take 1) = (false, 0x140, 0xFFF, 0xE, 1, [0x12])
        ∧ s1.pulses = s.pulses) := by
  refine ⟨AvcRegisterMe_eq env s, ?_⟩
  intro fuel s0 hfree hbuf
  obtain ⟨rB, rM, rS, rC, rN, rD, ro, rp, rq⟩ := LoadDataInGlogalRegisters_reg s hbuf
  obtain ⟨s3, hw⟩ := waitBusFree_polls fuel s s0 (LoadDataInGlogalRegisters CmdDdisplayReg s)
    hfree rq
  obtain ⟨s1, h1, h2, h3⟩ := SendMessage_quiet env fuel _ s3 rB hw
  rw [rM, rS, rC, rN, rD, ro] at h2
  rw [rp] at h3
  have hv := SendMessage_view env _ _ _ h1
  simp only [txView, Prod.mk.injEq] at hv
  obtain ⟨vB, vM, vS, vC, vN, vD, _⟩ := hv
  have hD1 : (LoadDataInGlogalRegisters CmdDdisplayReg s).Data.take 1 = [0x12] := by
    have h5 := rD
    simp only [payload, rN, loadData] at h5
    cases hd : (LoadDataInGlogalRegisters CmdDdisplayReg s).Data with
    | nil => rw [hd] at h5; simp [List.range_succ] at h5
    | cons d tl => rw [hd] at h5; simpa [List.range_succ] using h5
  rw [AvcRegisterMe_eq, h1]
  refine ⟨s1, rfl, emitted_append s s1 _ h2, ?_, h3⟩
  rw [vB, vM, vS, vC, vN, vD, rB, rM, rS, rC, rN, hD1]

/-- Witness of C27: registration at start-up, the line silent once found free. -/
theorem C27_register_is_template_witness :
    idleScene.pulses = []
    ∧ AvcRegisterMe (Env.shipped (fun k => k)) idleScene
        = sendTemplate (Env.shipped (fun k => k)) CmdDdisplayReg idleScene
    ∧ ∃ s1, AvcRegisterMe (Env.shipped (fun k => k)) idleScene = some (true, s1)
      ∧ emitted idleScene s1 =
          slotted (frameFields false 0x140 0xFFF 0xE 1 [0x12])
            (List.replicate 4 (bitPulse false))
      ∧ (s1.Broadcast, s1.MasterAddress, s1.SlaveAddress, s1.Control, s1.DataSize,
          s1.Data.take 1) = (false, 0x140, 0xFFF, 0xE, 1, [0x12])
      ∧ s1.pulses = idleScene.pulses :=
  ⟨by decide, (C27_register_is_template (Env.shipped (fun k => k)) idleScene).1,
    (C27_register_is_template (Env.shipped (fun k => k)) idleScene).2 1
      { idleScene with TCNT0 := 11, polls := [] } (by decide) (by decide)⟩

/-! ## A frame sent and read back -/

theorem bitsOf_widths (bs : List Bool) :
    bitsOf (bs.map (fun b => if b then 5 else 9)) = bs := by
  induction bs with
  | nil => rfl
  | cons b bs ih =>
    simp only [bitsOf, List.map_cons, List.map_map] at ih ⊢
    rw [ih]
    cases b <;> simp [bitOf]

theorem nominalField_facts (w v : Nat) :
    (nominalField w v).bits.length = w
    ∧ (nominalField w v).parityOk = true
    ∧ (nominalField w v).value = v % 2 ^ w := by
  refine ⟨?_, ?_, ?_⟩
  · simp [nominalField, bitsMSB_length]
  · simp only [RxField.parityOk, nominalField, bitsOf_widths]
    cases xorAll (bitsMSB w v) <;> simp [bitOf]
  · simp only [RxField.value, nominalField, bitsOf_widths, valueOf_bitsMSB]

theorem fieldPulses_width (w v : Nat) :
    (fieldPulses w v).map Event.width = (nominalField w v).pulses := by
  simp only [fieldPulses, RxField.pulses, nominalField, List.map_append, List.map_map,
    List.map_cons, List.map_nil]
  congr 1

theorem wireTrain_data :
    ∀ (D xs : List Nat), xs.length = D.length →
      wireTrain (D.map (fieldPulses 8)) xs = dataTrain ((D.map (nominalField 8)).zip xs) := by
  intro D
  induction D with
  | nil => intro xs _; cases xs <;> rfl
  | cons d D ih =>
    intro xs h
    cases xs with
    | nil => simp at h
    | cons x xs =>
      show (fieldPulses 8 d).map Event.width ++ [x] ++ wireTrain (D.map (fieldPulses 8)) xs
        = (nominalField 8 d).pulses ++ [x] ++ dataTrain ((D.map (nominalField 8)).zip xs)
      rw [fieldPulses_width, ih xs (by simpa using h)]

theorem wireTrain_frame (mode : Bool) (M S C n : Nat) (D : List Nat) (x0 x1 x2 : Nat)
    (xs : List Nat) (hx : xs.length = D.length) :
    wireTrain (frameFields mode M S C n D) (x0 :: x1 :: x2 :: xs) =
      frameTrain 42 (if mode then 5 else 9) (nominalField 12 M) (nominalField 12 S) x0
        (nominalField 4 C) x1 (nominalField 8 n) x2 ((D.map (nominalField 8)).zip xs) := by
  simp only [frameFields, wireTrain, frameTrain, addressTrain, List.map_append,
    fieldPulses_width, wireTrain_data D xs hx]
  cases mode <;> simp [startPulse, bitPulse, Event.width]

theorem slotted_width :
    ∀ (fs : List (List Event)) (es : List Event),
      (slotted fs es).map Event.width = wireTrain fs (es.map Event.width) := by
  intro fs
  induction fs with
  | nil => intro es; rfl
  | cons f fs ih =>
    intro es
    cases es with
    | nil => rfl
    | cons e es =>
      simp only [slotted, wireTrain, List.map_cons, List.map_append, List.map_nil, ih]

/-- Line 392 on, for a frame for another node that is not a ping request: the registers
stay as they are, and `Serial` receives the dump of the frame or nothing. -/
theorem rxTail_quiet (env : Env) (s : State) (hping : isPing s = false) :
    ∃ s1, rxTail env false s = some (false, s1)
      ∧ (s1.Broadcast, s1.MasterAddress, s1.SlaveAddress, s1.Control, s1.DataSize, s1.Data,
          s1.pulses) = (s.Broadcast, s.MasterAddress, s.SlaveAddress, s.Control, s.DataSize,
          s.Data, s.pulses)
      ∧ (s1.serial = s.serial
        ∨ s1.serial = s.serial ++ [SerialLine.dump false s.Broadcast s.MasterAddress
            s.SlaveAddress s.Control s.DataSize (s.Data.take s.DataSize)]) := by
  unfold rxTail
  simp only [Bool.false_eq_true, if_false, Bool.false_or]
  rw [if_neg (by rw [hping]; simp)]
  cases ho : env.ONLY_MY <;>
    cases hb : (!s.Broadcast && s.SlaveAddress == BROADCAST_ADDRESS) <;>
    simp [hb, DumpRawMessage, LedOff]

/-- What `SendMessage` puts out when it sends the whole frame, as a receiver measures it
under nominal timing. -/
theorem SendMessage_train (env : Env) (fuel : Nat) (s s0 : State)
    (hfree : waitBusFree fuel s = some s0)
    (hacks : s.Broadcast = true →
      ∃ acks more, s.pulses = acks ++ more ∧ acks.length = 3 + s.DataSize
        ∧ ∀ a ∈ acks, 7 < a) :
    ∃ s1 xs0, SendMessage env s = some (true, s1)
      ∧ nominalTrain s s1 =
          wireTrain (frameFields s.Broadcast s.MasterAddress s.SlaveAddress s.Control
            s.DataSize (payload s)) xs0
      ∧ xs0.length = 3 + s.DataSize := by
  have hlen : ∀ b : Bool, (frameFields b s.MasterAddress s.SlaveAddress s.Control s.DataSize
      (payload s)).length = 3 + s.DataSize := by
    intro b
    simp only [frameFields, List.length_cons, List.length_map, payload_length]
    omega
  cases hB : s.Broadcast with
  | false =>
    obtain ⟨s1, h1, h2, _⟩ := SendMessage_quiet env fuel s s0 hB hfree
    refine ⟨s1, (List.replicate (frameFields false s.MasterAddress s.SlaveAddress s.Control
      s.DataSize (payload s)).length (bitPulse false)).map Event.width, h1, ?_, ?_⟩
    · unfold nominalTrain
      rw [emitted_append s s1 _ h2, slotted_width]
    · rw [List.length_map, List.length_replicate, hlen]
  | true =>
    obtain ⟨acks, more, hp, hl, hall⟩ := hacks hB
    obtain ⟨s1, h1, h2, _⟩ := SendMessage_pass env fuel s s0 acks more hB hfree hp hl
    rw [checked_all acks hall] at h2
    have hd : decide (∀ a ∈ acks, 7 < a) = true := decide_eq_true hall
    rw [hd] at h1
    refine ⟨s1, (acks.map ackPulse).map Event.width, h1, ?_, ?_⟩
    · unfold nominalTrain
      rw [emitted_append s s1 _ h2, slotted_width]
    · rw [List.length_map, List.length_map, hl]

theorem zip_nominal :
    ∀ (D xs : List Nat), xs.length = D.length → (∀ d ∈ D, d < 256) →
      ((D.map (nominalField 8)).zip xs).map (fun p => p.1.value) = D
      ∧ ∀ p ∈ (D.map (nominalField 8)).zip xs, p.1.bits.length = 8 ∧ p.1.parityOk = true := by
  intro D
  induction D with
  | nil => intro xs _ _; simp
  | cons d D ih =>
    intro xs h hb
    cases xs with
    | nil => simp at h
    | cons x xs =>
      obtain ⟨h1, h2⟩ := ih xs (by simpa using h) (fun e he => hb e (by simp [he]))
      obtain ⟨f1, f2, f3⟩ := nominalField_facts 8 d
      have hd : d % 2 ^ 8 = d := Nat.mod_eq_of_lt (hb d (by simp))
      constructor
      · show (nominalField 8 d).value
            :: ((D.map (nominalField 8)).zip xs).map (fun p => p.1.value) = d :: D
        rw [h1, f3, hd]
      · intro p hp
        have hp2 : p = (nominalField 8 d, x) ∨ p ∈ (D.map (nominalField 8)).zip xs :=
          List.mem_cons.mp hp
        rcases hp2 with rfl | hp2
        · exact ⟨f1, f2⟩
        · exact h2 p hp2

/-- A frame as it arrives under nominal timing, for another node and not a ping request:
`AvcReadMessage` reads it whole and the registers hold the frame. -/
theorem AvcReadMessage_nominal (env : Env) (r : State) (mode : Bool) (M S C n : Nat)
    (D xs rest : List Nat)
    (hM : M < 2 ^ 12) (hS : S < 2 ^ 12) (hother : S ≠ 0x140) (hC : C < 2 ^ 4) (hn : n ≤ 32)
    (hD : D.length = n) (hbytes : ∀ d ∈ D, d < 256)
    (hprobe : ∀ t, D ≠ [0x10, t, 0x01])
    (hx : xs.length = 3 + n) (hbuf : r.Data.length = 32)
    (hp : r.pulses = wireTrain (frameFields mode M S C n D) xs ++ rest) :
    ∃ r1, AvcReadMessage env false r = some (false, r1)
      ∧ (r1.Broadcast, r1.MasterAddress, r1.SlaveAddress, r1.Control, r1.DataSize,
          r1.Data.take n) = (mode, M, S, C, n, D)
      ∧ r1.pulses = rest
      ∧ (r1.serial = r.serial
        ∨ r1.serial = r.serial ++ [SerialLine.dump false mode M S C n D]) := by
  obtain ⟨x0, x1, x2, xs, rfl⟩ : ∃ x0 x1 x2 t, xs = x0 :: x1 :: x2 :: t := by
    rcases xs with _ | ⟨x0, _ | ⟨x1, _ | ⟨x2, t⟩⟩⟩
    · exfalso; simp only [List.length_nil] at hx; omega
    · exfalso; simp only [List.length_cons, List.length_nil] at hx; omega
    · exfalso; simp only [List.length_cons, List.length_nil] at hx; omega
    · exact ⟨x0, x1, x2, t, rfl⟩
  · have hxl : xs.length = D.length := by
      simp only [List.length_cons] at hx
      omega
    obtain ⟨hval, hgood⟩ := zip_nominal D xs hxl hbytes
    have hlen : ((D.map (nominalField 8)).zip xs).length = n := by
      have h := congrArg List.length hval
      rw [List.length_map] at h
      rw [h, hD]
    obtain ⟨m1, m2, m3⟩ := nominalField_facts 12 M
    obtain ⟨s1, s2, s3⟩ := nominalField_facts 12 S
    obtain ⟨c1, c2, c3⟩ := nominalField_facts 4 C
    obtain ⟨l1, l2, l3⟩ := nominalField_facts 8 n
    rw [Nat.mod_eq_of_lt hM] at m3
    rw [Nat.mod_eq_of_lt hS] at s3
    rw [Nat.mod_eq_of_lt hC] at c3
    rw [Nat.mod_eq_of_lt (by omega)] at l3
    rw [wireTrain_frame mode M S C n D x0 x1 x2 xs hxl] at hp
    obtain ⟨hrun, hrest⟩ := AvcReadMessage_frame env r 42 (if mode then 5 else 9)
      (nominalField 12 M) (nominalField 12 S) x0 (nominalField 4 C) x1 (nominalField 8 n) x2
      ((D.map (nominalField 8)).zip xs) rest (by decide) m1 s1 c1 l1 hgood m2 s2 c2 l2
      (by rw [hlen, l3]) hp
    obtain ⟨hview, hregs, _⟩ := afterFrame_facts (if mode then 5 else 9) (nominalField 12 M)
      (nominalField 12 S) x0 (nominalField 4 C) x1 (nominalField 8 n) x2
      ((D.map (nominalField 8)).zip xs) r
    obtain ⟨_, _, _, _, hser, _⟩ := rxView_fields _ _ hview
    have hData := afterFrame_Data (if mode then 5 else 9) (nominalField 12 M)
      (nominalField 12 S) x0 (nominalField 4 C) x1 (nominalField 8 n) x2
      ((D.map (nominalField 8)).zip xs) r hbuf (by omega)
    rw [hval, hlen] at hData
    have hmode : bitOf (if mode then 5 else 9) = mode := by cases mode <;> rfl
    rw [hmode, m3, s3, c3, l3] at hregs
    simp only [regView, Prod.mk.injEq] at hregs
    obtain ⟨rB, rM, rS, rC, rN, _⟩ := hregs
    have hforMe : ((nominalField 12 S).value == MY_ADDRESS) = false := by
      rw [s3]
      simp [MY_ADDRESS, hother]
    have hping : isPing (afterFrame (if mode then 5 else 9) (nominalField 12 M)
        (nominalField 12 S) x0 (nominalField 4 C) x1 (nominalField 8 n) x2
        ((D.map (nominalField 8)).zip xs) r) = false := by
      by_contra hne
      have hp1 : isPing (afterFrame (if mode then 5 else 9) (nominalField 12 M)
        (nominalField 12 S) x0 (nominalField 4 C) x1 (nominalField 8 n) x2
        ((D.map (nominalField 8)).zip xs) r) = true := by
        simpa using hne
      simp only [isPing, loadData, rN, hData, Bool.and_eq_true, beq_iff_eq] at hp1
      obtain ⟨⟨h3, h0⟩, h2⟩ := hp1
      rw [h3] at hD
      match D, hD with
      | [d0, d1, d2], _ =>
        simp only [List.cons_append, List.getD_cons_zero, List.getD_cons_succ] at h0 h2
        exact hprobe d1 (by rw [h0, h2])
    obtain ⟨r1, h1, h2, h3⟩ := rxTail_quiet env _ hping
    rw [hrun, hforMe]
    simp only [Prod.mk.injEq] at h2
    obtain ⟨qB, qM, qS, qC, qN, qD, qp⟩ := h2
    refine ⟨r1, h1, ?_, by rw [qp, hrest], ?_⟩
    · rw [qB, qM, qS, qC, qN, qD, rB, rM, rS, rC, rN, hData]
      simp only [Prod.mk.injEq, true_and]
      exact List.take_left' hD
    · rw [rB, rM, rS, rC, rN, hser, hData] at h3
      have ht : (D ++ List.drop n r.Data).take n = D := List.take_left' hD
      rw [ht] at h3
      exact h3

/-- C26: a frame sent and read back.  Let the registers of the sender hold a frame in
either mode, with a master and a slave address of 12 bits, the slave address not 0x140,
a control field of 4 bits, a length `n ≤ 32` and a payload of `n` bytes that is not a
ping request (0x10, any byte, 0x01).  `SendMessage`, once the bus is free (and, in
Normal mode, with every slot acknowledged), sends the whole frame, and the train a
receiver measures under nominal timing is the fields of the frame with one pulse in each
of the `3 + n` acknowledge slots.  Whatever the pulses `xs` in the slots, `AvcReadMessage`
fed that train accepts the start bit, finds no parity error, takes every pulse and
leaves in the frame registers the mode, the two addresses, the control field, the length
and, in `Data[0..n)`, the payload of the frame; `Serial` receives nothing but, where the
address filter lets it through, the dump of that frame. -/
theorem C26_frame_round_trip (env envR : Env) (s r : State) (xs rest : List Nat)
    (hM : s.MasterAddress < 2 ^ 12) (hS : s.SlaveAddress < 2 ^ 12)
    (hother : s.SlaveAddress ≠ 0x140) (hC : s.Control < 2 ^ 4) (hn : s.DataSize ≤ 32)
    (hbytes : ∀ d ∈ payload s, d < 256) (hprobe : ∀ t, payload s ≠ [0x10, t, 0x01])
    (hx : xs.length = 3 + s.DataSize) (hbuf : r.Data.length = 32)
    (hp : r.pulses =
      wireTrain (frameFields s.Broadcast s.MasterAddress s.SlaveAddress s.Control s.DataSize
        (payload s)) xs ++ rest) :
    (∀ (fuel : Nat) (s0 : State), waitBusFree fuel s = some s0 →
      (s.Broadcast = true →
        ∃ acks more, s.pulses = acks ++ more ∧ acks.length = 3 + s.DataSize
          ∧ ∀ a ∈ acks, 7 < a) →
      ∃ s1 xs0, SendMessage env s = some (true, s1)
        ∧ nominalTrain s s1 =
            wireTrain (frameFields s.Broadcast s.MasterAddress s.SlaveAddress s.Control
              s.DataSize (payload s)) xs0
        ∧ xs0.length = 3 + s.DataSize)
    ∧ ∃ r1, AvcReadMessage envR false r = some (false, r1)
      ∧ (r1.Broadcast, r1.MasterAddress, r1.SlaveAddress, r1.Control, r1.DataSize,
          r1.Data.take s.DataSize)
        = (s.Broadcast, s.MasterAddress, s.SlaveAddress, s.Control, s.DataSize, payload s)
      ∧ r1.pulses = rest
      ∧ (r1.serial = r.serial
        ∨ r1.serial = r.serial ++ [SerialLine.dump false s.Broadcast s.MasterAddress
            s.SlaveAddress s.Control s.DataSize (payload s)]) :=
  ⟨fun fuel s0 hfree hacks => SendMessage_train env fuel s s0 hfree hacks,
    AvcReadMessage_nominal envR r s.Broadcast s.MasterAddress s.SlaveAddress s.Control
      s.DataSize (payload s) xs rest hM hS hother hC hn (payload_length s) hbytes hprobe hx
      hbuf hp⟩

set_option maxRecDepth 100000 in
/-- Witness of C26: the frame of Scenario A (mode Normal, master 0x140, slave 0x130,
control 0xE, payload 0x1F) sent with every slot acknowledged, and read back with pulses
of 5 ticks in the four slots. -/
theorem C26_frame_round_trip_witness :
    sendScene.SlaveAddress ≠ 0x140 ∧ payload sendScene = [0x1F]
    ∧ (∃ s1 xs0, SendMessage (Env.shipped (fun k => k)) sendScene = some (true, s1)
      ∧ nominalTrain sendScene s1 =
          wireTrain (frameFields sendScene.Broadcast sendScene.MasterAddress
            sendScene.SlaveAddress sendScene.Control sendScene.DataSize (payload sendScene)) xs0
      ∧ xs0.length = 3 + sendScene.DataSize)
    ∧ ∃ r1, AvcReadMessage (Env.shipped (fun k => k)) false
          { State.reset with
            pulses := wireTrain (frameFields sendScene.Broadcast sendScene.MasterAddress
              sendScene.SlaveAddress sendScene.Control sendScene.DataSize (payload sendScene))
              [5, 5, 5, 5] ++ [] }
        = some (false, r1)
      ∧ (r1.Broadcast, r1.MasterAddress, r1.SlaveAddress, r1.Control, r1.DataSize,
          r1.Data.take sendScene.DataSize)
        = (sendScene.Broadcast, sendScene.MasterAddress, sendScene.SlaveAddress,
            sendScene.Control, sendScene.DataSize, payload sendScene)
      ∧ r1.pulses = []
      ∧ (r1.serial = State.reset.serial
        ∨ r1.serial = State.reset.serial ++ [SerialLine.dump false sendScene.Broadcast
            sendScene.MasterAddress sendScene.SlaveAddress sendScene.Control
            sendScene.DataSize (payload sendScene)]) :=
  ⟨by decide, by decide,
    (C26_frame_round_trip (Env.shipped (fun k => k)) (Env.shipped (fun k => k)) sendScene
      { State.reset with
        pulses := wireTrain (frameFields sendScene.Broadcast sendScene.MasterAddress
          sendScene.SlaveAddress sendScene.Control sendScene.DataSize (payload sendScene))
          [5, 5, 5, 5] ++ [] }
      [5, 5, 5, 5] []
      (by decide) (by decide) (by decide) (by decide) (by decide) (by decide)
      (fun t h => absurd
        ((congrArg List.length h).symm.trans (by decide : (payload sendScene).length = 1))
        (by simp))
      (by decide) (by decide) rfl).imp
      (fun h => h 1 { sendScene with TCNT0 := 11, polls := [] } (by decide)
        (fun _ => ⟨[9, 9, 9, 9], [], by decide, by decide, by decide⟩))
      (fun h => h)⟩

end IEBus
